import Mathlib

/-!
# Music library management API: controllers, middlewares and routes

A shallow embedding of the Express/Mongoose application under `src/`:

* `controllers/{auth,user,artist,album,track,favorite}.js` become functions
  from a request and a world (document store plus a log of the persistence
  calls issued so far) to a response and a world;
* `middlewares/auth.js` becomes functions that either respond or pass the
  request on;
* `routes/*.js` become the table `middlewares` / `controller` over `Endpoint`,
  and `handle` serves a request on a route.

What the repository does not implement is taken through `Env`: the
string-to-number coercion of the runtime, `validator.isEmail`, `bcrypt`,
`jsonwebtoken`, and the schema casts of the object-document mapper.  Theorems
hold for every `Env`; `sampleEnv` is one instance, used to run examples.

Modelling decisions:

* the store is a record of lists, one per collection, in insertion order;
  `_id` is a key and new ids come from a counter;
* a call of the mapper that fails (a cast, a validation, a unique index)
  throws, and the `try`/`catch` of the controller turns that into its 500
  reply; what was written before the throw stays written;
* request values are JSON scalars, numbers being integers, and objects of the
  shape `{ "_id": text }`, which the casts of the mapper read through to the
  text; a value read from an absent key is `undefined`.  Arrays and objects of
  another shape (with a member the runtime or the mapper gives a meaning:
  `length`, `toString`, `valueOf`, a key starting with `$`) are left out;
* a response is the status and the body as the controller hands them to
  `res`; what the HTTP layer sends of them (no body with a 204) is not part of
  it;
* of the timestamps, `createdAt` is kept (controllers return it) and
  `updatedAt`, which no controller reads, is not;
* requests are served one after the other.
-/

namespace MusicLib

/-! ## Values -/

abbrev ObjectId := Nat

/-- A value as a controller reads it from `req.body`, `req.query` or
`req.params`: a JSON scalar, or `idObj s`, the object `{ "_id": s }`;
`undefined` is what reading an absent key gives. -/
inductive JsVal where
  | undefined
  | null
  | bool (b : Bool)
  | num (n : Int)
  | str (s : String)
  | idObj (s : String)
deriving DecidableEq, Repr

/-- The result of the runtime's number coercion: not-a-number, an integer, or a
number that is not an integer (of which only the sign is kept). -/
inductive JsNum where
  | nan
  | int (z : Int)
  | nonint (neg : Bool)
deriving DecidableEq, Repr

/-- A JSON object: its keys in order, each with its value. -/
abbrev Obj := List (String × JsVal)

/-- Property read `o.k` (or destructuring): `undefined` when the key is absent. -/
def Obj.get (o : Obj) (k : String) : JsVal :=
  match o.lookup k with
  | some v => v
  | none => JsVal.undefined

/-- The keys of an object, `Object.keys(o)`. -/
def Obj.keys (o : Obj) : List String :=
  o.map Prod.fst

/-- Length of a string in UTF-16 code units, the `length` property of a string. -/
def jsLength (s : String) : Nat :=
  (s.data.map (fun c => if c.toNat < 65536 then 1 else 2)).sum

/-- Truthiness: what `!v` negates; an object is truthy. -/
def truthy : JsVal → Bool
  | JsVal.undefined => false
  | JsVal.null => false
  | JsVal.bool b => b
  | JsVal.num n => n != 0
  | JsVal.str s => s != ""
  | JsVal.idObj _ => true

/-- Destructuring default `{ k = d }`: the default applies to `undefined` only. -/
def withDefault (v d : JsVal) : JsVal :=
  match v with
  | JsVal.undefined => d
  | _ => v

/-- Claims of a signed token: the payload `login` signs, with the issue and
expiry instants (seconds) the token library adds. -/
structure Claims where
  email : JsVal
  id : ObjectId
  role : String
  iat : Nat
  exp : Nat
deriving DecidableEq, Repr

/-- The collaborators of the application that live outside the repository. -/
structure Env where
  /-- Number coercion of a string by the runtime (`isNaN(s)`, `s < 0`). -/
  strToNum : String → JsNum
  /-- The predicate `validator.isEmail`. -/
  isEmail : String → Bool
  /-- The function `bcrypt.hash(data, 10)`, with the salt it draws. -/
  hash : String → Nat → String
  /-- The function `bcrypt.compare(data, hash)`. -/
  compare : String → String → Bool
  /-- The function `jwt.sign(payload, secret, ...)`. -/
  sign : Claims → String
  /-- Signature check and payload decoding of `jwt.verify`. -/
  decode : String → Option Claims
  /-- Schema cast to `ObjectId`; `none` is a cast error. -/
  castObjectId : JsVal → Option ObjectId
  /-- Schema cast to `String`. -/
  castString : JsVal → Option String
  /-- Schema cast to `Number`. -/
  castNumber : JsVal → Option Int
  /-- Schema cast to `Boolean`. -/
  castBoolean : JsVal → Option Bool

/-- Number coercion of a value, as `isNaN(v)` and `v < 0` perform it; an object
is coerced through the text `[object Object]`, which is no number. -/
def toNumber (env : Env) : JsVal → JsNum
  | JsVal.undefined => JsNum.nan
  | JsVal.null => JsNum.int 0
  | JsVal.bool b => JsNum.int (if b then 1 else 0)
  | JsVal.num n => JsNum.int n
  | JsVal.str s => env.strToNum s
  | JsVal.idObj _ => JsNum.nan

/-- Schema cast to `String`: a string is kept as it is; what becomes of any
other value is the mapper's business. -/
def castStr (env : Env) : JsVal → Option String
  | JsVal.str s => some s
  | v => env.castString v

/-- Schema cast to `Number`: a number is kept as it is. -/
def castNum (env : Env) : JsVal → Option Int
  | JsVal.num n => some n
  | v => env.castNumber v

/-- Schema cast to `Boolean`: a boolean is kept as it is. -/
def castBool (env : Env) : JsVal → Option Bool
  | JsVal.bool b => some b
  | v => env.castBoolean v

/-- The global `isNaN(v)`. -/
def isNaN (env : Env) (v : JsVal) : Bool :=
  match toNumber env v with
  | JsNum.nan => true
  | _ => false

/-- The comparison `v < 0`. -/
def ltZero (env : Env) (v : JsVal) : Bool :=
  match toNumber env v with
  | JsNum.nan => false
  | JsNum.int z => z < 0
  | JsNum.nonint neg => neg

/-- The test `list.includes(v)` for a list of string literals (strict equality). -/
def includesStr (l : List String) (v : JsVal) : Bool :=
  match v with
  | JsVal.str s => l.contains s
  | _ => false

/-- The comparison `v === "lit"`. -/
def strictEqStr (v : JsVal) (lit : String) : Bool :=
  match v with
  | JsVal.str s => s == lit
  | _ => false

/-- The test `v.length <= 4` for a truthy `v`: only a string has a length; for a
number, a boolean or an object `{ "_id": s }`, `undefined <= 4` is false. -/
def lengthLe4 (v : JsVal) : Bool :=
  match v with
  | JsVal.str s => jsLength s ≤ 4
  | _ => false

/-! ## Documents and the store -/

structure User where
  id : ObjectId
  email : String
  password : String
  role : String
  favorites : List ObjectId
  createdAt : Nat
deriving DecidableEq, Repr

structure Artist where
  id : ObjectId
  name : String
  grammy : Int
  hidden : Bool
  createdAt : Nat
deriving DecidableEq, Repr

structure Album where
  id : ObjectId
  name : String
  year : Int
  hidden : Bool
  artist : ObjectId
  createdAt : Nat
deriving DecidableEq, Repr

structure Track where
  id : ObjectId
  name : String
  duration : Int
  hidden : Bool
  album : ObjectId
  artist : ObjectId
  createdAt : Nat
deriving DecidableEq, Repr

structure Favorite where
  id : ObjectId
  item_id : ObjectId
  category : String
  name : String
  createdAt : Nat
deriving DecidableEq, Repr

structure BlacklistToken where
  id : ObjectId
  token : String
  expiresAt : Nat
  createdAt : Nat
deriving DecidableEq, Repr

/-- The document store: one list per collection, in insertion order, and the
counter new `_id`s are taken from. -/
structure Store where
  users : List User
  artists : List Artist
  albums : List Album
  tracks : List Track
  favorites : List Favorite
  blacklist : List BlacklistToken
  nextId : ObjectId
deriving DecidableEq, Repr

/-- The empty store. -/
def Store.empty : Store :=
  { users := [], artists := [], albums := [], tracks := [], favorites := [],
    blacklist := [], nextId := 0 }

inductive Coll where
  | users | artists | albums | tracks | favorites | blacklist
deriving DecidableEq, Repr

/-- A call to the persistence layer. -/
inductive DbOp where
  | query (c : Coll)
  | insert (c : Coll)
  | update (c : Coll)
  | delete (c : Coll)
deriving DecidableEq, Repr

/-- Whether a persistence call can change the store. -/
def DbOp.mutating : DbOp → Bool
  | DbOp.query _ => false
  | _ => true

/-- The store and the persistence calls issued so far (latest last). -/
structure World where
  store : Store
  log : List DbOp
deriving DecidableEq, Repr

/-! ## Computations that may throw -/

/-- Outcome of an awaited call: a value, or a thrown error. -/
inductive Res (α : Type) where
  | ok (a : α)
  | thrown
deriving Repr

/-- A computation over the world that may throw; what it did to the world
before throwing stays done (there is no transaction). -/
def M (α : Type) : Type := World → Res α × World

def M.pure {α : Type} (a : α) : M α :=
  fun w => (Res.ok a, w)

def M.bind {α β : Type} (m : M α) (f : α → M β) : M β :=
  fun w =>
    match m w with
    | (Res.ok a, w1) => f a w1
    | (Res.thrown, w1) => (Res.thrown, w1)

instance : Monad M where
  pure := M.pure
  bind := M.bind

/-- The statement `throw`. -/
def throwErr {α : Type} : M α :=
  fun w => (Res.thrown, w)

/-- Lift of a cast or check that fails by throwing. -/
def orThrow {α : Type} : Option α → M α
  | some a => M.pure a
  | none => throwErr

/-- Read the store. -/
def getStore : M Store :=
  fun w => (Res.ok w.store, w)

/-- Replace the store. -/
def setStore (s : Store) : M Unit :=
  fun w => (Res.ok (), { w with store := s })

/-- Record a persistence call. -/
def logOp (op : DbOp) : M Unit :=
  fun w => (Res.ok (), { w with log := w.log ++ [op] })

/-- A block `try { body } catch (err) { handler }`. -/
def tryCatch {α : Type} (body : M α) (handler : M α) : M α :=
  fun w =>
    match body w with
    | (Res.ok a, w1) => (Res.ok a, w1)
    | (Res.thrown, w1) => handler w1

/-! ## Responses -/

/-- A value of a response record. -/
inductive Cell where
  | oid (i : ObjectId)
  | val (v : JsVal)
  | str (s : String)
  | num (n : Int)
  | bool (b : Bool)
  | time (t : Nat)
deriving DecidableEq, Repr

abbrev Row := List (String × Cell)

/-- A value of the response envelope. -/
inductive Json where
  | null
  | num (n : Nat)
  | str (s : String)
  | row (r : Row)
  | rows (rs : List Row)
  | error
deriving DecidableEq, Repr

inductive ResBody where
  | json (fields : List (String × Json))
  | text (s : String)
deriving DecidableEq, Repr

/-- A response as a controller or middleware hands it to `res`. -/
structure Response where
  status : Nat
  body : ResBody
deriving DecidableEq, Repr

/-- The call `res.status(code).json({ key: code, data, message, error })`, where
`key` is the name the source gives the first field (`status` or `state`). -/
def reply (key : String) (code : Nat) (data : Json) (message : String) (err : Json) :
    Response :=
  { status := code,
    body := ResBody.json
      [(key, Json.num code), ("data", data), ("message", Json.str message), ("error", err)] }

/-- The call `res.sendStatus(code)`: the status, with its reason phrase as the
text body the call sets. -/
def sendStatus (code : Nat) (phrase : String) : Response :=
  { status := code, body := ResBody.text phrase }

/-- A controller body inside `try { ... } catch (err) { return res.status(500)... }`. -/
def catch500 (body : M Response) (onError : Response) : World → Response × World :=
  fun w =>
    match body w with
    | (Res.ok r, w1) => (r, w1)
    | (Res.thrown, w1) => (onError, w1)

/-! ## Requests -/

structure Req where
  /-- The `Authorization` header, when sent. -/
  authorization : Option String
  params : Obj
  query : Obj
  body : Obj
  /-- The payload `req.user` the `auth` middleware sets. -/
  user : Option Claims
  /-- The instant the request is served, in milliseconds. -/
  nowMs : Nat
  /-- The salt the password hash draws while the request is served. -/
  salt : Nat
deriving DecidableEq, Repr

/-! ## The persistence layer

Each function stands for one call of the object-document mapper.  A cast or a
validation that fails, and a violated unique index, throw. -/

/-- Cast of a request value to an `ObjectId` on its way into a query; a failed
cast throws before the store is reached. -/
def castId (env : Env) (v : JsVal) : M ObjectId :=
  orThrow (env.castObjectId v)

/-- The part `.skip(offset).limit(limit)` of a query: both are coerced to
numbers; a limit of zero means no limit; a value that is not a non-negative
integer is refused. -/
def paginate {α : Type} (env : Env) (offset limit : JsVal) (xs : List α) : M (List α) :=
  match toNumber env offset, toNumber env limit with
  | JsNum.int o, JsNum.int l =>
    if o < 0 ∨ l < 0 then throwErr
    else if l = 0 then M.pure (xs.drop o.toNat)
    else M.pure ((xs.drop o.toNat).take l.toNat)
  | _, _ => throwErr

/-- Cast of one key of a `$set` patch: `some none` when the key is absent. -/
def castPatch {α : Type} (cast : JsVal → Option α) (o : Obj) (k : String) :
    Option (Option α) :=
  match o.lookup k with
  | none => some none
  | some v => (cast v).map some

/-- Cast of an optional query filter. -/
def castFilter {α : Type} (cast : JsVal → Option α) : Option JsVal → Option (Option α)
  | none => some none
  | some v => (cast v).map some

/-- Whether a document field passes an optional equality filter. -/
def passes {α : Type} [BEq α] (f : Option α) (x : α) : Bool :=
  match f with
  | none => true
  | some y => x == y

/-- Map a function that may fail over a list; fails when one element does. -/
def mapOpt {α β : Type} (f : α → Option β) : List α → Option (List β)
  | [] => some []
  | a :: as =>
    match f a, mapOpt f as with
    | some b, some bs => some (b :: bs)
    | _, _ => none

/-! ### Users -/

def User.findById (i : ObjectId) : M (Option User) := do
  logOp (DbOp.query Coll.users)
  let s ← getStore
  pure (s.users.find? (fun u => u.id == i))

def User.findOne (env : Env) (email : JsVal) : M (Option User) := do
  logOp (DbOp.query Coll.users)
  let e ← orThrow (castStr env email)
  let s ← getStore
  pure (s.users.find? (fun u => u.email == e))

/-- The query `User.find({ role: ... }).skip(offset).limit(limit)`, the role
filter given as the roles it admits. -/
def User.find (env : Env) (roles : List String) (offset limit : JsVal) : M (List User) := do
  logOp (DbOp.query Coll.users)
  let s ← getStore
  paginate env offset limit (s.users.filter (fun u => roles.contains u.role))

def User.countDocuments : M Nat := do
  logOp (DbOp.query Coll.users)
  let s ← getStore
  pure s.users.length

/-- The call `User.create({ email, password, role })`: `email` is required and
unique, `password` required, `role` one of the three roles. -/
def User.create (env : Env) (email : JsVal) (password : String) (role : JsVal) (now : Nat) :
    M User := do
  logOp (DbOp.insert Coll.users)
  let e ← orThrow (castStr env email)
  let r ← orThrow (castStr env role)
  let s ← getStore
  if e == "" || password == "" || !(["Admin", "Editor", "Viewer"].contains r) then throwErr
  else if s.users.any (fun u => u.email == e) then throwErr
  else do
    let u : User :=
      { id := s.nextId, email := e, password := password, role := r, favorites := [],
        createdAt := now }
    setStore { s with users := s.users ++ [u], nextId := s.nextId + 1 }
    pure u

def User.findByIdAndDelete (i : ObjectId) : M Unit := do
  logOp (DbOp.delete Coll.users)
  let s ← getStore
  setStore { s with users := s.users.filter (fun u => u.id != i) }

/-- The call `User.updateMany({ favorites: fid }, { $pull: { favorites: fid } })`. -/
def User.updateManyPull (fid : ObjectId) : M Unit := do
  logOp (DbOp.update Coll.users)
  let s ← getStore
  setStore { s with users := s.users.map (fun u =>
    if u.favorites.contains fid then { u with favorites := u.favorites.filter (fun x => x != fid) }
    else u) }

/-- The call `User.findByIdAndUpdate(uid, { $pull: { favorites: fid } })`. -/
def User.findByIdAndUpdatePull (uid fid : ObjectId) : M Unit := do
  logOp (DbOp.update Coll.users)
  let s ← getStore
  setStore { s with users := s.users.map (fun u =>
    if u.id == uid then { u with favorites := u.favorites.filter (fun x => x != fid) }
    else u) }

/-- The call `user.save()` on a document read earlier: its fields are written
back; saving a document that is no longer stored throws. -/
def User.save (u : User) : M Unit := do
  logOp (DbOp.update Coll.users)
  let s ← getStore
  if s.users.any (fun x => x.id == u.id) then
    setStore { s with users := s.users.map (fun x => if x.id == u.id then u else x) }
  else throwErr

/-! ### Artists -/

/-- The filter object `getArtists` builds. -/
structure ArtistQuery where
  grammy : Option JsVal
  hidden : Option JsVal

def Artist.find (env : Env) (q : ArtistQuery) (offset limit : JsVal) : M (List Artist) := do
  logOp (DbOp.query Coll.artists)
  let g ← orThrow (castFilter (castNum env) q.grammy)
  let h ← orThrow (castFilter (castBool env) q.hidden)
  let s ← getStore
  paginate env offset limit (s.artists.filter (fun a => passes g a.grammy && passes h a.hidden))

def Artist.findById (i : ObjectId) : M (Option Artist) := do
  logOp (DbOp.query Coll.artists)
  let s ← getStore
  pure (s.artists.find? (fun a => a.id == i))

/-- The call `Artist.create({ name, grammy, hidden })`: `name` is required and
unique. -/
def Artist.create (env : Env) (name grammy hidden : JsVal) (now : Nat) : M Artist := do
  logOp (DbOp.insert Coll.artists)
  let n ← orThrow (castStr env name)
  let g ← orThrow (castNum env grammy)
  let h ← orThrow (castBool env hidden)
  let s ← getStore
  if n == "" then throwErr
  else if s.artists.any (fun a => a.name == n) then throwErr
  else do
    let a : Artist := { id := s.nextId, name := n, grammy := g, hidden := h, createdAt := now }
    setStore { s with artists := s.artists ++ [a], nextId := s.nextId + 1 }
    pure a

/-- The call `Artist.findByIdAndUpdate(id, { $set: patch }, { runValidators: true })`. -/
def Artist.findByIdAndUpdate (env : Env) (i : ObjectId) (patch : Obj) : M Unit := do
  logOp (DbOp.update Coll.artists)
  let n ← orThrow (castPatch (castStr env) patch "name")
  let g ← orThrow (castPatch (castNum env) patch "grammy")
  let h ← orThrow (castPatch (castBool env) patch "hidden")
  let s ← getStore
  if n == some "" then throwErr
  else if s.artists.any (fun a => a.id != i && some a.name == n) then throwErr
  else
    setStore { s with artists := s.artists.map (fun a =>
      if a.id == i then
        { a with name := n.getD a.name, grammy := g.getD a.grammy, hidden := h.getD a.hidden }
      else a) }

def Artist.findByIdAndDelete (i : ObjectId) : M Unit := do
  logOp (DbOp.delete Coll.artists)
  let s ← getStore
  setStore { s with artists := s.artists.filter (fun a => a.id != i) }

/-! ### Albums -/

/-- The filter object `getAlbums` builds. -/
structure AlbumQuery where
  artist : Option JsVal
  hidden : Option JsVal

/-- The query `Album.find(q).populate("artist").skip(offset).limit(limit)`:
each album comes with the artist it refers to, when that artist is stored. -/
def Album.find (env : Env) (q : AlbumQuery) (offset limit : JsVal) :
    M (List (Album × Option Artist)) := do
  logOp (DbOp.query Coll.albums)
  let a ← orThrow (castFilter env.castObjectId q.artist)
  let h ← orThrow (castFilter (castBool env) q.hidden)
  let s ← getStore
  let found ← paginate env offset limit
    (s.albums.filter (fun al => passes a al.artist && passes h al.hidden))
  pure (found.map (fun al => (al, s.artists.find? (fun ar => ar.id == al.artist))))

def Album.findById (i : ObjectId) : M (Option Album) := do
  logOp (DbOp.query Coll.albums)
  let s ← getStore
  pure (s.albums.find? (fun a => a.id == i))

/-- The query `Album.findById(id).populate("artist")`. -/
def Album.findByIdPopulated (i : ObjectId) : M (Option (Album × Option Artist)) := do
  logOp (DbOp.query Coll.albums)
  let s ← getStore
  pure ((s.albums.find? (fun a => a.id == i)).map
    (fun al => (al, s.artists.find? (fun ar => ar.id == al.artist))))

/-- The call `Album.create({ name, year, artist, hidden })`: `name` is required
and unique. -/
def Album.create (env : Env) (name year artist hidden : JsVal) (now : Nat) : M Album := do
  logOp (DbOp.insert Coll.albums)
  let n ← orThrow (castStr env name)
  let y ← orThrow (castNum env year)
  let ar ← orThrow (env.castObjectId artist)
  let h ← orThrow (castBool env hidden)
  let s ← getStore
  if n == "" then throwErr
  else if s.albums.any (fun a => a.name == n) then throwErr
  else do
    let a : Album :=
      { id := s.nextId, name := n, year := y, hidden := h, artist := ar, createdAt := now }
    setStore { s with albums := s.albums ++ [a], nextId := s.nextId + 1 }
    pure a

/-- The call `Album.findByIdAndUpdate(id, { $set: patch }, { runValidators: true })`. -/
def Album.findByIdAndUpdate (env : Env) (i : ObjectId) (patch : Obj) : M Unit := do
  logOp (DbOp.update Coll.albums)
  let n ← orThrow (castPatch (castStr env) patch "name")
  let y ← orThrow (castPatch (castNum env) patch "year")
  let h ← orThrow (castPatch (castBool env) patch "hidden")
  let s ← getStore
  if n == some "" then throwErr
  else if s.albums.any (fun a => a.id != i && some a.name == n) then throwErr
  else
    setStore { s with albums := s.albums.map (fun a =>
      if a.id == i then
        { a with name := n.getD a.name, year := y.getD a.year, hidden := h.getD a.hidden }
      else a) }

def Album.findByIdAndDelete (i : ObjectId) : M Unit := do
  logOp (DbOp.delete Coll.albums)
  let s ← getStore
  setStore { s with albums := s.albums.filter (fun a => a.id != i) }

/-! ### Tracks -/

/-- The filter object `getTracks` builds. -/
structure TrackQuery where
  artist : Option JsVal
  album : Option JsVal
  hidden : Option JsVal

/-- The query `Track.find(q).populate("artist").populate("album").skip(offset).limit(limit)`. -/
def Track.find (env : Env) (q : TrackQuery) (offset limit : JsVal) :
    M (List (Track × Option Artist × Option Album)) := do
  logOp (DbOp.query Coll.tracks)
  let a ← orThrow (castFilter env.castObjectId q.artist)
  let b ← orThrow (castFilter env.castObjectId q.album)
  let h ← orThrow (castFilter (castBool env) q.hidden)
  let s ← getStore
  let found ← paginate env offset limit
    (s.tracks.filter (fun t => passes a t.artist && passes b t.album && passes h t.hidden))
  pure (found.map (fun t =>
    (t, s.artists.find? (fun ar => ar.id == t.artist),
      s.albums.find? (fun al => al.id == t.album))))

def Track.findById (i : ObjectId) : M (Option Track) := do
  logOp (DbOp.query Coll.tracks)
  let s ← getStore
  pure (s.tracks.find? (fun t => t.id == i))

/-- The query `Track.findById(id).populate("artist").populate("album")`. -/
def Track.findByIdPopulated (i : ObjectId) :
    M (Option (Track × Option Artist × Option Album)) := do
  logOp (DbOp.query Coll.tracks)
  let s ← getStore
  pure ((s.tracks.find? (fun t => t.id == i)).map (fun t =>
    (t, s.artists.find? (fun ar => ar.id == t.artist),
      s.albums.find? (fun al => al.id == t.album))))

/-- The call `Track.create({ name, duration, artist, album, hidden })`. -/
def Track.create (env : Env) (name duration artist album hidden : JsVal) (now : Nat) :
    M Track := do
  logOp (DbOp.insert Coll.tracks)
  let n ← orThrow (castStr env name)
  let d ← orThrow (castNum env duration)
  let ar ← orThrow (env.castObjectId artist)
  let al ← orThrow (env.castObjectId album)
  let h ← orThrow (castBool env hidden)
  let s ← getStore
  if n == "" then throwErr
  else do
    let t : Track :=
      { id := s.nextId, name := n, duration := d, hidden := h, album := al, artist := ar,
        createdAt := now }
    setStore { s with tracks := s.tracks ++ [t], nextId := s.nextId + 1 }
    pure t

/-- The call `Track.findByIdAndUpdate(id, { $set: patch }, { runValidators: true })`. -/
def Track.findByIdAndUpdate (env : Env) (i : ObjectId) (patch : Obj) : M Unit := do
  logOp (DbOp.update Coll.tracks)
  let n ← orThrow (castPatch (castStr env) patch "name")
  let d ← orThrow (castPatch (castNum env) patch "duration")
  let h ← orThrow (castPatch (castBool env) patch "hidden")
  let s ← getStore
  if n == some "" then throwErr
  else
    setStore { s with tracks := s.tracks.map (fun t =>
      if t.id == i then
        { t with name := n.getD t.name, duration := d.getD t.duration,
                 hidden := h.getD t.hidden }
      else t) }

def Track.findByIdAndDelete (i : ObjectId) : M Unit := do
  logOp (DbOp.delete Coll.tracks)
  let s ← getStore
  setStore { s with tracks := s.tracks.filter (fun t => t.id != i) }

/-! ### Favorites -/

/-- The query `Favorite.findOne({ item_id })`: the first stored match. -/
def Favorite.findOne (item : ObjectId) : M (Option Favorite) := do
  logOp (DbOp.query Coll.favorites)
  let s ← getStore
  pure (s.favorites.find? (fun f => f.item_id == item))

def Favorite.findById (i : ObjectId) : M (Option Favorite) := do
  logOp (DbOp.query Coll.favorites)
  let s ← getStore
  pure (s.favorites.find? (fun f => f.id == i))

/-- The call `Favorite.create({ item_id, category, name })`: `category` is one
of the three categories, `name` is required. -/
def Favorite.create (env : Env) (item_id category : JsVal) (name : String) (now : Nat) :
    M Favorite := do
  logOp (DbOp.insert Coll.favorites)
  let it ← orThrow (env.castObjectId item_id)
  let c ← orThrow (castStr env category)
  let s ← getStore
  if name == "" || !(["artist", "album", "track"].contains c) then throwErr
  else do
    let f : Favorite :=
      { id := s.nextId, item_id := it, category := c, name := name, createdAt := now }
    setStore { s with favorites := s.favorites ++ [f], nextId := s.nextId + 1 }
    pure f

/-- The call `Favorite.findByIdAndDelete(id)`, with the schema's
`post("findOneAndDelete")` hook, which pulls the deleted id from every user. -/
def Favorite.findByIdAndDelete (i : ObjectId) : M Unit := do
  logOp (DbOp.delete Coll.favorites)
  let s ← getStore
  match s.favorites.find? (fun f => f.id == i) with
  | none => pure ()
  | some deleted => do
    setStore { s with favorites := s.favorites.filter (fun f => f.id != i) }
    User.updateManyPull deleted.id

/-- The query `User.findById(id).select("favorites").populate("favorites")`: the
favorites list with each id replaced by its document; ids without a document
are dropped. -/
def User.findByIdPopulated (i : ObjectId) : M (Option (List Favorite)) := do
  logOp (DbOp.query Coll.users)
  let s ← getStore
  pure ((s.users.find? (fun u => u.id == i)).map (fun u =>
    u.favorites.filterMap (fun fid => s.favorites.find? (fun f => f.id == fid))))

/-! ### Blacklisted tokens -/

def BlacklistToken.findOne (token : String) : M (Option BlacklistToken) := do
  logOp (DbOp.query Coll.blacklist)
  let s ← getStore
  pure (s.blacklist.find? (fun b => b.token == token))

def BlacklistToken.create (token : String) (expiresAt now : Nat) : M BlacklistToken := do
  logOp (DbOp.insert Coll.blacklist)
  let s ← getStore
  if token == "" then throwErr
  else do
    let b : BlacklistToken :=
      { id := s.nextId, token := token, expiresAt := expiresAt, createdAt := now }
    setStore { s with blacklist := s.blacklist ++ [b], nextId := s.nextId + 1 }
    pure b

/-- The expiry sweep of the index `{ expiresAt: 1 }, { expireAfterSeconds: 0 }`:
a record whose `expiresAt` has passed may be removed by the store. -/
def ttlSweep (nowMs : Nat) (s : Store) : Store :=
  { s with blacklist := s.blacklist.filter (fun b => nowMs < b.expiresAt) }

/-! ## Credential and token services -/

/-- Strip `pat` from the front of a text, when the text starts with it. -/
def stripHead : List Char → List Char → Option (List Char)
  | [], s => some s
  | _ :: _, [] => none
  | p :: ps, c :: cs => if p == c then stripHead ps cs else none

/-- The call `text.replace(pat, "")` for a string pattern: the first occurrence
of `pat` is removed. -/
def removeFirst (pat : List Char) : List Char → List Char
  | [] => []
  | c :: cs =>
    match stripHead pat (c :: cs) with
    | some rest => rest
    | none => c :: removeFirst pat cs

/-- The expression `req.header("Authorization")?.replace("Bearer ", "")`. -/
def bearerToken (req : Req) : Option String :=
  req.authorization.map (fun h => String.mk (removeFirst "Bearer ".data h.data))

/-- The call `jwt.verify(token, secret)`: throws on a bad signature and on a
token whose expiry instant has been reached. -/
def jwtVerify (env : Env) (token : String) (nowMs : Nat) : M Claims :=
  match env.decode token with
  | none => throwErr
  | some c => if c.exp ≤ nowMs / 1000 then throwErr else M.pure c

/-- The call `jwt.sign({ email, id, role }, secret, { expiresIn: "24h" })`. -/
def jwtSign (env : Env) (email : JsVal) (id : ObjectId) (role : String) (nowMs : Nat) : String :=
  env.sign { email := email, id := id, role := role, iat := nowMs / 1000,
             exp := nowMs / 1000 + 86400 }

/-- The call `bcrypt.hash(data, 10)`: data that is not a string is refused. -/
def bcryptHash (env : Env) (data : JsVal) (salt : Nat) : M String :=
  match data with
  | JsVal.str s => M.pure (env.hash s salt)
  | _ => throwErr

/-- The call `bcrypt.compare(data, hash)`: data that is not a string is refused. -/
def bcryptCompare (env : Env) (data : JsVal) (hash : String) : M Bool :=
  match data with
  | JsVal.str s => M.pure (env.compare s hash)
  | _ => throwErr

/-- The call `validator.isEmail(v)`: a value that is not a string is refused. -/
def isEmail (env : Env) (v : JsVal) : M Bool :=
  match v with
  | JsVal.str s => M.pure (env.isEmail s)
  | _ => throwErr

/-- The read `req.user`, followed by a property read: throws when the `auth`
middleware has not set it. -/
def reqUser (req : Req) : M Claims :=
  orThrow req.user

/-- A query value that is neither `null` nor `undefined`. -/
def defined (v : JsVal) : Option JsVal :=
  match v with
  | JsVal.undefined => none
  | JsVal.null => none
  | _ => some v

/-- A query value when it is truthy. -/
def whenTruthy (v : JsVal) : Option JsVal :=
  if truthy v then some v else none

/-- The expression `s.charAt(0).toUpperCase() + s.slice(1)`. -/
def capitalize (s : String) : String :=
  match s.data with
  | [] => ""
  | c :: cs => String.mk (c.toUpper :: cs)

/-! ## Controllers: `controllers/auth.js` -/

def signup (env : Env) (req : Req) : World → Response × World :=
  catch500 (do
    let email := req.body.get "email"
    let password := req.body.get "password"
    if !truthy email || !truthy password then
      pure (reply "status" 400 Json.null "Bad Request, Reason:$\x7bMissing Field\x7d" Json.null)
    else do
      let user ← User.findOne env email
      if user.isSome then
        pure (reply "status" 409 Json.null "Email already exists." Json.null)
      else do
        let valid ← isEmail env email
        if !valid then
          pure (reply "status" 400 Json.null "Email not valid!" Json.null)
        else if lengthLe4 password then
          pure (reply "state" 400 Json.null "Password length can't be less than 4" Json.null)
        else do
          let numUsers ← User.countDocuments
          let hashedPassword ← bcryptHash env password req.salt
          let _ ← User.create env email hashedPassword
            (JsVal.str (if numUsers == 0 then "Admin" else "Viewer")) req.nowMs
          pure (reply "status" 201 Json.null "User created successfully." Json.null))
    (reply "status" 500 Json.null "Internal server error while signing up" Json.error)

def login (env : Env) (req : Req) : World → Response × World :=
  catch500 (do
    let email := req.body.get "email"
    let password := req.body.get "password"
    if !truthy email || !truthy password then
      pure (reply "status" 400 Json.null "Bad Request, Reason: $\x7bMissing Field\x7d" Json.null)
    else do
      let user ← User.findOne env email
      match user with
      | none => pure (reply "status" 404 Json.null "User not found." Json.null)
      | some u => do
        let isPasswordCorrect ← bcryptCompare env password u.password
        if !isPasswordCorrect then
          pure (reply "status" 401 Json.null "Invalid Password." Json.null)
        else do
          let token := jwtSign env email u.id u.role req.nowMs
          pure (reply "status" 200 (Json.row [("token", Cell.str token)]) "Login successful."
            Json.null))
    (reply "status" 500 Json.null "Internal server error while logging." Json.error)

def logout (env : Env) (req : Req) : World → Response × World :=
  catch500 (do
    let token := bearerToken req
    match token with
    | none => pure (reply "state" 400 Json.null "Bad Request" Json.null)
    | some t =>
      if t == "" then pure (reply "state" 400 Json.null "Bad Request" Json.null)
      else do
        let decode ← jwtVerify env t req.nowMs
        let expiresAt := decode.exp * 1000
        let _ ← BlacklistToken.create t expiresAt req.nowMs
        pure (reply "state" 200 Json.null "User logged out successfully." Json.null))
    (reply "state" 500 Json.null "Internal server error while logging out." Json.error)

/-! ## Middlewares: `middlewares/auth.js` -/

/-- What a middleware does with a request: it responds, or calls `next()`. -/
inductive MwResult where
  | respond (r : Response)
  | next (req : Req)
deriving DecidableEq, Repr

/-- A middleware body inside `try { ... } catch { return res.status(500)... }`. -/
def catchMw (body : M MwResult) (onError : Response) : World → MwResult × World :=
  fun w =>
    match body w with
    | (Res.ok r, w1) => (r, w1)
    | (Res.thrown, w1) => (MwResult.respond onError, w1)

/-- Middleware to validate the token. -/
def auth (env : Env) (req : Req) : World → MwResult × World :=
  catchMw (do
    let token := bearerToken req
    match token with
    | none =>
      pure (MwResult.respond (reply "state" 401 Json.null "Unauthorized Access" Json.null))
    | some t =>
      if t == "" then
        pure (MwResult.respond (reply "state" 401 Json.null "Unauthorized Access" Json.null))
      else do
        let listed ← BlacklistToken.findOne t
        if listed.isSome then
          pure (MwResult.respond (reply "state" 401 Json.null "Unauthorized Access" Json.null))
        else
          tryCatch (do
            let decode ← jwtVerify env t req.nowMs
            let user ← User.findById decode.id
            if user.isNone then
              pure (MwResult.respond (reply "state" 400 Json.null
                "User currently logged in does not exist!" Json.null))
            else
              pure (MwResult.next { req with user := some decode }))
            (pure (MwResult.respond
              (reply "state" 401 Json.null "Unauthorized Access" Json.null))))
    { status := 500,
      body := ResBody.json [("state", Json.num 500), ("data", Json.null),
        ("message", Json.str "Internal server error while validating token.")] }

/-- Middleware to validate the Admin role. -/
def isAdmin (req : Req) : World → MwResult × World :=
  catchMw (do
    let c ← reqUser req
    let userDetails ← User.findById c.id
    match userDetails with
    | none => throwErr
    | some u =>
      if u.role != "Admin" then
        pure (MwResult.respond
          (reply "state" 403 Json.null "Forbidden Access/Operation not allowed." Json.null))
      else pure (MwResult.next req))
    (reply "state" 500 Json.null "User role can't be verified." Json.null)

/-- Middleware to validate the Editor and Admin roles. -/
def isEditorOrAdmin (req : Req) : World → MwResult × World :=
  catchMw (do
    let c ← reqUser req
    let userDetails ← User.findById c.id
    match userDetails with
    | none => throwErr
    | some u =>
      if u.role != "Editor" && u.role != "Admin" then
        pure (MwResult.respond
          (reply "state" 403 Json.null "Forbidden Access/Operation not allowed." Json.null))
      else pure (MwResult.next req))
    (reply "state" 500 Json.null "User role can't be verified." Json.null)

/-! ## Controllers: `controllers/user.js` -/

/-- The role filter of `getUsers`: `role ? role : { $in: ["Viewer", "Editor"] }`. -/
def roleFilter (role : JsVal) : List String :=
  if truthy role then
    match role with
    | JsVal.str r => [r]
    | _ => []
  else ["Viewer", "Editor"]

def getUsers (env : Env) (req : Req) : World → Response × World :=
  catch500 (do
    let limit := withDefault (req.query.get "limit") (JsVal.num 5)
    let offset := withDefault (req.query.get "offset") (JsVal.num 0)
    let role := req.query.get "role"
    let validRoles := ["Admin", "Editor", "Viewer"]
    if isNaN env limit || ltZero env limit || isNaN env offset || ltZero env offset ||
        (truthy role && !includesStr validRoles role) then
      pure (reply "status" 400 Json.null "Bad Request" Json.null)
    else do
      let users ← User.find env (roleFilter role) offset limit
      let outputResponse : List Row := users.map (fun user =>
        [("user_id", Cell.oid user.id), ("email", Cell.str user.email),
         ("role", Cell.str user.role), ("created_at", Cell.time user.createdAt)])
      pure (reply "status" 200 (Json.rows outputResponse) "Users retrieved successfully."
        Json.null))
    (reply "status" 500 Json.null "Internal server error while retrieving users details."
      Json.error)

def addUser (env : Env) (req : Req) : World → Response × World :=
  catch500 (do
    let email := req.body.get "email"
    let password := req.body.get "password"
    let role := req.body.get "role"
    if !truthy email || !truthy password || !truthy role || strictEqStr role "Admin" then
      pure (reply "state" 400 Json.null "Bad Request" Json.null)
    else do
      let user ← User.findOne env email
      if user.isSome then
        pure (reply "state" 409 Json.null "Email already exists." Json.null)
      else do
        let valid ← isEmail env email
        if !valid then
          pure (reply "status" 400 Json.null "Email not valid!" Json.null)
        else do
          let hashedPassword ← bcryptHash env password req.salt
          let _ ← User.create env email hashedPassword role req.nowMs
          pure (reply "state" 201 Json.null "User created successfully." Json.null))
    (reply "state" 500 Json.null "Internal server error while creating user" Json.error)

def deleteUser (env : Env) (req : Req) : World → Response × World :=
  catch500 (do
    let userId := req.params.get "id"
    if !truthy userId then
      pure (reply "state" 400 Json.null "Bad Request" Json.null)
    else do
      let user ← User.findById (← castId env userId)
      if user.isNone then
        pure (reply "state" 404 Json.null "User not found." Json.null)
      else do
        User.findByIdAndDelete (← castId env userId)
        pure (reply "state" 200 Json.null "User deleted successfully." Json.null))
    (reply "state" 500 Json.null "Internal server error while deleting user" Json.error)

def updatePassword (env : Env) (req : Req) : World → Response × World :=
  catch500 (do
    let old_password := req.body.get "old_password"
    let new_password := req.body.get "new_password"
    let user ← User.findById (← reqUser req).id
    if !truthy old_password || !truthy new_password then
      pure (reply "state" 400 Json.null "Bad Request" Json.null)
    else if lengthLe4 new_password then
      pure (reply "state" 400 Json.null "Password length can't be less than 4" Json.null)
    else
      match user with
      | none => pure (reply "state" 404 Json.null "User not found." Json.null)
      | some u => do
        let isPasswordMatch ← bcryptCompare env old_password u.password
        if !isPasswordMatch then
          pure (reply "state" 401 Json.null "Unauthorized Access" Json.null)
        else do
          let hashedPassword ← bcryptHash env new_password req.salt
          User.save { u with password := hashedPassword }
          pure (sendStatus 204 "No Content"))
    (reply "state" 500 Json.null "Internal server error while updating password" Json.error)

/-- The block the three delete controllers share: find the favorite of the
item and, when there is one, remove its id from every user's list and delete
the favorite document. -/
def cascadeFavorite (env : Env) (itemId : JsVal) : M Unit := do
  let favoriteToDelete ← Favorite.findOne (← castId env itemId)
  match favoriteToDelete with
  | some fav => do
    let favoriteId := fav.id
    User.updateManyPull favoriteId
    Favorite.findByIdAndDelete favoriteId
  | none => pure ()

/-! ## Controllers: `controllers/artist.js` -/

def getArtists (env : Env) (req : Req) : World → Response × World :=
  catch500 (do
    let limit := withDefault (req.query.get "limit") (JsVal.num 5)
    let offset := withDefault (req.query.get "offset") (JsVal.num 0)
    let grammy := req.query.get "grammy"
    let hidden := req.query.get "hidden"
    if isNaN env limit || ltZero env limit || isNaN env offset || ltZero env offset ||
        (truthy grammy && isNaN env grammy) then
      pure (reply "status" 400 Json.null "Bad Request" Json.null)
    else do
      let query : ArtistQuery := { grammy := defined grammy, hidden := defined hidden }
      let artists ← Artist.find env query offset limit
      let outputResponse : List Row := artists.map (fun artist =>
        [("artist_id", Cell.oid artist.id), ("name", Cell.str artist.name),
         ("grammy", Cell.num artist.grammy), ("hidden", Cell.bool artist.hidden)])
      pure (reply "status" 200 (Json.rows outputResponse) "Artists retrieved successfully."
        Json.null))
    (reply "state" 500 Json.null "Internal server error while retrieving artists details"
      Json.error)

def getArtist (env : Env) (req : Req) : World → Response × World :=
  catch500 (do
    let artistId := req.params.get "id"
    if !truthy artistId then
      pure (reply "state" 400 Json.null "Bad Request" Json.null)
    else do
      let artist ← Artist.findById (← castId env artistId)
      match artist with
      | none => pure (reply "state" 404 Json.null "Artist not found" Json.null)
      | some a =>
        pure (reply "state" 200
          (Json.row [("artist_id", Cell.oid a.id), ("name", Cell.str a.name),
            ("grammy", Cell.num a.grammy), ("hidden", Cell.bool a.hidden)])
          "Artist retrieved successfully." Json.null))
    (reply "state" 500 Json.null "Internal server error while retrieving artist details"
      Json.error)

def addArtist (env : Env) (req : Req) : World → Response × World :=
  catch500 (do
    let name := req.body.get "name"
    let grammy := req.body.get "grammy"
    let hidden := req.body.get "hidden"
    if !truthy name || !truthy grammy || !truthy hidden || isNaN env grammy then
      pure (reply "state" 400 Json.null "Bad Request" Json.null)
    else do
      let _ ← Artist.create env name grammy hidden req.nowMs
      pure (reply "state" 201 Json.null "Artist created successfully." Json.null))
    (reply "state" 500 Json.null "Internal server error while creating artist" Json.error)

def updateArtist (env : Env) (req : Req) : World → Response × World :=
  catch500 (do
    let artistId := req.params.get "id"
    let allowedFieldsToUpdate := ["name", "grammy", "hidden"]
    let updatedData := req.body
    let isValidUpdate := updatedData.keys.all (fun field => allowedFieldsToUpdate.contains field)
    if !truthy artistId || !isValidUpdate || updatedData.keys.length == 0 ||
        (truthy (updatedData.get "grammy") && isNaN env (updatedData.get "grammy")) then
      pure (reply "state" 400 Json.null "Bad Request" Json.null)
    else do
      let artist ← Artist.findById (← castId env artistId)
      if artist.isNone then
        pure (reply "state" 404 Json.null "Artist not found." Json.null)
      else do
        Artist.findByIdAndUpdate env (← castId env artistId) updatedData
        pure (sendStatus 204 "No Content"))
    (reply "state" 500 Json.null "Internal server error while updating artist" Json.error)

def deleteArtist (env : Env) (req : Req) : World → Response × World :=
  catch500 (do
    let artistId := req.params.get "id"
    if !truthy artistId then
      pure (reply "state" 400 Json.null "Bad Request" Json.null)
    else do
      let artist ← Artist.findById (← castId env artistId)
      match artist with
      | none => pure (reply "state" 404 Json.null "Artist not found." Json.null)
      | some a => do
        cascadeFavorite env artistId
        Artist.findByIdAndDelete (← castId env artistId)
        pure (reply "state" 200 (Json.row [("artist_id", Cell.val artistId)])
          ("Artist:" ++ a.name ++ " deleted successfully.") Json.null))
    (reply "state" 500 Json.null "Internal server error while deleting artist" Json.error)

/-! ## Controllers: `controllers/album.js` -/

/-- The row of an album in a response; reading `album.artist.name` throws when
the artist reference did not populate. -/
def albumRow : Album × Option Artist → Option Row
  | (album, some artist) =>
    some [("album_id", Cell.oid album.id), ("artist_name", Cell.str artist.name),
      ("name", Cell.str album.name), ("year", Cell.num album.year),
      ("hidden", Cell.bool album.hidden)]
  | (_, none) => none

def getAlbums (env : Env) (req : Req) : World → Response × World :=
  catch500 (do
    let limit := withDefault (req.query.get "limit") (JsVal.num 5)
    let offset := withDefault (req.query.get "offset") (JsVal.num 0)
    let artist_id := req.query.get "artist_id"
    let hidden := req.query.get "hidden"
    if isNaN env limit || ltZero env limit || isNaN env offset || ltZero env offset then
      pure (reply "status" 400 Json.null "Bad Request" Json.null)
    else do
      let artist ← (if truthy artist_id then do
          let a ← Artist.findById (← castId env artist_id)
          pure a.isSome
        else pure true)
      if !artist then
        pure (reply "status" 404 Json.null "Artist not found, not valid artist ID." Json.null)
      else do
        let query : AlbumQuery := { artist := whenTruthy artist_id, hidden := defined hidden }
        let albums ← Album.find env query offset limit
        let outputResponse ← orThrow (mapOpt albumRow albums)
        pure (reply "status" 200 (Json.rows outputResponse) "Albums fetched successfully."
          Json.null))
    (reply "state" 500 Json.null "Internal server error while retrieving albums details"
      Json.error)

def getAlbum (env : Env) (req : Req) : World → Response × World :=
  catch500 (do
    let albumId := req.params.get "id"
    if !truthy albumId then
      pure (reply "state" 400 Json.null "Bad Request" Json.null)
    else do
      let album ← Album.findByIdPopulated (← castId env albumId)
      match album with
      | none => pure (reply "state" 404 Json.null "Album not found" Json.null)
      | some al => do
        let data ← orThrow (albumRow al)
        pure (reply "state" 200 (Json.row data) "Album fetched successfully." Json.null))
    (reply "state" 500 Json.null "Internal server error while retrieving album details"
      Json.error)

def addAlbum (env : Env) (req : Req) : World → Response × World :=
  catch500 (do
    let artist_id := req.body.get "artist_id"
    let name := req.body.get "name"
    let year := req.body.get "year"
    let hidden := req.body.get "hidden"
    if !truthy artist_id || !truthy name || !truthy year || !truthy hidden then
      pure (reply "state" 400 Json.null "Bad Request" Json.null)
    else do
      let artist ← Artist.findById (← castId env artist_id)
      if artist.isNone then
        pure (reply "state" 404 Json.null "Artist not found." Json.null)
      else do
        let _ ← Album.create env name year artist_id hidden req.nowMs
        pure (reply "state" 201 Json.null "Album created successfully." Json.null))
    (reply "state" 500 Json.null "Internal server error while creating album" Json.error)

def updateAlbum (env : Env) (req : Req) : World → Response × World :=
  catch500 (do
    let albumId := req.params.get "id"
    let allowedFieldsToUpdate := ["name", "year", "hidden"]
    let updatedData := req.body
    let isValidUpdate := updatedData.keys.all (fun field => allowedFieldsToUpdate.contains field)
    if !truthy albumId || !isValidUpdate || updatedData.keys.length == 0 then
      pure (reply "state" 400 Json.null "Bad Request" Json.null)
    else do
      let album ← Album.findById (← castId env albumId)
      if album.isNone then
        pure (reply "state" 404 Json.null "Album not found." Json.null)
      else do
        Album.findByIdAndUpdate env (← castId env albumId) updatedData
        pure (reply "state" 204 Json.null "Album updated successfully." Json.null))
    (reply "state" 500 Json.null "Internal server error while updating album" Json.error)

def deleteAlbum (env : Env) (req : Req) : World → Response × World :=
  catch500 (do
    let albumId := req.params.get "id"
    if !truthy albumId then
      pure (reply "state" 400 Json.null "Bad Request" Json.null)
    else do
      let album ← Album.findById (← castId env albumId)
      match album with
      | none => pure (reply "state" 404 Json.null "Album not found." Json.null)
      | some al => do
        cascadeFavorite env albumId
        Album.findByIdAndDelete (← castId env albumId)
        pure (reply "state" 200 Json.null ("Album:" ++ al.name ++ " deleted successfully.")
          Json.null))
    (reply "state" 500 Json.null "Internal server error while deleting album" Json.error)

/-! ## Controllers: `controllers/track.js` -/

/-- The row of a track in a response; reading `track.artist.name` or
`track.album.name` throws when the reference did not populate. -/
def trackRow : Track × Option Artist × Option Album → Option Row
  | (track, some artist, some album) =>
    some [("track_id", Cell.oid track.id), ("artist_name", Cell.str artist.name),
      ("album_name", Cell.str album.name), ("name", Cell.str track.name),
      ("duration", Cell.num track.duration), ("hidden", Cell.bool track.hidden)]
  | _ => none

def getTracks (env : Env) (req : Req) : World → Response × World :=
  catch500 (do
    let limit := withDefault (req.query.get "limit") (JsVal.num 5)
    let offset := withDefault (req.query.get "offset") (JsVal.num 0)
    let artist_id := req.query.get "artist_id"
    let album_id := req.query.get "album_id"
    let hidden := req.query.get "hidden"
    if isNaN env limit || ltZero env limit || isNaN env offset || ltZero env offset then
      pure (reply "status" 400 Json.null "Bad Request" Json.null)
    else do
      let artist ← (if truthy artist_id then do
          let a ← Artist.findById (← castId env artist_id)
          pure a.isSome
        else pure true)
      if !artist then
        pure (reply "status" 404 Json.null "Artist not found." Json.null)
      else do
        let album ← (if truthy album_id then do
            let a ← Album.findById (← castId env album_id)
            pure a.isSome
          else pure true)
        if !album then
          pure (reply "status" 404 Json.null "Album not found." Json.null)
        else do
          let query : TrackQuery :=
            { artist := whenTruthy artist_id, album := whenTruthy album_id,
              hidden := defined hidden }
          let tracks ← Track.find env query offset limit
          let outputResponse ← orThrow (mapOpt trackRow tracks)
          pure (reply "status" 200 (Json.rows outputResponse) "Tracks retrieved successfully."
            Json.null))
    (reply "state" 500 Json.null "Internal server error while retrieving tracks details"
      Json.error)

def getTrack (env : Env) (req : Req) : World → Response × World :=
  catch500 (do
    let trackId := req.params.get "id"
    if !truthy trackId then
      pure (reply "state" 400 Json.null "Bad Request" Json.null)
    else do
      let track ← Track.findByIdPopulated (← castId env trackId)
      match track with
      | none => pure (reply "state" 404 Json.null "Track not found" Json.null)
      | some t => do
        let data ← orThrow (trackRow t)
        pure (reply "state" 200 (Json.row data) "Track fetched successfully." Json.null))
    (reply "state" 500 Json.null "Internal server error while retrieving track details"
      Json.error)

def addTrack (env : Env) (req : Req) : World → Response × World :=
  catch500 (do
    let artist_id := req.body.get "artist_id"
    let album_id := req.body.get "album_id"
    let name := req.body.get "name"
    let duration := req.body.get "duration"
    let hidden := req.body.get "hidden"
    if !truthy artist_id || !truthy album_id || !truthy name || !truthy duration ||
        !truthy hidden || (truthy duration && isNaN env duration) then
      pure (reply "state" 400 Json.null "Bad Request" Json.null)
    else do
      let artist ← Artist.findById (← castId env artist_id)
      if artist.isNone then
        pure (reply "state" 404 Json.null "Artist not found." Json.null)
      else do
        let album ← Album.findById (← castId env album_id)
        if album.isNone then
          pure (reply "state" 404 Json.null "Album not found." Json.null)
        else do
          let _ ← Track.create env name duration artist_id album_id hidden req.nowMs
          pure (reply "state" 201 Json.null "Track created successfully." Json.null))
    (reply "state" 500 Json.null "Internal server error while creating Track" Json.error)

def updateTrack (env : Env) (req : Req) : World → Response × World :=
  catch500 (do
    let trackId := req.params.get "id"
    let allowedFieldsToUpdate := ["name", "duration", "hidden"]
    let updatedData := req.body
    let isValidUpdate := updatedData.keys.all (fun field => allowedFieldsToUpdate.contains field)
    if !truthy trackId || !isValidUpdate || updatedData.keys.length == 0 then
      pure (reply "state" 400 Json.null "Bad Request" Json.null)
    else do
      let track ← Track.findById (← castId env trackId)
      if track.isNone then
        pure (reply "state" 404 Json.null "Track not found." Json.null)
      else do
        Track.findByIdAndUpdate env (← castId env trackId) updatedData
        pure (reply "state" 204 Json.null "Track updated successfully." Json.null))
    (reply "state" 500 Json.null "Internal server error while updating track" Json.error)

def deleteTrack (env : Env) (req : Req) : World → Response × World :=
  catch500 (do
    let trackId := req.params.get "id"
    if !truthy trackId then
      pure (reply "state" 400 Json.null "Bad Request" Json.null)
    else do
      let track ← Track.findById (← castId env trackId)
      match track with
      | none => pure (reply "state" 404 Json.null "Track not found." Json.null)
      | some t => do
        cascadeFavorite env trackId
        Track.findByIdAndDelete (← castId env trackId)
        pure (reply "state" 200 Json.null ("Track:" ++ t.name ++ " deleted successfully.")
          Json.null))
    (reply "state" 500 Json.null "Internal server error while deleting track" Json.error)

/-! ## Controllers: `controllers/favorite.js` -/

/-- The row of a favorite in the response of `getFavorites`. -/
def favoriteRow (favorite : Favorite) : Row :=
  [("favorite_id", Cell.oid favorite.id), ("category", Cell.str favorite.category),
   ("item_id", Cell.oid favorite.item_id), ("name", Cell.str favorite.name),
   ("created_at", Cell.time favorite.createdAt)]

def getFavorites (env : Env) (req : Req) : World → Response × World :=
  catch500 (do
    let limit := withDefault (req.query.get "limit") (JsVal.num 5)
    let offset := withDefault (req.query.get "offset") (JsVal.num 0)
    let category := req.params.get "category"
    let validCategories := ["artist", "album", "track"]
    if !truthy category || isNaN env limit || ltZero env limit || isNaN env offset ||
        ltZero env offset || !includesStr validCategories category then
      pure (reply "status" 400 Json.null "Bad Request" Json.null)
    else do
      let user ← User.findByIdPopulated (← reqUser req).id
      match user with
      | none => pure (reply "state" 404 Json.null "User not found." Json.null)
      | some favorites => do
        let outputResponse : List Row := favorites.map favoriteRow
        pure (reply "state" 200 (Json.rows outputResponse) "Favorites retrieved successfully."
          Json.null))
    (reply "state" 500 Json.null "Internal server error while retrieving favorites" Json.error)

/-- The lookup of `addFavorite` in the collection its category names: the name
of the item when it is stored. -/
def itemLookup (env : Env) (model : String) (item_id : JsVal) : M (Option String) :=
  if model == "Album" then do
    let a ← Album.findById (← castId env item_id)
    pure (a.map (fun x => x.name))
  else if model == "Artist" then do
    let a ← Artist.findById (← castId env item_id)
    pure (a.map (fun x => x.name))
  else if model == "Track" then do
    let a ← Track.findById (← castId env item_id)
    pure (a.map (fun x => x.name))
  else pure none

/-- The model name `addFavorite` derives from the category:
`category.charAt(0).toUpperCase() + category.slice(1)`. -/
def modelOf (category : JsVal) : String :=
  match category with
  | JsVal.str c => capitalize c
  | _ => ""

def addFavorite (env : Env) (req : Req) : World → Response × World :=
  catch500 (do
    let item_id := req.body.get "item_id"
    let category := req.body.get "category"
    let allowedCategory := ["artist", "track", "album"]
    if !truthy item_id || !truthy category || !includesStr allowedCategory category then
      pure (reply "state" 400 Json.null "Bad Request" Json.null)
    else do
      let user ← User.findById (← reqUser req).id
      match user with
      | none =>
        -- the 404 reply names `err`, which is not bound there: building it throws
        throwErr
      | some u => do
        let model := modelOf category
        let itemExists ← itemLookup env model item_id
        match itemExists with
        | none => pure (reply "state" 404 Json.null "Item not found in this category." Json.null)
        | some itemName => do
          let favorite ← Favorite.findOne (← castId env item_id)
          let held := match favorite with
            | some f => u.favorites.contains f.id
            | none => false
          if held then
            pure (reply "status" 400 Json.null
              "The given item is already present in the favorite" Json.null)
          else do
            let fid ← (match favorite with
              | some f => pure f.id
              | none => do
                let newFavorite ← Favorite.create env item_id category itemName req.nowMs
                pure newFavorite.id)
            User.save { u with favorites := u.favorites ++ [fid] }
            pure (reply "status" 201 Json.null "Favorite added successfully." Json.null))
    (reply "state" 500 Json.null "Internal server error while adding favorite" Json.error)

def removeFavorite (env : Env) (req : Req) : World → Response × World :=
  catch500 (do
    let favoriteId := req.params.get "id"
    if !truthy favoriteId then
      pure (reply "state" 400 Json.null "Bad Request" Json.null)
    else do
      let favorite ← Favorite.findById (← castId env favoriteId)
      if favorite.isNone then
        pure (reply "state" 404 Json.null "Favorite not found." Json.null)
      else do
        User.findByIdAndUpdatePull (← reqUser req).id (← castId env favoriteId)
        pure (reply "state" 200 Json.null "Favorite removed successfully" Json.null))
    (reply "state" 500 Json.null "Internal server error while removing favorite" Json.error)

/-! ## Routes: `routes/*.js` -/

inductive Endpoint where
  | signup | login | logout
  | getUsers | addUser | deleteUser | updatePassword
  | getArtists | getArtist | addArtist | updateArtist | deleteArtist
  | getAlbums | getAlbum | addAlbum | updateAlbum | deleteAlbum
  | getTracks | getTrack | addTrack | updateTrack | deleteTrack
  | getFavorites | addFavorite | removeFavorite
deriving DecidableEq, Repr

inductive Middleware where
  | auth | isAdmin | isEditorOrAdmin
deriving DecidableEq, Repr

/-- The middleware chain each route declares before its controller. -/
def middlewares : Endpoint → List Middleware
  | Endpoint.signup => []
  | Endpoint.login => []
  | Endpoint.logout => [Middleware.auth]
  | Endpoint.getUsers => [Middleware.auth]
  | Endpoint.addUser => [Middleware.auth, Middleware.isAdmin]
  | Endpoint.deleteUser => [Middleware.auth, Middleware.isAdmin]
  | Endpoint.updatePassword => [Middleware.auth]
  | Endpoint.getArtists => [Middleware.auth]
  | Endpoint.getArtist => [Middleware.auth]
  | Endpoint.addArtist => [Middleware.auth, Middleware.isAdmin]
  | Endpoint.updateArtist => [Middleware.auth, Middleware.isEditorOrAdmin]
  | Endpoint.deleteArtist => [Middleware.auth, Middleware.isEditorOrAdmin]
  | Endpoint.getAlbums => [Middleware.auth]
  | Endpoint.getAlbum => [Middleware.auth]
  | Endpoint.addAlbum => [Middleware.auth, Middleware.isAdmin]
  | Endpoint.updateAlbum => [Middleware.auth, Middleware.isEditorOrAdmin]
  | Endpoint.deleteAlbum => [Middleware.auth, Middleware.isEditorOrAdmin]
  | Endpoint.getTracks => [Middleware.auth]
  | Endpoint.getTrack => [Middleware.auth]
  | Endpoint.addTrack => [Middleware.auth, Middleware.isAdmin]
  | Endpoint.updateTrack => [Middleware.auth, Middleware.isEditorOrAdmin]
  | Endpoint.deleteTrack => [Middleware.auth, Middleware.isEditorOrAdmin]
  | Endpoint.getFavorites => [Middleware.auth]
  | Endpoint.addFavorite => [Middleware.auth]
  | Endpoint.removeFavorite => [Middleware.auth]

/-- The controller each route ends in. -/
def controller (env : Env) : Endpoint → Req → World → Response × World
  | Endpoint.signup => signup env
  | Endpoint.login => login env
  | Endpoint.logout => logout env
  | Endpoint.getUsers => getUsers env
  | Endpoint.addUser => addUser env
  | Endpoint.deleteUser => deleteUser env
  | Endpoint.updatePassword => updatePassword env
  | Endpoint.getArtists => getArtists env
  | Endpoint.getArtist => getArtist env
  | Endpoint.addArtist => addArtist env
  | Endpoint.updateArtist => updateArtist env
  | Endpoint.deleteArtist => deleteArtist env
  | Endpoint.getAlbums => getAlbums env
  | Endpoint.getAlbum => getAlbum env
  | Endpoint.addAlbum => addAlbum env
  | Endpoint.updateAlbum => updateAlbum env
  | Endpoint.deleteAlbum => deleteAlbum env
  | Endpoint.getTracks => getTracks env
  | Endpoint.getTrack => getTrack env
  | Endpoint.addTrack => addTrack env
  | Endpoint.updateTrack => updateTrack env
  | Endpoint.deleteTrack => deleteTrack env
  | Endpoint.getFavorites => getFavorites env
  | Endpoint.addFavorite => addFavorite env
  | Endpoint.removeFavorite => removeFavorite env

def runMiddleware (env : Env) : Middleware → Req → World → MwResult × World
  | Middleware.auth => auth env
  | Middleware.isAdmin => isAdmin
  | Middleware.isEditorOrAdmin => isEditorOrAdmin

/-- What serving a request gives: the response, the world afterwards, and
whether the controller was invoked. -/
structure Outcome where
  response : Response
  world : World
  reached : Bool
deriving DecidableEq, Repr

/-- Run a middleware chain, then the controller. -/
def runChain (env : Env) (ctrl : Req → World → Response × World) :
    List Middleware → Req → World → Outcome
  | [], req, w =>
    let out := ctrl req w
    { response := out.1, world := out.2, reached := true }
  | m :: ms, req, w =>
    match runMiddleware env m req w with
    | (MwResult.respond r, w1) => { response := r, world := w1, reached := false }
    | (MwResult.next req1, w1) => runChain env ctrl ms req1 w1

/-- Serve a request on a route: the request as it arrives carries no `req.user`. -/
def handle (env : Env) (ep : Endpoint) (req : Req) (w : World) : Outcome :=
  runChain env (controller env ep) (middlewares ep) { req with user := none } w

/-- One step of the system: a request served on a route, a controller invoked
directly, or an expiry sweep of the store. -/
inductive Event where
  | request (ep : Endpoint) (req : Req)
  | call (ep : Endpoint) (req : Req)
  | sweep (nowMs : Nat)

/-- The store after an event. -/
def step (env : Env) (s : Store) : Event → Store
  | Event.request ep req => (handle env ep req { store := s, log := [] }).world.store
  | Event.call ep req => (controller env ep req { store := s, log := [] }).2.store
  | Event.sweep nowMs => ttlSweep nowMs s

/-- The store after a sequence of events, one after the other. -/
def run (env : Env) (s : Store) (events : List Event) : Store :=
  events.foldl (step env) s

/-- A store the system can be in: reached from the empty store by a sequence of
events. -/
def Reachable (env : Env) (s : Store) : Prop :=
  ∃ events : List Event, run env Store.empty events = s

/-! ## Frame conditions

What a computation may do to the store, stated as a relation between the store
before and the store after. -/

/-- A computation keeps a relation between the store before and after it,
whether it returns or throws. -/
structure Keeps {α : Type} (R : Store → Store → Prop) (m : M α) : Prop where
  run : ∀ w, R w.store (m w).2.store

/-- A relation on stores that is reflexive and transitive. -/
class Frame (R : Store → Store → Prop) : Prop where
  refl : ∀ s, R s s
  trans : ∀ a b c, R a b → R b c → R a c

/-- No document of `after` has a key that `before` does not have. -/
def NoNew {α : Type} (key : α → ObjectId) (before after : List α) : Prop :=
  ∀ x ∈ after, ∃ y ∈ before, key y = key x

/-- What may have happened to one collection when only the calls in `ops` were
issued: without an insert no key is new; without insert and update the
documents left are the old ones, in order; without update and delete the old
documents are all there, followed by the new ones. -/
structure CollRel (ops : List DbOp) (c : Coll) {α : Type} (key : α → ObjectId)
    (before after : List α) : Prop where
  noNew : DbOp.insert c ∉ ops → NoNew key before after
  sub : DbOp.insert c ∉ ops → DbOp.update c ∉ ops → after.Sublist before
  pre : DbOp.update c ∉ ops → DbOp.delete c ∉ ops → before <+: after

/-- What may have happened to the store when only the calls in `ops` were
issued. -/
structure Allowed (ops : List DbOp) (s t : Store) : Prop where
  users : CollRel ops Coll.users User.id s.users t.users
  artists : CollRel ops Coll.artists Artist.id s.artists t.artists
  albums : CollRel ops Coll.albums Album.id s.albums t.albums
  tracks : CollRel ops Coll.tracks Track.id s.tracks t.tracks
  favorites : CollRel ops Coll.favorites Favorite.id s.favorites t.favorites
  blacklist : CollRel ops Coll.blacklist BlacklistToken.id s.blacklist t.blacklist
  nextId : s.nextId ≤ t.nextId

/-- The mutating persistence calls each controller can issue. -/
def opsOf : Endpoint → List DbOp
  | Endpoint.signup => [DbOp.insert Coll.users]
  | Endpoint.login => []
  | Endpoint.logout => [DbOp.insert Coll.blacklist]
  | Endpoint.getUsers => []
  | Endpoint.addUser => [DbOp.insert Coll.users]
  | Endpoint.deleteUser => [DbOp.delete Coll.users]
  | Endpoint.updatePassword => [DbOp.update Coll.users]
  | Endpoint.getArtists => []
  | Endpoint.getArtist => []
  | Endpoint.addArtist => [DbOp.insert Coll.artists]
  | Endpoint.updateArtist => [DbOp.update Coll.artists]
  | Endpoint.deleteArtist =>
    [DbOp.update Coll.users, DbOp.delete Coll.favorites, DbOp.delete Coll.artists]
  | Endpoint.getAlbums => []
  | Endpoint.getAlbum => []
  | Endpoint.addAlbum => [DbOp.insert Coll.albums]
  | Endpoint.updateAlbum => [DbOp.update Coll.albums]
  | Endpoint.deleteAlbum =>
    [DbOp.update Coll.users, DbOp.delete Coll.favorites, DbOp.delete Coll.albums]
  | Endpoint.getTracks => []
  | Endpoint.getTrack => []
  | Endpoint.addTrack => [DbOp.insert Coll.tracks]
  | Endpoint.updateTrack => [DbOp.update Coll.tracks]
  | Endpoint.deleteTrack =>
    [DbOp.update Coll.users, DbOp.delete Coll.favorites, DbOp.delete Coll.tracks]
  | Endpoint.getFavorites => []
  | Endpoint.addFavorite => [DbOp.insert Coll.favorites, DbOp.update Coll.users]
  | Endpoint.removeFavorite => [DbOp.update Coll.users]


instance Allowed.frame (ops : List DbOp) : Frame (Allowed ops) where
  refl := fun _ =>
    have r : ∀ (c : Coll) {α : Type} (key : α → ObjectId) (l : List α), CollRel ops c key l l :=
      fun _ _ _ l =>
        ⟨fun _ x hx => ⟨x, hx, rfl⟩, fun _ _ => List.Sublist.refl l, fun _ _ => List.prefix_refl l⟩
    ⟨r _ _ _, r _ _ _, r _ _ _, r _ _ _, r _ _ _, r _ _ _, Nat.le_refl _⟩
  trans := fun _ _ _ h1 h2 =>
    have t : ∀ (c : Coll) {α : Type} (key : α → ObjectId) (l1 l2 l3 : List α),
        CollRel ops c key l1 l2 → CollRel ops c key l2 l3 → CollRel ops c key l1 l3 :=
      fun _ _ _ _ _ _ g1 g2 =>
        ⟨fun hi x hx =>
            match g2.noNew hi x hx with
            | ⟨y, hy, hyx⟩ =>
              match g1.noNew hi y hy with
              | ⟨z, hz, hzy⟩ => ⟨z, hz, hzy.trans hyx⟩,
          fun hi hu => (g2.sub hi hu).trans (g1.sub hi hu),
          fun hu hd => (g1.pre hu hd).trans (g2.pre hu hd)⟩
    ⟨t _ _ _ _ _ h1.users h2.users, t _ _ _ _ _ h1.artists h2.artists,
      t _ _ _ _ _ h1.albums h2.albums, t _ _ _ _ _ h1.tracks h2.tracks,
      t _ _ _ _ _ h1.favorites h2.favorites, t _ _ _ _ _ h1.blacklist h2.blacklist,
      Nat.le_trans h1.nextId h2.nextId⟩

instance eqFrame : Frame (fun s t : Store => t = s) where
  refl := fun _ => rfl
  trans := fun _ _ _ h1 h2 => h2.trans h1

/-- A user with every occurrence of an id removed from the favorites list. -/
def pullFavorite (fid : ObjectId) (u : User) : User :=
  { u with favorites := u.favorites.filter (fun x => x != fid) }

/-- The data-model invariant of favorites: at most one per item. -/
def FavoritesUnique (s : Store) : Prop :=
  s.favorites.Pairwise (fun x y => x.item_id ≠ y.item_id)

instance (s : Store) : Decidable (FavoritesUnique s) := by
  unfold FavoritesUnique
  infer_instance

/-- The status a middleware responded with, if it responded. -/
def MwResult.status? : MwResult → Option Nat
  | MwResult.respond r => some r.status
  | MwResult.next _ => none

/-- The request carries a token `t` that is present, is not blacklisted in the
store, and verifies (signature and expiry) to the claims `c`. -/
def TokenOk (env : Env) (req : Req) (w : World) (t : String) (c : Claims) : Prop :=
  bearerToken req = some t ∧ t ≠ "" ∧ (∀ b ∈ w.store.blacklist, b.token ≠ t) ∧
    env.decode t = some c ∧ req.nowMs / 1000 < c.exp

/-- The request carries a valid token of a stored user, the caller, whose stored
role is `role`. -/
def CallerRole (env : Env) (req : Req) (w : World) (role : String) : Prop :=
  ∃ t c u, TokenOk env req w t c ∧ w.store.users.find? (fun x => x.id == c.id) = some u ∧
    u.role = role

/-- The keys of a response body, in order; a body that is not JSON has none. -/
def Response.keys (r : Response) : Option (List String) :=
  match r.body with
  | ResBody.json fields => some (fields.map Prod.fst)
  | ResBody.text _ => none

/-- Whether a response is a validation, not-found or conflict reply: its status
is 400, 404 or 409. -/
def Response.isRejection (r : Response) : Bool :=
  r.status == 400 || r.status == 404 || r.status == 409

/-- The world `w1` is the world `w` after calls that cannot change the store:
the store is the same and the log has grown by queries only. -/
def OnlyQueried (w w1 : World) : Prop :=
  w1.store = w.store ∧
    ∃ ops : List DbOp, w1.log = w.log ++ ops ∧ ∀ op ∈ ops, op.mutating = false

/-- A computation that issues no mutating call, whether it returns or throws. -/
structure Quiet {α : Type} (m : M α) : Prop where
  run : ∀ w, OnlyQueried w (m w).2

/-- A computation that, when it returns a response, returns no 400, 404 or
409. -/
structure NoRejection (m : M Response) : Prop where
  run : ∀ w r w1, m w = (Res.ok r, w1) → r.isRejection = false

/-- A computation that returns a 400, 404 or 409 only when it has issued no
mutating call. -/
structure RejectsEarly (m : M Response) : Prop where
  run : ∀ w r w1, m w = (Res.ok r, w1) → r.isRejection = true → OnlyQueried w w1

/-- Referential integrity of the store: the artist of every album is stored,
and the artist and the album of every track are stored. -/
def RefIntegrity (s : Store) : Prop :=
  (∀ al ∈ s.albums, ∃ a ∈ s.artists, a.id = al.artist) ∧
  (∀ t ∈ s.tracks, (∃ a ∈ s.artists, a.id = t.artist) ∧ ∃ al ∈ s.albums, al.id = t.album)

instance (s : Store) : Decidable (RefIntegrity s) := by
  unfold RefIntegrity
  infer_instance

/-- The relation of a step that keeps referential integrity. -/
def RefKeeps (s t : Store) : Prop :=
  RefIntegrity s → RefIntegrity t

instance refFrame : Frame RefKeeps where
  refl := fun _ h => h
  trans := fun _ _ _ h1 h2 h => h2 (h1 h)

/-- The route an event goes through, if it is a request or a call. -/
def Event.endpoint? : Event → Option Endpoint
  | Event.request ep _ => some ep
  | Event.call ep _ => some ep
  | Event.sweep _ => none

/-- The blacklist holds at most one record per token. -/
def BlacklistUnique (s : Store) : Prop :=
  s.blacklist.Pairwise (fun x y => x.token ≠ y.token)

instance (s : Store) : Decidable (BlacklistUnique s) := by
  unfold BlacklistUnique
  infer_instance

/-- Whether an event is a request served through its route or an expiry sweep,
and not a controller invoked directly. -/
def Event.routed : Event → Bool
  | Event.request _ _ => true
  | Event.call _ _ => false
  | Event.sweep _ => true

/-- Every id in a favorites list of a user and the id of every favorite were
allotted by the store: they are below the id the store allots next. -/
def IdsAllotted (s : Store) : Prop :=
  (∀ u ∈ s.users, ∀ x ∈ u.favorites, x < s.nextId) ∧ ∀ f ∈ s.favorites, f.id < s.nextId

/-- The relation of a step that puts no new id in a favorites list and stores
no new favorite. -/
def ListsFrom (s t : Store) : Prop :=
  s.nextId ≤ t.nextId ∧
  (∀ u ∈ t.users, ∀ x ∈ u.favorites, ∃ v ∈ s.users, x ∈ v.favorites) ∧
  ∀ f ∈ t.favorites, ∃ g ∈ s.favorites, g.id = f.id

instance listsFrame : Frame ListsFrom where
  refl := fun _ => ⟨Nat.le_refl _, fun u hu _ hx => ⟨u, hu, hx⟩, fun f hf => ⟨f, hf, rfl⟩⟩
  trans := fun _ _ _ h1 h2 =>
    ⟨Nat.le_trans h1.1 h2.1,
      fun u hu x hx =>
        match h2.2.1 u hu x hx with
        | ⟨v, hv, hxv⟩ => h1.2.1 v hv x hxv,
      fun f hf =>
        match h2.2.2 f hf with
        | ⟨g, hg, hgf⟩ =>
          match h1.2.2 g hg with
          | ⟨k, hk, hkg⟩ => ⟨k, hk, hkg.trans hgf⟩⟩

/-! ## Sample collaborators and data

A concrete `Env` and concrete requests and stores, used to run the controllers
on examples. -/

/-- The value of a decimal digit. -/
def digit (c : Char) : Option Nat :=
  if 48 ≤ c.toNat ∧ c.toNat ≤ 57 then some (c.toNat - 48) else none

def parseNatAux : List Char → Nat → Option Nat
  | [], acc => some acc
  | c :: cs, acc =>
    match digit c with
    | some d => parseNatAux cs (acc * 10 + d)
    | none => none

/-- A non-empty run of decimal digits as a number. -/
def parseNat : List Char → Option Nat
  | [] => none
  | cs => parseNatAux cs 0

/-- A decimal integer with an optional minus sign. -/
def parseInt : List Char → Option Int
  | '-' :: cs => (parseNat cs).map (fun n => -(n : Int))
  | cs => (parseNat cs).map Int.ofNat

/-- The value of a hexadecimal digit. -/
def hexDigit (c : Char) : Option Nat :=
  if 48 ≤ c.toNat ∧ c.toNat ≤ 57 then some (c.toNat - 48)
  else if 97 ≤ c.toNat ∧ c.toNat ≤ 102 then some (c.toNat - 87)
  else if 65 ≤ c.toNat ∧ c.toNat ≤ 70 then some (c.toNat - 55)
  else none

def parseHexAux : List Char → Nat → Option Nat
  | [], acc => some acc
  | c :: cs, acc =>
    match hexDigit c with
    | some d => parseHexAux cs (acc * 16 + d)
    | none => none

/-- The 24 hexadecimal digits of an `ObjectId` as a number; any other text is
not an id. -/
def parseObjectId (cs : List Char) : Option Nat :=
  if cs.length = 24 then parseHexAux cs 0 else none

/-- The claims of the two sample tokens. -/
def sampleClaims (id : ObjectId) (role : String) : Claims :=
  { email := JsVal.str "a@x.com", id := id, role := role, iat := 0, exp := 86400 }

/-- Sample collaborators: decimal integers are numbers, a text of 24
hexadecimal digits is an id, a text with an `@` is an email, an object
`{ "_id": s }` casts to a string or an id as the text `s` does when `s` is not
empty, and there are two tokens, `token-0` for user 0 and `token-1` for user
1, both issued at instant 0. -/
def sampleEnv : Env :=
  { strToNum := fun s =>
      match s.data with
      | [] => JsNum.int 0
      | cs =>
        match parseInt cs with
        | some z => JsNum.int z
        | none => JsNum.nan
    isEmail := fun s => s.data.contains '@'
    hash := fun s _ => "hash:" ++ s
    compare := fun s h => h == "hash:" ++ s
    sign := fun c => if c.id == 0 then "token-0" else "token-1"
    decode := fun t =>
      if t == "token-0" then some (sampleClaims 0 "Admin")
      else if t == "token-1" then some (sampleClaims 1 "Viewer")
      else none
    castObjectId := fun v =>
      match v with
      | JsVal.str s => parseObjectId s.data
      | JsVal.idObj s => parseObjectId s.data
      | _ => none
    castString := fun v =>
      match v with
      | JsVal.str s => some s
      | JsVal.idObj s => if s == "" then none else some s
      | _ => none
    castNumber := fun v =>
      match v with
      | JsVal.num n => some n
      | JsVal.str s => parseInt s.data
      | _ => none
    castBoolean := fun v =>
      match v with
      | JsVal.bool b => some b
      | JsVal.str s => if s == "true" then some true else if s == "false" then some false else none
      | _ => none }

/-- A request with nothing in it, served at instant 0. -/
def emptyReq : Req :=
  { authorization := none, params := [], query := [], body := [], user := none, nowMs := 0,
    salt := 0 }

/-- The world of an empty store. -/
def emptyWorld : World :=
  { store := Store.empty, log := [] }

/-- A list request asking for a negative limit. -/
def negativeLimitReq : Req :=
  { emptyReq with query := [("limit", JsVal.str "-1")], params := [("category", JsVal.str "artist")] }

/-- A list request whose limit is the empty text, as in `?limit=`. -/
def emptyLimitReq : Req :=
  { emptyReq with query := [("limit", JsVal.str "")] }

/-- A patch whose first key is allowed for every entity and whose second key is
allowed for none. -/
def mixedPatchReq : Req :=
  { emptyReq with params := [("id", JsVal.str "000000000000000000000001")],
                  body := [("name", JsVal.str "x"), ("artist", JsVal.str "000000000000000000000002")] }

/-- A store with the artist 0, its favorite 1, a favorite 3 of an album 5, and
two users: user 2 holds both favorites, user 4 holds the favorite 3. -/
def cascadeWorld : World :=
  { store :=
      { users :=
          [{ id := 2, email := "a@x.com", password := "hash:abcd1", role := "Admin",
             favorites := [1, 3], createdAt := 0 },
           { id := 4, email := "b@x.com", password := "hash:abcd2", role := "Viewer",
             favorites := [3], createdAt := 0 }]
        artists := [{ id := 0, name := "Adele", grammy := 16, hidden := false, createdAt := 0 }]
        albums := [{ id := 5, name := "25", year := 2015, hidden := false, artist := 0,
                     createdAt := 0 }]
        tracks := []
        favorites :=
          [{ id := 1, item_id := 0, category := "artist", name := "Adele", createdAt := 0 },
           { id := 3, item_id := 5, category := "album", name := "25", createdAt := 0 }]
        blacklist := []
        nextId := 6 }
    log := [] }

/-- A request addressing the document with id 0. -/
def idZeroReq : Req :=
  { emptyReq with params := [("id", JsVal.str "000000000000000000000000")] }

/-- The first signup of the samples. -/
def signupReq : Req :=
  { emptyReq with body := [("email", JsVal.str "a@x.com"), ("password", JsVal.str "abcd1")] }

/-- A request of user 0 to add an artist. -/
def addArtistReq : Req :=
  { emptyReq with
    user := some (sampleClaims 0 "Admin")
    body := [("name", JsVal.str "Adele"), ("grammy", JsVal.num 16),
             ("hidden", JsVal.bool true)] }

/-- A request of user 0 to add the item 1, an artist, to the favorites. -/
def addFavoriteReq : Req :=
  { emptyReq with
    user := some (sampleClaims 0 "Admin")
    body := [("item_id", JsVal.str "000000000000000000000001"), ("category", JsVal.str "artist")] }

/-- A signup, then the creation of an artist. -/
def setupEvents : List Event :=
  [Event.call Endpoint.signup signupReq, Event.call Endpoint.addArtist addArtistReq]

/-- The world after the setup events. -/
def setupWorld : World :=
  { store := run sampleEnv Store.empty setupEvents, log := [] }

/-- A request carrying the token of user 0. -/
def tokenZeroReq : Req :=
  { emptyReq with authorization := some "Bearer token-0" }

/-- A request carrying the token of user 1, whom the setup store does not have. -/
def tokenOneReq : Req :=
  { emptyReq with authorization := some "Bearer token-1" }

/-- The world after the first signup and the login that follows it. -/
def loggedInWorld : World :=
  (handle sampleEnv Endpoint.login signupReq
    (handle sampleEnv Endpoint.signup signupReq emptyWorld).world).world

/-- The store of the setup with a second user, 2, whose role is Viewer. -/
def viewerWorld : World :=
  { store :=
      { setupWorld.store with
        users := setupWorld.store.users ++
          [{ id := 2, email := "v@x.com", password := "hash:abcd2", role := "Viewer",
             favorites := [], createdAt := 0 }]
        nextId := 3 }
    log := [] }

/-- Sample collaborators whose token `token-1` belongs to user 2. -/
def viewerEnv : Env :=
  { sampleEnv with
    decode := fun t =>
      if t == "token-0" then some (sampleClaims 0 "Admin")
      else if t == "token-1" then some (sampleClaims 2 "Viewer")
      else none }

/-- A request of the Viewer to delete the artist 1. -/
def viewerDeleteReq : Req :=
  { emptyReq with
    authorization := some "Bearer token-1"
    params := [("id", JsVal.str "000000000000000000000001")] }

/-- A second signup, whose body asks for the role Admin. -/
def secondSignupReq : Req :=
  { emptyReq with
    body := [("email", JsVal.str "b@x.com"), ("password", JsVal.str "abcd2"),
             ("role", JsVal.str "Admin")] }

/-- A request to add an album of the artist 7, who is not stored, with every
field present and `hidden` false. -/
def albumHiddenFalseReq : Req :=
  { emptyReq with
    body := [("artist_id", JsVal.str "000000000000000000000007"), ("name", JsVal.str "25"),
             ("year", JsVal.num 2015), ("hidden", JsVal.bool false)] }

/-- The same request with `hidden` true. -/
def albumNoArtistReq : Req :=
  { emptyReq with
    body := [("artist_id", JsVal.str "000000000000000000000007"), ("name", JsVal.str "25"),
             ("year", JsVal.num 2015), ("hidden", JsVal.bool true)] }

/-- The same request with an `artist_id` that is not an id. -/
def albumBadIdReq : Req :=
  { emptyReq with
    body := [("artist_id", JsVal.str "xyz"), ("name", JsVal.str "25"),
             ("year", JsVal.num 2015), ("hidden", JsVal.bool true)] }

/-- A request of user 2 for the favorites of category artist, one per page:
`GET /favorites/artist?limit=1&offset=0`. -/
def favoritesPageReq : Req :=
  { emptyReq with
    user := some (sampleClaims 2 "Admin")
    params := [("category", JsVal.str "artist")]
    query := [("limit", JsVal.str "1"), ("offset", JsVal.str "0")] }

/-- A request of user 2 to remove the favorite 3 from the caller's list. -/
def removeFavoriteReq : Req :=
  { emptyReq with
    user := some (sampleClaims 2 "Admin")
    params := [("id", JsVal.str "000000000000000000000003")] }

/-- A signup whose password has four characters. -/
def shortPasswordReq : Req :=
  { emptyReq with body := [("email", JsVal.str "a@x.com"), ("password", JsVal.str "abcd")] }

/-- A request to rename the artist 1. -/
def renameArtistReq : Req :=
  { emptyReq with
    params := [("id", JsVal.str "000000000000000000000001")]
    body := [("name", JsVal.str "Adele Adkins")] }

/-- A request of user 2 to change the password, with an old password that is
not the stored one and a new password of three characters. -/
def wrongOldShortNewReq : Req :=
  { emptyReq with
    user := some (sampleClaims 2 "Admin")
    body := [("old_password", JsVal.str "wrong"), ("new_password", JsVal.str "abc")] }

/-- A request of user 2 to change the password from the stored one to a new one
of five characters. -/
def changePasswordReq : Req :=
  { emptyReq with
    user := some (sampleClaims 2 "Admin")
    body := [("old_password", JsVal.str "abcd1"), ("new_password", JsVal.str "abcde")] }

/-- A request to add a user whose email is the one of the first signup. -/
def duplicateUserReq : Req :=
  { emptyReq with
    body := [("email", JsVal.str "a@x.com"), ("password", JsVal.str "abcd2"),
             ("role", JsVal.str "Editor")] }

/-- A request to add an album of the artist 0 under the name `25`. -/
def duplicateAlbumReq : Req :=
  { emptyReq with
    body := [("artist_id", JsVal.str "000000000000000000000000"), ("name", JsVal.str "25"),
             ("year", JsVal.num 2016), ("hidden", JsVal.bool true)] }

/-- A request carrying the token of user 0 to add the artist Adele. -/
def addArtistByTokenReq : Req :=
  { emptyReq with
    authorization := some "Bearer token-0"
    body := [("name", JsVal.str "Adele"), ("grammy", JsVal.num 16),
             ("hidden", JsVal.bool true)] }

/-- A request carrying the token of user 0 to add the album `25` of the artist 1. -/
def addAlbumByTokenReq : Req :=
  { emptyReq with
    authorization := some "Bearer token-0"
    body := [("artist_id", JsVal.str "000000000000000000000001"), ("name", JsVal.str "25"),
             ("year", JsVal.num 2015), ("hidden", JsVal.bool true)] }

/-- A request carrying the token of user 0 that addresses the document 1. -/
def tokenZeroIdOneReq : Req :=
  { emptyReq with
    authorization := some "Bearer token-0"
    params := [("id", JsVal.str "000000000000000000000001")] }

/-- A signup, then, by the user it created, an artist and an album of that
artist, each request served through its route. -/
def albumEvents : List Event :=
  [Event.request Endpoint.signup signupReq,
   Event.request Endpoint.addArtist addArtistByTokenReq,
   Event.request Endpoint.addAlbum addAlbumByTokenReq]

/-- A request carrying the token of user 0 to add the track `Hello` of the
artist 1 on the album 2. -/
def addTrackByTokenReq : Req :=
  { emptyReq with
    authorization := some "Bearer token-0"
    body := [("artist_id", JsVal.str "000000000000000000000001"),
             ("album_id", JsVal.str "000000000000000000000002"), ("name", JsVal.str "Hello"),
             ("duration", JsVal.num 295), ("hidden", JsVal.bool true)] }

/-- A request carrying the token of user 0 that addresses the document 2. -/
def tokenZeroIdTwoReq : Req :=
  { emptyReq with
    authorization := some "Bearer token-0"
    params := [("id", JsVal.str "000000000000000000000002")] }

/-- The album events, then a track of that artist on that album. -/
def trackEvents : List Event :=
  albumEvents ++ [Event.request Endpoint.addTrack addTrackByTokenReq]

/-- Sample collaborators whose two tokens both carry the id of user 0, `token-0`
with the role Admin and `token-1` with the role Viewer. -/
def staleRoleEnv : Env :=
  { sampleEnv with
    decode := fun t =>
      if t == "token-0" then some (sampleClaims 0 "Admin")
      else if t == "token-1" then some (sampleClaims 0 "Viewer")
      else none }

/-- A request carrying the token of user 0 that addresses the document 0. -/
def tokenZeroIdZeroReq : Req :=
  { emptyReq with
    authorization := some "Bearer token-0"
    params := [("id", JsVal.str "000000000000000000000000")] }

/-- The first signup, then the deletion of the user it created, by that user. -/
def signupDeleteEvents : List Event :=
  [Event.request Endpoint.signup signupReq,
   Event.request Endpoint.deleteUser tokenZeroIdZeroReq]

/-- A later signup, of another email. -/
def laterSignupReq : Req :=
  { emptyReq with body := [("email", JsVal.str "b@x.com"), ("password", JsVal.str "abcd2")] }

/-- A request to add an Editor with a fresh email. -/
def addEditorReq : Req :=
  { emptyReq with
    body := [("email", JsVal.str "e@x.com"), ("password", JsVal.str "abcd3"),
             ("role", JsVal.str "Editor")] }

/-- The same request asking for the role Admin. -/
def addAdminReq : Req :=
  { emptyReq with
    body := [("email", JsVal.str "e@x.com"), ("password", JsVal.str "abcd3"),
             ("role", JsVal.str "Admin")] }

/-- The same request with the object `{ "_id": "Admin" }` as role. -/
def addObjectRoleReq : Req :=
  { emptyReq with
    body := [("email", JsVal.str "e@x.com"), ("password", JsVal.str "abcd3"),
             ("role", JsVal.idObj "Admin")] }

/-- The same request carrying the token of user 0, the Admin of the setup. -/
def addObjectRoleByTokenReq : Req :=
  { addObjectRoleReq with authorization := some "Bearer token-0" }

/-- A request to add a track whose fields are all truthy, whose duration is not
a number, and whose artist 7 and album 8 are not stored. -/
def trackBadDurationReq : Req :=
  { emptyReq with
    body := [("artist_id", JsVal.str "000000000000000000000007"),
             ("album_id", JsVal.str "000000000000000000000008"), ("name", JsVal.str "Hello"),
             ("duration", JsVal.str "abc"), ("hidden", JsVal.bool true)] }

/-- A request to add a track whose fields are all truthy, with a numeric
duration and an `artist_id` that is not an id. -/
def trackBadIdReq : Req :=
  { emptyReq with
    body := [("artist_id", JsVal.str "xyz"),
             ("album_id", JsVal.str "000000000000000000000008"), ("name", JsVal.str "Hello"),
             ("duration", JsVal.num 295), ("hidden", JsVal.bool true)] }

/-- A request to add a track of the artist 7 on the album 8, neither of them
stored, with every field truthy and a numeric duration. -/
def trackNoArtistReq : Req :=
  { emptyReq with
    body := [("artist_id", JsVal.str "000000000000000000000007"),
             ("album_id", JsVal.str "000000000000000000000008"), ("name", JsVal.str "Hello"),
             ("duration", JsVal.num 295), ("hidden", JsVal.bool true)] }

/-- A signup, the login of that user, and two logouts with the token of the
login, each request served through its route. -/
def logoutTwiceEvents : List Event :=
  [Event.request Endpoint.signup signupReq,
   Event.request Endpoint.login signupReq,
   Event.request Endpoint.logout tokenZeroReq,
   Event.request Endpoint.logout tokenZeroReq]

/-- A request of user 0 to remove the favorite 2 from the caller's list. -/
def removeAddedReq : Req :=
  { emptyReq with
    user := some (sampleClaims 0 "Admin")
    params := [("id", JsVal.str "000000000000000000000002")] }

/-- A request to add a Viewer with a fresh email and a password of one
character. -/
def addViewerShortReq : Req :=
  { emptyReq with
    body := [("email", JsVal.str "v@x.com"), ("password", JsVal.str "a"),
             ("role", JsVal.str "Viewer")] }

/-- A request of user 0 to add a second artist. -/
def addSecondArtistReq : Req :=
  { emptyReq with
    user := some (sampleClaims 0 "Admin")
    body := [("name", JsVal.str "Sia"), ("grammy", JsVal.num 9),
             ("hidden", JsVal.bool true)] }

/-- A request of user 0 to add the item 2, an artist, to the favorites. -/
def addFavoriteTwoReq : Req :=
  { emptyReq with
    user := some (sampleClaims 0 "Admin")
    body := [("item_id", JsVal.str "000000000000000000000002"), ("category", JsVal.str "artist")] }

/-- A signup, the creation of the artists 1 and 2, and the user adding first
the artist 1 and then the artist 2 to the favorites. -/
def heldEvents : List Event :=
  setupEvents ++
    [Event.call Endpoint.addArtist addSecondArtistReq,
     Event.call Endpoint.addFavorite addFavoriteReq,
     Event.call Endpoint.addFavorite addFavoriteTwoReq]

/-- The world after those events: user 0 holds the favorites 3, of the artist 1,
and 4, of the artist 2. -/
def heldWorld : World :=
  { store := run sampleEnv Store.empty heldEvents, log := [] }

/-! # Properties -/

/-! ## Running computations -/

@[simp] theorem run_pure {α : Type} (a : α) (w : World) : (pure a : M α) w = (Res.ok a, w) := rfl

@[simp] theorem run_mpure {α : Type} (a : α) (w : World) : M.pure a w = (Res.ok a, w) := rfl

@[simp] theorem run_bind {α β : Type} (m : M α) (f : α → M β) (w : World) :
    (m >>= f) w = match m w with
      | (Res.ok a, w1) => f a w1
      | (Res.thrown, w1) => (Res.thrown, w1) := rfl

@[simp] theorem run_throwErr {α : Type} (w : World) : (throwErr : M α) w = (Res.thrown, w) := rfl

@[simp] theorem run_orThrow_some {α : Type} (a : α) (w : World) :
    orThrow (some a) w = (Res.ok a, w) := rfl

@[simp] theorem run_orThrow_none {α : Type} (w : World) :
    (orThrow none : M α) w = (Res.thrown, w) := rfl

@[simp] theorem run_getStore (w : World) : getStore w = (Res.ok w.store, w) := rfl

@[simp] theorem run_setStore (s : Store) (w : World) :
    setStore s w = (Res.ok (), { w with store := s }) := rfl

@[simp] theorem run_logOp (op : DbOp) (w : World) :
    logOp op w = (Res.ok (), { w with log := w.log ++ [op] }) := rfl

/-! ## Frame rules -/

theorem keeps_pure {α : Type} {R : Store → Store → Prop} [Frame R] (a : α) :
    Keeps R (pure a : M α) := ⟨fun _ => Frame.refl _⟩

theorem keeps_mpure {α : Type} {R : Store → Store → Prop} [Frame R] (a : α) :
    Keeps R (M.pure a : M α) := ⟨fun _ => Frame.refl _⟩

theorem keeps_bind {α β : Type} {R : Store → Store → Prop} [Frame R] {m : M α} {f : α → M β}
    (hm : Keeps R m) (hf : ∀ a, Keeps R (f a)) : Keeps R (m >>= f) := by
  constructor
  intro w
  simp only [run_bind]
  have h1 := hm.run w
  rcases hmw : m w with ⟨r, w1⟩
  rw [hmw] at h1
  cases r with
  | ok a => exact Frame.trans _ _ _ h1 ((hf a).run w1)
  | thrown => exact h1

theorem keeps_throwErr {α : Type} {R : Store → Store → Prop} [Frame R] :
    Keeps R (throwErr : M α) := ⟨fun _ => Frame.refl _⟩

theorem keeps_orThrow {α : Type} {R : Store → Store → Prop} [Frame R] (o : Option α) :
    Keeps R (orThrow o) := by
  cases o
  · exact keeps_throwErr
  · exact keeps_mpure _

theorem keeps_tryCatch {α : Type} {R : Store → Store → Prop} [Frame R] {m h : M α}
    (hm : Keeps R m) (hh : Keeps R h) : Keeps R (tryCatch m h) := by
  constructor
  intro w
  simp only [MusicLib.tryCatch]
  have h1 := hm.run w
  rcases hmw : m w with ⟨r, w1⟩
  rw [hmw] at h1
  cases r with
  | ok a => exact h1
  | thrown => exact Frame.trans _ _ _ h1 (hh.run w1)

theorem keeps_catch500 {R : Store → Store → Prop} {m : M Response} (r : Response)
    (hm : Keeps R m) (w : World) : R w.store (catch500 m r w).2.store := by
  simp only [MusicLib.catch500]
  have h1 := hm.run w
  rcases hmw : m w with ⟨x, w1⟩
  rw [hmw] at h1
  cases x <;> exact h1

theorem keeps_catchMw {R : Store → Store → Prop} {m : M MwResult} (r : Response)
    (hm : Keeps R m) (w : World) : R w.store (catchMw m r w).2.store := by
  simp only [MusicLib.catchMw]
  have h1 := hm.run w
  rcases hmw : m w with ⟨x, w1⟩
  rw [hmw] at h1
  cases x <;> exact h1

/-- A computation that leaves the store as it is keeps every frame. -/
theorem keeps_of_readOnly {α : Type} {R : Store → Store → Prop} [Frame R] {m : M α}
    (h : ∀ w, (m w).2.store = w.store) : Keeps R m :=
  ⟨fun w => by rw [h w]; exact Frame.refl _⟩

/-! ### Calls that only read -/

theorem castId_keeps {R : Store → Store → Prop} [Frame R] (env : Env) (v : JsVal) :
    Keeps R (castId env v) := keeps_orThrow _

theorem paginate_keeps {α : Type} {R : Store → Store → Prop} [Frame R] (env : Env)
    (o l : JsVal) (xs : List α) : Keeps R (paginate env o l xs) := by
  unfold paginate
  split
  · split
    · exact keeps_throwErr
    · split <;> exact keeps_mpure _
  · exact keeps_throwErr

theorem jwtVerify_keeps {R : Store → Store → Prop} [Frame R] (env : Env) (t : String) (n : Nat) :
    Keeps R (jwtVerify env t n) := by
  unfold jwtVerify
  split
  · exact keeps_throwErr
  · split
    · exact keeps_throwErr
    · exact keeps_mpure _

theorem bcryptHash_keeps {R : Store → Store → Prop} [Frame R] (env : Env) (v : JsVal) (n : Nat) :
    Keeps R (bcryptHash env v n) := by
  apply keeps_of_readOnly
  intro w
  cases v <;> rfl

theorem bcryptCompare_keeps {R : Store → Store → Prop} [Frame R] (env : Env) (v : JsVal)
    (h : String) : Keeps R (bcryptCompare env v h) := by
  apply keeps_of_readOnly
  intro w
  cases v <;> rfl

theorem isEmail_keeps {R : Store → Store → Prop} [Frame R] (env : Env) (v : JsVal) :
    Keeps R (isEmail env v) := by
  apply keeps_of_readOnly
  intro w
  cases v <;> rfl

theorem reqUser_keeps {R : Store → Store → Prop} [Frame R] (req : Req) :
    Keeps R (reqUser req) := keeps_orThrow _

theorem user_findById_keeps {R : Store → Store → Prop} [Frame R] (i : ObjectId) :
    Keeps R (User.findById i) := keeps_of_readOnly (fun _ => rfl)

theorem user_findOne_keeps {R : Store → Store → Prop} [Frame R] (env : Env) (e : JsVal) :
    Keeps R (User.findOne env e) := by
  apply keeps_of_readOnly
  intro w
  simp only [User.findOne, run_bind, run_logOp]
  cases castStr env e <;> rfl

theorem user_find_keeps {R : Store → Store → Prop} [Frame R] (env : Env) (roles : List String)
    (o l : JsVal) : Keeps R (User.find env roles o l) := by
  unfold User.find
  exact keeps_bind (keeps_of_readOnly (fun _ => rfl)) (fun _ =>
    keeps_bind (keeps_of_readOnly (fun _ => rfl)) (fun _ => paginate_keeps _ _ _ _))

theorem user_countDocuments_keeps {R : Store → Store → Prop} [Frame R] :
    Keeps R User.countDocuments := keeps_of_readOnly (fun _ => rfl)

theorem user_findByIdPopulated_keeps {R : Store → Store → Prop} [Frame R] (i : ObjectId) :
    Keeps R (User.findByIdPopulated i) := keeps_of_readOnly (fun _ => rfl)

theorem artist_findById_keeps {R : Store → Store → Prop} [Frame R] (i : ObjectId) :
    Keeps R (Artist.findById i) := keeps_of_readOnly (fun _ => rfl)

theorem artist_find_keeps {R : Store → Store → Prop} [Frame R] (env : Env) (q : ArtistQuery)
    (o l : JsVal) : Keeps R (Artist.find env q o l) := by
  unfold Artist.find
  exact keeps_bind (keeps_of_readOnly (fun _ => rfl)) (fun _ =>
    keeps_bind (keeps_orThrow _) (fun _ => keeps_bind (keeps_orThrow _) (fun _ =>
      keeps_bind (keeps_of_readOnly (fun _ => rfl)) (fun _ => paginate_keeps _ _ _ _))))

theorem album_findById_keeps {R : Store → Store → Prop} [Frame R] (i : ObjectId) :
    Keeps R (Album.findById i) := keeps_of_readOnly (fun _ => rfl)

theorem album_findByIdPopulated_keeps {R : Store → Store → Prop} [Frame R] (i : ObjectId) :
    Keeps R (Album.findByIdPopulated i) := keeps_of_readOnly (fun _ => rfl)

theorem album_find_keeps {R : Store → Store → Prop} [Frame R] (env : Env) (q : AlbumQuery)
    (o l : JsVal) : Keeps R (Album.find env q o l) := by
  unfold Album.find
  exact keeps_bind (keeps_of_readOnly (fun _ => rfl)) (fun _ =>
    keeps_bind (keeps_orThrow _) (fun _ => keeps_bind (keeps_orThrow _) (fun _ =>
      keeps_bind (keeps_of_readOnly (fun _ => rfl)) (fun _ =>
        keeps_bind (paginate_keeps _ _ _ _) (fun _ => keeps_pure _)))))

theorem track_findById_keeps {R : Store → Store → Prop} [Frame R] (i : ObjectId) :
    Keeps R (Track.findById i) := keeps_of_readOnly (fun _ => rfl)

theorem track_findByIdPopulated_keeps {R : Store → Store → Prop} [Frame R] (i : ObjectId) :
    Keeps R (Track.findByIdPopulated i) := keeps_of_readOnly (fun _ => rfl)

theorem track_find_keeps {R : Store → Store → Prop} [Frame R] (env : Env) (q : TrackQuery)
    (o l : JsVal) : Keeps R (Track.find env q o l) := by
  unfold Track.find
  exact keeps_bind (keeps_of_readOnly (fun _ => rfl)) (fun _ =>
    keeps_bind (keeps_orThrow _) (fun _ => keeps_bind (keeps_orThrow _) (fun _ =>
      keeps_bind (keeps_orThrow _) (fun _ =>
        keeps_bind (keeps_of_readOnly (fun _ => rfl)) (fun _ =>
          keeps_bind (paginate_keeps _ _ _ _) (fun _ => keeps_pure _))))))

theorem favorite_findOne_keeps {R : Store → Store → Prop} [Frame R] (i : ObjectId) :
    Keeps R (Favorite.findOne i) := keeps_of_readOnly (fun _ => rfl)

theorem favorite_findById_keeps {R : Store → Store → Prop} [Frame R] (i : ObjectId) :
    Keeps R (Favorite.findById i) := keeps_of_readOnly (fun _ => rfl)

theorem blacklist_findOne_keeps {R : Store → Store → Prop} [Frame R] (t : String) :
    Keeps R (BlacklistToken.findOne t) := keeps_of_readOnly (fun _ => rfl)

/-! ### The frame of the calls issued -/

theorem collRel_refl (ops : List DbOp) (c : Coll) {α : Type} (key : α → ObjectId) (l : List α) :
    CollRel ops c key l l :=
  ⟨fun _ x hx => ⟨x, hx, rfl⟩, fun _ _ => List.Sublist.refl l, fun _ _ => List.prefix_refl l⟩

theorem collRel_trans {ops : List DbOp} {c : Coll} {α : Type} {key : α → ObjectId}
    {l1 l2 l3 : List α} (h1 : CollRel ops c key l1 l2) (h2 : CollRel ops c key l2 l3) :
    CollRel ops c key l1 l3 := by
  refine ⟨fun hi x hx => ?_, fun hi hu => (h2.sub hi hu).trans (h1.sub hi hu),
    fun hu hd => (h1.pre hu hd).trans (h2.pre hu hd)⟩
  obtain ⟨y, hy, hyx⟩ := h2.noNew hi x hx
  obtain ⟨z, hz, hzy⟩ := h1.noNew hi y hy
  exact ⟨z, hz, hzy.trans hyx⟩

theorem collRel_append {ops : List DbOp} {c : Coll} {α : Type} (key : α → ObjectId)
    (l : List α) (x : α) (h : DbOp.insert c ∈ ops) : CollRel ops c key l (l ++ [x]) :=
  ⟨fun hi => absurd h hi, fun hi => absurd h hi, fun _ _ => List.prefix_append l [x]⟩

theorem collRel_filter {ops : List DbOp} {c : Coll} {α : Type} (key : α → ObjectId)
    (l : List α) (p : α → Bool) (h : DbOp.delete c ∈ ops) : CollRel ops c key l (l.filter p) :=
  ⟨fun _ x hx => ⟨x, (List.mem_filter.mp hx).1, rfl⟩, fun _ _ => List.filter_sublist l,
    fun _ hd => absurd h hd⟩

theorem collRel_map {ops : List DbOp} {c : Coll} {α : Type} (key : α → ObjectId)
    (l : List α) (f : α → α) (hk : ∀ x, key (f x) = key x) (h : DbOp.update c ∈ ops) :
    CollRel ops c key l (l.map f) := by
  refine ⟨fun _ x hx => ?_, fun _ hu => absurd h hu, fun hu => absurd h hu⟩
  obtain ⟨y, hy, rfl⟩ := List.mem_map.mp hx
  exact ⟨y, hy, (hk y).symm⟩

/-- Without any call on a collection, the collection is what it was. -/
theorem collRel_eq {ops : List DbOp} {c : Coll} {α : Type} {key : α → ObjectId}
    {l1 l2 : List α} (h : CollRel ops c key l1 l2) (hi : DbOp.insert c ∉ ops)
    (hu : DbOp.update c ∉ ops) (hd : DbOp.delete c ∉ ops) : l2 = l1 :=
  (h.sub hi hu).antisymm (h.pre hu hd).sublist

theorem allowed_refl (ops : List DbOp) (s : Store) : Allowed ops s s :=
  ⟨collRel_refl _ _ _ _, collRel_refl _ _ _ _, collRel_refl _ _ _ _, collRel_refl _ _ _ _,
    collRel_refl _ _ _ _, collRel_refl _ _ _ _, Nat.le_refl _⟩

theorem allowed_trans {ops : List DbOp} {a b c : Store} (h1 : Allowed ops a b)
    (h2 : Allowed ops b c) : Allowed ops a c :=
  ⟨collRel_trans h1.users h2.users, collRel_trans h1.artists h2.artists,
    collRel_trans h1.albums h2.albums, collRel_trans h1.tracks h2.tracks,
    collRel_trans h1.favorites h2.favorites, collRel_trans h1.blacklist h2.blacklist,
    Nat.le_trans h1.nextId h2.nextId⟩


theorem allowed_set_users {ops : List DbOp} {s : Store} {us : List User} {n : Nat}
    (h : CollRel ops Coll.users User.id s.users us) (hn : s.nextId ≤ n) :
    Allowed ops s { s with users := us, nextId := n } :=
  ⟨h, collRel_refl _ _ _ _, collRel_refl _ _ _ _, collRel_refl _ _ _ _, collRel_refl _ _ _ _,
    collRel_refl _ _ _ _, hn⟩

theorem allowed_set_artists {ops : List DbOp} {s : Store} {l : List Artist} {n : Nat}
    (h : CollRel ops Coll.artists Artist.id s.artists l) (hn : s.nextId ≤ n) :
    Allowed ops s { s with artists := l, nextId := n } :=
  ⟨collRel_refl _ _ _ _, h, collRel_refl _ _ _ _, collRel_refl _ _ _ _, collRel_refl _ _ _ _,
    collRel_refl _ _ _ _, hn⟩

theorem allowed_set_albums {ops : List DbOp} {s : Store} {l : List Album} {n : Nat}
    (h : CollRel ops Coll.albums Album.id s.albums l) (hn : s.nextId ≤ n) :
    Allowed ops s { s with albums := l, nextId := n } :=
  ⟨collRel_refl _ _ _ _, collRel_refl _ _ _ _, h, collRel_refl _ _ _ _, collRel_refl _ _ _ _,
    collRel_refl _ _ _ _, hn⟩

theorem allowed_set_tracks {ops : List DbOp} {s : Store} {l : List Track} {n : Nat}
    (h : CollRel ops Coll.tracks Track.id s.tracks l) (hn : s.nextId ≤ n) :
    Allowed ops s { s with tracks := l, nextId := n } :=
  ⟨collRel_refl _ _ _ _, collRel_refl _ _ _ _, collRel_refl _ _ _ _, h, collRel_refl _ _ _ _,
    collRel_refl _ _ _ _, hn⟩

theorem allowed_set_favorites {ops : List DbOp} {s : Store} {l : List Favorite} {n : Nat}
    (h : CollRel ops Coll.favorites Favorite.id s.favorites l) (hn : s.nextId ≤ n) :
    Allowed ops s { s with favorites := l, nextId := n } :=
  ⟨collRel_refl _ _ _ _, collRel_refl _ _ _ _, collRel_refl _ _ _ _, collRel_refl _ _ _ _, h,
    collRel_refl _ _ _ _, hn⟩

theorem allowed_set_blacklist {ops : List DbOp} {s : Store} {l : List BlacklistToken} {n : Nat}
    (h : CollRel ops Coll.blacklist BlacklistToken.id s.blacklist l) (hn : s.nextId ≤ n) :
    Allowed ops s { s with blacklist := l, nextId := n } :=
  ⟨collRel_refl _ _ _ _, collRel_refl _ _ _ _, collRel_refl _ _ _ _, collRel_refl _ _ _ _,
    collRel_refl _ _ _ _, h, hn⟩

/-! ### Calls that write -/

theorem user_create_keeps {ops : List DbOp} (h : DbOp.insert Coll.users ∈ ops) (env : Env)
    (e : JsVal) (p : String) (r : JsVal) (n : Nat) :
    Keeps (Allowed ops) (User.create env e p r n) := by
  constructor
  intro w
  simp only [User.create, run_bind, run_logOp, run_getStore]
  cases castStr env e <;> simp only [run_orThrow_none, run_orThrow_some]
  · exact allowed_refl _ _
  cases castStr env r <;> simp only [run_orThrow_none, run_orThrow_some]
  · exact allowed_refl _ _
  split
  · exact allowed_refl _ _
  split
  · exact allowed_refl _ _
  · exact allowed_set_users (collRel_append _ _ _ h) (Nat.le_succ _)

theorem user_findByIdAndDelete_keeps {ops : List DbOp} (h : DbOp.delete Coll.users ∈ ops)
    (i : ObjectId) : Keeps (Allowed ops) (User.findByIdAndDelete i) :=
  ⟨fun _ => allowed_set_users (collRel_filter _ _ _ h) (Nat.le_refl _)⟩

theorem user_updateManyPull_keeps {ops : List DbOp} (h : DbOp.update Coll.users ∈ ops)
    (fid : ObjectId) : Keeps (Allowed ops) (User.updateManyPull fid) :=
  ⟨fun _ => allowed_set_users
    (collRel_map _ _ _ (fun u => by split <;> rfl) h) (Nat.le_refl _)⟩

theorem user_findByIdAndUpdatePull_keeps {ops : List DbOp} (h : DbOp.update Coll.users ∈ ops)
    (uid fid : ObjectId) : Keeps (Allowed ops) (User.findByIdAndUpdatePull uid fid) :=
  ⟨fun _ => allowed_set_users
    (collRel_map _ _ _ (fun u => by split <;> rfl) h) (Nat.le_refl _)⟩

theorem user_save_keeps {ops : List DbOp} (h : DbOp.update Coll.users ∈ ops) (u : User) :
    Keeps (Allowed ops) (User.save u) := by
  constructor
  intro w
  simp only [User.save, run_bind, run_logOp, run_getStore]
  split
  · refine allowed_set_users (collRel_map _ _ _ (fun x => ?_) h) (Nat.le_refl _)
    split
    · rename_i hx
      exact (beq_iff_eq.mp hx).symm
    · rfl
  · exact allowed_refl _ _

theorem artist_create_keeps {ops : List DbOp} (h : DbOp.insert Coll.artists ∈ ops) (env : Env)
    (a b c : JsVal) (n : Nat) : Keeps (Allowed ops) (Artist.create env a b c n) := by
  constructor
  intro w
  simp only [Artist.create, run_bind, run_logOp, run_getStore]
  cases castStr env a <;> simp only [run_orThrow_none, run_orThrow_some]
  · exact allowed_refl _ _
  cases castNum env b <;> simp only [run_orThrow_none, run_orThrow_some]
  · exact allowed_refl _ _
  cases castBool env c <;> simp only [run_orThrow_none, run_orThrow_some]
  · exact allowed_refl _ _
  split
  · exact allowed_refl _ _
  split
  · exact allowed_refl _ _
  · exact allowed_set_artists (collRel_append _ _ _ h) (Nat.le_succ _)

theorem artist_findByIdAndUpdate_keeps {ops : List DbOp} (h : DbOp.update Coll.artists ∈ ops)
    (env : Env) (i : ObjectId) (patch : Obj) :
    Keeps (Allowed ops) (Artist.findByIdAndUpdate env i patch) := by
  constructor
  intro w
  simp only [Artist.findByIdAndUpdate, run_bind, run_logOp, run_getStore]
  cases castPatch (castStr env) patch "name" <;>
    simp only [run_orThrow_none, run_orThrow_some]
  · exact allowed_refl _ _
  cases castPatch (castNum env) patch "grammy" <;>
    simp only [run_orThrow_none, run_orThrow_some]
  · exact allowed_refl _ _
  cases castPatch (castBool env) patch "hidden" <;>
    simp only [run_orThrow_none, run_orThrow_some]
  · exact allowed_refl _ _
  split
  · exact allowed_refl _ _
  split
  · exact allowed_refl _ _
  · exact allowed_set_artists
      (collRel_map _ _ _ (fun x => by split <;> rfl) h) (Nat.le_refl _)

theorem artist_findByIdAndDelete_keeps {ops : List DbOp} (h : DbOp.delete Coll.artists ∈ ops)
    (i : ObjectId) : Keeps (Allowed ops) (Artist.findByIdAndDelete i) :=
  ⟨fun _ => allowed_set_artists (collRel_filter _ _ _ h) (Nat.le_refl _)⟩

theorem album_create_keeps {ops : List DbOp} (h : DbOp.insert Coll.albums ∈ ops) (env : Env)
    (a b c d : JsVal) (n : Nat) : Keeps (Allowed ops) (Album.create env a b c d n) := by
  constructor
  intro w
  simp only [Album.create, run_bind, run_logOp, run_getStore]
  cases castStr env a <;> simp only [run_orThrow_none, run_orThrow_some]
  · exact allowed_refl _ _
  cases castNum env b <;> simp only [run_orThrow_none, run_orThrow_some]
  · exact allowed_refl _ _
  cases env.castObjectId c <;> simp only [run_orThrow_none, run_orThrow_some]
  · exact allowed_refl _ _
  cases castBool env d <;> simp only [run_orThrow_none, run_orThrow_some]
  · exact allowed_refl _ _
  split
  · exact allowed_refl _ _
  split
  · exact allowed_refl _ _
  · exact allowed_set_albums (collRel_append _ _ _ h) (Nat.le_succ _)

theorem album_findByIdAndUpdate_keeps {ops : List DbOp} (h : DbOp.update Coll.albums ∈ ops)
    (env : Env) (i : ObjectId) (patch : Obj) :
    Keeps (Allowed ops) (Album.findByIdAndUpdate env i patch) := by
  constructor
  intro w
  simp only [Album.findByIdAndUpdate, run_bind, run_logOp, run_getStore]
  cases castPatch (castStr env) patch "name" <;>
    simp only [run_orThrow_none, run_orThrow_some]
  · exact allowed_refl _ _
  cases castPatch (castNum env) patch "year" <;>
    simp only [run_orThrow_none, run_orThrow_some]
  · exact allowed_refl _ _
  cases castPatch (castBool env) patch "hidden" <;>
    simp only [run_orThrow_none, run_orThrow_some]
  · exact allowed_refl _ _
  split
  · exact allowed_refl _ _
  split
  · exact allowed_refl _ _
  · exact allowed_set_albums
      (collRel_map _ _ _ (fun x => by split <;> rfl) h) (Nat.le_refl _)

theorem album_findByIdAndDelete_keeps {ops : List DbOp} (h : DbOp.delete Coll.albums ∈ ops)
    (i : ObjectId) : Keeps (Allowed ops) (Album.findByIdAndDelete i) :=
  ⟨fun _ => allowed_set_albums (collRel_filter _ _ _ h) (Nat.le_refl _)⟩

theorem track_create_keeps {ops : List DbOp} (h : DbOp.insert Coll.tracks ∈ ops) (env : Env)
    (a b c d e : JsVal) (n : Nat) : Keeps (Allowed ops) (Track.create env a b c d e n) := by
  constructor
  intro w
  simp only [Track.create, run_bind, run_logOp, run_getStore]
  cases castStr env a <;> simp only [run_orThrow_none, run_orThrow_some]
  · exact allowed_refl _ _
  cases castNum env b <;> simp only [run_orThrow_none, run_orThrow_some]
  · exact allowed_refl _ _
  cases env.castObjectId c <;> simp only [run_orThrow_none, run_orThrow_some]
  · exact allowed_refl _ _
  cases env.castObjectId d <;> simp only [run_orThrow_none, run_orThrow_some]
  · exact allowed_refl _ _
  cases castBool env e <;> simp only [run_orThrow_none, run_orThrow_some]
  · exact allowed_refl _ _
  split
  · exact allowed_refl _ _
  · exact allowed_set_tracks (collRel_append _ _ _ h) (Nat.le_succ _)

theorem track_findByIdAndUpdate_keeps {ops : List DbOp} (h : DbOp.update Coll.tracks ∈ ops)
    (env : Env) (i : ObjectId) (patch : Obj) :
    Keeps (Allowed ops) (Track.findByIdAndUpdate env i patch) := by
  constructor
  intro w
  simp only [Track.findByIdAndUpdate, run_bind, run_logOp, run_getStore]
  cases castPatch (castStr env) patch "name" <;>
    simp only [run_orThrow_none, run_orThrow_some]
  · exact allowed_refl _ _
  cases castPatch (castNum env) patch "duration" <;>
    simp only [run_orThrow_none, run_orThrow_some]
  · exact allowed_refl _ _
  cases castPatch (castBool env) patch "hidden" <;>
    simp only [run_orThrow_none, run_orThrow_some]
  · exact allowed_refl _ _
  split
  · exact allowed_refl _ _
  · exact allowed_set_tracks
      (collRel_map _ _ _ (fun x => by split <;> rfl) h) (Nat.le_refl _)

theorem track_findByIdAndDelete_keeps {ops : List DbOp} (h : DbOp.delete Coll.tracks ∈ ops)
    (i : ObjectId) : Keeps (Allowed ops) (Track.findByIdAndDelete i) :=
  ⟨fun _ => allowed_set_tracks (collRel_filter _ _ _ h) (Nat.le_refl _)⟩

theorem favorite_create_keeps {ops : List DbOp} (h : DbOp.insert Coll.favorites ∈ ops)
    (env : Env) (a b : JsVal) (c : String) (n : Nat) :
    Keeps (Allowed ops) (Favorite.create env a b c n) := by
  constructor
  intro w
  simp only [Favorite.create, run_bind, run_logOp, run_getStore]
  cases env.castObjectId a <;> simp only [run_orThrow_none, run_orThrow_some]
  · exact allowed_refl _ _
  cases castStr env b <;> simp only [run_orThrow_none, run_orThrow_some]
  · exact allowed_refl _ _
  split
  · exact allowed_refl _ _
  · exact allowed_set_favorites (collRel_append _ _ _ h) (Nat.le_succ _)

theorem favorite_findByIdAndDelete_keeps {ops : List DbOp}
    (h : DbOp.delete Coll.favorites ∈ ops) (hu : DbOp.update Coll.users ∈ ops) (i : ObjectId) :
    Keeps (Allowed ops) (Favorite.findByIdAndDelete i) := by
  constructor
  intro w
  simp only [Favorite.findByIdAndDelete, run_bind, run_logOp, run_getStore]
  cases List.find? (fun f => f.id == i) w.store.favorites
  · exact allowed_refl _ _
  · simp only [run_bind, run_setStore]
    refine allowed_trans
      (allowed_set_favorites (collRel_filter _ _ (fun f => f.id != i) h) (Nat.le_refl _)) ?_
    exact (user_updateManyPull_keeps hu _).run
      { store := { w.store with favorites := w.store.favorites.filter (fun f => f.id != i) },
        log := w.log ++ [DbOp.delete Coll.favorites] }

theorem blacklist_create_keeps {ops : List DbOp} (h : DbOp.insert Coll.blacklist ∈ ops)
    (t : String) (e n : Nat) : Keeps (Allowed ops) (BlacklistToken.create t e n) := by
  constructor
  intro w
  simp only [BlacklistToken.create, run_bind, run_logOp, run_getStore]
  split
  · exact allowed_refl _ _
  · exact allowed_set_blacklist (collRel_append _ _ _ h) (Nat.le_succ _)

theorem cascadeFavorite_keeps {ops : List DbOp} (h : DbOp.delete Coll.favorites ∈ ops)
    (hu : DbOp.update Coll.users ∈ ops) (env : Env) (v : JsVal) :
    Keeps (Allowed ops) (cascadeFavorite env v) := by
  unfold cascadeFavorite
  refine keeps_bind (castId_keeps _ _) (fun _ => keeps_bind (favorite_findOne_keeps _) (fun fav => ?_))
  cases fav
  · exact keeps_pure _
  · exact keeps_bind (user_updateManyPull_keeps hu _) (fun _ => favorite_findByIdAndDelete_keeps h hu _)

theorem itemLookup_keeps {R : Store → Store → Prop} [Frame R] (env : Env) (model : String)
    (v : JsVal) : Keeps R (itemLookup env model v) := by
  unfold itemLookup
  split
  · exact keeps_bind (castId_keeps _ _) (fun _ => keeps_bind (album_findById_keeps _) (fun _ => keeps_pure _))
  split
  · exact keeps_bind (castId_keeps _ _) (fun _ => keeps_bind (artist_findById_keeps _) (fun _ => keeps_pure _))
  split
  · exact keeps_bind (castId_keeps _ _) (fun _ => keeps_bind (track_findById_keeps _) (fun _ => keeps_pure _))
  · exact keeps_pure _

/-- Every controller changes the store only through the calls listed for it. -/
theorem controller_allowed (env : Env) (ep : Endpoint) (req : Req) (w : World) :
    Allowed (opsOf ep) w.store (controller env ep req w).2.store := by
  cases ep <;>
  simp only [controller, opsOf, signup, login, logout, getUsers, addUser, deleteUser,
    updatePassword, getArtists, getArtist, addArtist, updateArtist, deleteArtist, getAlbums,
    getAlbum, addAlbum, updateAlbum, deleteAlbum, getTracks, getTrack, addTrack, updateTrack,
    deleteTrack, getFavorites, addFavorite, removeFavorite] <;>
  apply keeps_catch500 <;>
  repeat' (first
    | with_reducible exact keeps_pure _
    | with_reducible exact keeps_throwErr
    | with_reducible exact keeps_orThrow _
    | with_reducible exact castId_keeps _ _
    | with_reducible exact isEmail_keeps _ _
    | with_reducible exact bcryptHash_keeps _ _ _
    | with_reducible exact bcryptCompare_keeps _ _ _
    | with_reducible exact jwtVerify_keeps _ _ _
    | with_reducible exact reqUser_keeps _
    | with_reducible exact itemLookup_keeps _ _ _
    | with_reducible exact user_findById_keeps _
    | with_reducible exact user_findOne_keeps _ _
    | with_reducible exact user_find_keeps _ _ _ _
    | with_reducible exact user_countDocuments_keeps
    | with_reducible exact user_findByIdPopulated_keeps _
    | with_reducible exact artist_findById_keeps _
    | with_reducible exact artist_find_keeps _ _ _ _
    | with_reducible exact album_findById_keeps _
    | with_reducible exact album_findByIdPopulated_keeps _
    | with_reducible exact album_find_keeps _ _ _ _
    | with_reducible exact track_findById_keeps _
    | with_reducible exact track_findByIdPopulated_keeps _
    | with_reducible exact track_find_keeps _ _ _ _
    | with_reducible exact favorite_findOne_keeps _
    | with_reducible exact favorite_findById_keeps _
    | with_reducible exact blacklist_findOne_keeps _
    | with_reducible exact user_create_keeps (by decide) _ _ _ _ _
    | with_reducible exact user_findByIdAndDelete_keeps (by decide) _
    | with_reducible exact user_findByIdAndUpdatePull_keeps (by decide) _ _
    | with_reducible exact user_save_keeps (by decide) _
    | with_reducible exact artist_create_keeps (by decide) _ _ _ _ _
    | with_reducible exact artist_findByIdAndUpdate_keeps (by decide) _ _ _
    | with_reducible exact artist_findByIdAndDelete_keeps (by decide) _
    | with_reducible exact album_create_keeps (by decide) _ _ _ _ _ _
    | with_reducible exact album_findByIdAndUpdate_keeps (by decide) _ _ _
    | with_reducible exact album_findByIdAndDelete_keeps (by decide) _
    | with_reducible exact track_create_keeps (by decide) _ _ _ _ _ _ _
    | with_reducible exact track_findByIdAndUpdate_keeps (by decide) _ _ _
    | with_reducible exact track_findByIdAndDelete_keeps (by decide) _
    | with_reducible exact favorite_create_keeps (by decide) _ _ _ _ _
    | with_reducible exact blacklist_create_keeps (by decide) _ _ _
    | with_reducible exact cascadeFavorite_keeps (by decide) (by decide) _ _
    | with_reducible apply keeps_bind
    | intro _
    | split)

/-! ## Pagination and patch validation -/

theorem withDefault_of_defined (v d : JsVal) (h : v ≠ JsVal.undefined) : withDefault v d = v := by
  cases v <;> simp_all [withDefault]

/-- C1, as the code has it: for each of the five list operations, a request
whose `limit` or `offset` query value is present and is not a number under the
number coercion of the runtime (the coercion gives NaN) or is negative gets the
400 reply, and the world is returned as it was: no persistence call is logged
and the store is untouched. -/
theorem list_rejects_bad_pagination (env : Env) (req : Req) (w : World)
    (h : (req.query.get "limit" ≠ JsVal.undefined ∧
            (isNaN env (req.query.get "limit") = true ∨
              ltZero env (req.query.get "limit") = true)) ∨
         (req.query.get "offset" ≠ JsVal.undefined ∧
            (isNaN env (req.query.get "offset") = true ∨
              ltZero env (req.query.get "offset") = true))) :
    ∀ op ∈ [getArtists env, getAlbums env, getTracks env, getUsers env, getFavorites env],
      (op req w).1.status = 400 ∧
      op req w = (reply "status" 400 Json.null "Bad Request" Json.null, w) := by
  intro op hop
  simp only [List.mem_cons, List.mem_singleton, List.not_mem_nil, or_false] at hop
  have key : op req w = (reply "status" 400 Json.null "Bad Request" Json.null, w) := by
    rcases hop with rfl | rfl | rfl | rfl | rfl <;>
    rcases h with ⟨h1, h2 | h2⟩ | ⟨h1, h2 | h2⟩ <;>
    simp [getArtists, getAlbums, getTracks, getUsers, getFavorites, catch500,
      withDefault_of_defined _ _ h1, h2]
  exact ⟨by rw [key]; rfl, key⟩

theorem list_rejects_bad_pagination_witness :
    (getFavorites sampleEnv negativeLimitReq emptyWorld).1.status = 400 ∧
    getFavorites sampleEnv negativeLimitReq emptyWorld =
      (reply "status" 400 Json.null "Bad Request" Json.null, emptyWorld) :=
  list_rejects_bad_pagination sampleEnv negativeLimitReq emptyWorld
    (Or.inl ⟨by decide, Or.inr (by decide)⟩) (getFavorites sampleEnv) (by simp)

/-- C1 as stated fails: the empty text is not a numeral, but the runtime
coerces it to the number 0, so neither `isNaN(limit)` nor `limit < 0` holds of
it: `getArtists` with `?limit=` passes the pagination test, issues the query
and replies 200. -/
theorem empty_limit_not_rejected :
    emptyLimitReq.query.get "limit" = JsVal.str "" ∧
    isNaN sampleEnv (emptyLimitReq.query.get "limit") = false ∧
    ltZero sampleEnv (emptyLimitReq.query.get "limit") = false ∧
    (getArtists sampleEnv emptyLimitReq setupWorld).1.status = 200 ∧
    (getArtists sampleEnv emptyLimitReq setupWorld).2.log = [DbOp.query Coll.artists] ∧
    (getArtists sampleEnv emptyLimitReq setupWorld).2.store = setupWorld.store := by
  decide

/-- A controller whose first test holds replies what the first branch says. -/
theorem catch500_if_pos {c : Prop} [Decidable c] (hc : c) (r e : Response) (m : M Response)
    (w : World) : catch500 (if c then pure r else m) e w = (r, w) := by
  simp [catch500, hc]

theorem disallowed_patch_test (body : Obj) (allowed : List String)
    (h : body = [] ∨ ∃ k ∈ body.keys, k ∉ allowed) :
    (!(body.keys.all (fun field => allowed.contains field))) = true ∨
      (body.keys.length == 0) = true := by
  rcases h with h | ⟨k, hk, hn⟩
  · right
    simp [h, Obj.keys]
  · left
    rw [Bool.not_eq_true', Bool.eq_false_iff]
    intro hall
    rw [List.all_eq_true] at hall
    have := hall k hk
    simp only [List.contains_eq_any_beq, List.any_eq_true, beq_iff_eq] at this
    obtain ⟨x, hx, rfl⟩ := this
    exact hn hx

/-- C2: a patch body that is empty, or has a key outside the allow-list of the
entity (whatever its other keys), gets the 400 reply from `updateArtist`,
`updateAlbum` and `updateTrack` alike, for every store, and the world is
returned as it was: nothing is looked up and nothing is modified. -/
theorem update_rejects_disallowed_patch (env : Env) (req : Req) (w : World) :
    ((req.body = [] ∨ ∃ k ∈ req.body.keys, k ∉ ["name", "grammy", "hidden"]) →
      (updateArtist env req w).1.status = 400 ∧ (updateArtist env req w).2 = w) ∧
    ((req.body = [] ∨ ∃ k ∈ req.body.keys, k ∉ ["name", "year", "hidden"]) →
      (updateAlbum env req w).1.status = 400 ∧ (updateAlbum env req w).2 = w) ∧
    ((req.body = [] ∨ ∃ k ∈ req.body.keys, k ∉ ["name", "duration", "hidden"]) →
      (updateTrack env req w).1.status = 400 ∧ (updateTrack env req w).2 = w) := by
  refine ⟨fun h => ?_, fun h => ?_, fun h => ?_⟩
  · have : updateArtist env req w = (reply "state" 400 Json.null "Bad Request" Json.null, w) := by
      simp only [updateArtist]
      apply catch500_if_pos
      simp only [Bool.or_eq_true]
      rcases disallowed_patch_test _ _ h with hk | hk
      · exact Or.inl (Or.inl (Or.inr hk))
      · exact Or.inl (Or.inr hk)
    rw [this]; exact ⟨rfl, rfl⟩
  · have : updateAlbum env req w = (reply "state" 400 Json.null "Bad Request" Json.null, w) := by
      simp only [updateAlbum]
      apply catch500_if_pos
      simp only [Bool.or_eq_true]
      rcases disallowed_patch_test _ _ h with hk | hk
      · exact Or.inl (Or.inr hk)
      · exact Or.inr hk
    rw [this]; exact ⟨rfl, rfl⟩
  · have : updateTrack env req w = (reply "state" 400 Json.null "Bad Request" Json.null, w) := by
      simp only [updateTrack]
      apply catch500_if_pos
      simp only [Bool.or_eq_true]
      rcases disallowed_patch_test _ _ h with hk | hk
      · exact Or.inl (Or.inr hk)
      · exact Or.inr hk
    rw [this]; exact ⟨rfl, rfl⟩

theorem update_rejects_disallowed_patch_witness :
    (∃ k ∈ mixedPatchReq.body.keys, k ∉ ["name", "grammy", "hidden"]) ∧
    ((updateArtist sampleEnv mixedPatchReq emptyWorld).1.status = 400 ∧
      (updateArtist sampleEnv mixedPatchReq emptyWorld).2 = emptyWorld) ∧
    ((updateAlbum sampleEnv mixedPatchReq emptyWorld).1.status = 400 ∧
      (updateAlbum sampleEnv mixedPatchReq emptyWorld).2 = emptyWorld) ∧
    ((updateTrack sampleEnv mixedPatchReq emptyWorld).1.status = 400 ∧
      (updateTrack sampleEnv mixedPatchReq emptyWorld).2 = emptyWorld) :=
  ⟨⟨"artist", by decide, by decide⟩,
    (update_rejects_disallowed_patch sampleEnv mixedPatchReq emptyWorld).1
      (Or.inr ⟨"artist", by decide, by decide⟩),
    (update_rejects_disallowed_patch sampleEnv mixedPatchReq emptyWorld).2.1
      (Or.inr ⟨"artist", by decide, by decide⟩),
    (update_rejects_disallowed_patch sampleEnv mixedPatchReq emptyWorld).2.2
      (Or.inr ⟨"artist", by decide, by decide⟩)⟩

/-! ## Cascade on delete -/

theorem pull_if_mem (fid : ObjectId) (u : User) :
    (if fid ∈ u.favorites then
        { u with favorites := u.favorites.filter (fun x => x != fid) }
      else u) = pullFavorite fid u := by
  unfold pullFavorite
  split
  · rfl
  · rename_i h
    have hf : u.favorites.filter (fun x => x != fid) = u.favorites := by
      rw [List.filter_eq_self]
      intro x hx
      simp only [bne_iff_ne, ne_eq]
      rintro rfl
      exact h hx
    rw [hf]

theorem pull_idem (fid : ObjectId) (u : User) :
    pullFavorite fid (pullFavorite fid u) = pullFavorite fid u := by
  simp [pullFavorite, List.filter_filter]

theorem not_mem_pull (fid : ObjectId) (u : User) : fid ∉ (pullFavorite fid u).favorites := by
  simp [pullFavorite, List.mem_filter]

/-- Two stored favorites of the same item are the same favorite. -/
theorem favorite_eq_of_item {s : Store} (h : FavoritesUnique s) {x y : Favorite}
    (hx : x ∈ s.favorites) (hy : y ∈ s.favorites) (hxy : x.item_id = y.item_id) : x = y := by
  by_contra hne
  exact (List.Pairwise.forall (fun _ _ hab => fun e => hab e.symm) h hx hy hne) hxy

theorem find_item_of_unique {s : Store} (h : FavoritesUnique s) {f : Favorite}
    (hf : f ∈ s.favorites) : s.favorites.find? (fun x => x.item_id == f.item_id) = some f := by
  cases hfind : s.favorites.find? (fun x => x.item_id == f.item_id) with
  | none =>
    have := List.find?_eq_none.mp hfind f hf
    simp at this
  | some g =>
    have hg := List.mem_of_find?_eq_some hfind
    have hp := List.find?_some hfind
    rw [favorite_eq_of_item h hg hf (by simpa using hp)]

theorem find_id_of_mem {α : Type} (key : α → ObjectId) (l : List α) {x : α} (hx : x ∈ l) :
    ∃ y, l.find? (fun z => key z == key x) = some y ∧ key y = key x := by
  cases hfind : l.find? (fun z => key z == key x) with
  | none =>
    have := List.find?_eq_none.mp hfind x hx
    simp at this
  | some y =>
    exact ⟨y, rfl, by simpa using List.find?_some hfind⟩

/-- The world `deleteArtist` leaves when the artist and a favorite of it are
found. -/
theorem deleteArtist_run (env : Env) (req : Req) (w : World) (i : ObjectId) (a : Artist)
    (f f1 : Favorite)
    (hparam : truthy (req.params.get "id") = true)
    (hid : env.castObjectId (req.params.get "id") = some i)
    (ha : w.store.artists.find? (fun x => x.id == i) = some a)
    (hf : w.store.favorites.find? (fun x => x.item_id == i) = some f)
    (hf1 : w.store.favorites.find? (fun x => x.id == f.id) = some f1) :
    (deleteArtist env req w).1.status = 200 ∧
    (deleteArtist env req w).2.store =
      { w.store with
        users := w.store.users.map (pullFavorite f.id)
        artists := w.store.artists.filter (fun x => x.id != i)
        favorites := w.store.favorites.filter (fun x => x.id != f.id) } := by
  have h1 : f1.id = f.id := by simpa using List.find?_some hf1
  have hpull : ((fun u : User =>
      if f.id ∈ u.favorites then
        { u with favorites := u.favorites.filter (fun x => x != f.id) }
      else u) ∘ fun u : User =>
      if f.id ∈ u.favorites then
        { u with favorites := u.favorites.filter (fun x => x != f.id) }
      else u) = pullFavorite f.id := by
    funext u
    simp only [Function.comp]
    rw [pull_if_mem f.id u, pull_if_mem f.id (pullFavorite f.id u), pull_idem]
  simp [deleteArtist, catch500, cascadeFavorite, castId, hid, hparam, Artist.findById, ha,
    Favorite.findOne, hf, User.updateManyPull, Favorite.findByIdAndDelete, hf1,
    Artist.findByIdAndDelete, h1, hpull, reply]

theorem find_none_after_filter {α : Type} (key : α → ObjectId) (l : List α) (i : ObjectId) :
    (l.filter (fun x => key x != i)).find? (fun x => key x == i) = none := by
  rw [List.find?_eq_none]
  intro x hx
  have := (List.mem_filter.mp hx).2
  simpa using this

/-- C3: in a store that has the artist A and a favorite F of A (and, as the data
model has it, at most one favorite per item), `deleteArtist` addressed at A
succeeds with 200 and leaves a store in which no favorite has the id of F, no
user's list holds that id, no artist has the id of A, and a following
`getArtist` of A replies 404; the users are the old ones with that id pulled
from their lists, and the favorites are the old ones without F, in order. -/
theorem deleteArtist_removes_favorite (env : Env) (req : Req) (w : World) (a : Artist)
    (f : Favorite)
    (hparam : truthy (req.params.get "id") = true)
    (hid : env.castObjectId (req.params.get "id") = some a.id)
    (ha : a ∈ w.store.artists) (hf : f ∈ w.store.favorites) (hitem : f.item_id = a.id)
    (huniq : FavoritesUnique w.store) :
    (deleteArtist env req w).1.status = 200 ∧
    f ∉ (deleteArtist env req w).2.store.favorites ∧
    (∀ g ∈ (deleteArtist env req w).2.store.favorites, g.id ≠ f.id) ∧
    (∀ u ∈ (deleteArtist env req w).2.store.users, f.id ∉ u.favorites) ∧
    (∀ b ∈ (deleteArtist env req w).2.store.artists, b.id ≠ a.id) ∧
    (getArtist env req (deleteArtist env req w).2).1.status = 404 ∧
    (deleteArtist env req w).2.store.users = w.store.users.map (pullFavorite f.id) ∧
    (deleteArtist env req w).2.store.favorites =
      w.store.favorites.filter (fun g => g.id != f.id) := by
  obtain ⟨a0, ha0, _⟩ := find_id_of_mem Artist.id w.store.artists ha
  have hf0 : w.store.favorites.find? (fun x => x.item_id == a.id) = some f := by
    rw [← hitem]; exact find_item_of_unique huniq hf
  obtain ⟨f1, hf1, _⟩ := find_id_of_mem Favorite.id w.store.favorites hf
  obtain ⟨hstatus, hstore⟩ := deleteArtist_run env req w a.id a0 f f1 hparam hid ha0 hf0 hf1
  have hfav : ∀ g ∈ (deleteArtist env req w).2.store.favorites, g.id ≠ f.id := by
    intro g hg
    rw [hstore] at hg
    simpa using (List.mem_filter.mp hg).2
  have hget : (getArtist env req (deleteArtist env req w).2).1.status = 404 := by
    have hnone : (deleteArtist env req w).2.store.artists.find? (fun x => x.id == a.id) = none := by
      rw [hstore]
      exact find_none_after_filter Artist.id w.store.artists a.id
    simp [getArtist, catch500, castId, hid, hparam, Artist.findById, hnone, reply]
  refine ⟨hstatus, fun hmem => hfav f hmem rfl, hfav, ?_, ?_, hget, ?_, ?_⟩
  · intro u hu
    rw [hstore] at hu
    obtain ⟨u0, _, rfl⟩ := List.mem_map.mp hu
    exact not_mem_pull f.id u0
  · intro b hb
    rw [hstore] at hb
    simpa using (List.mem_filter.mp hb).2
  · rw [hstore]
  · rw [hstore]

theorem deleteArtist_removes_favorite_witness :
    FavoritesUnique cascadeWorld.store ∧
    (deleteArtist sampleEnv idZeroReq cascadeWorld).1.status = 200 ∧
    (∀ u ∈ (deleteArtist sampleEnv idZeroReq cascadeWorld).2.store.users, 1 ∉ u.favorites) ∧
    (getArtist sampleEnv idZeroReq (deleteArtist sampleEnv idZeroReq cascadeWorld).2).1.status
      = 404 :=
  have h := deleteArtist_removes_favorite sampleEnv idZeroReq cascadeWorld
    { id := 0, name := "Adele", grammy := 16, hidden := false, createdAt := 0 }
    { id := 1, item_id := 0, category := "artist", name := "Adele", createdAt := 0 }
    (by decide) (by decide) (by decide) (by decide) rfl (by decide)
  ⟨by decide, h.1, h.2.2.2.1, h.2.2.2.2.2.1⟩

/-! ## Favorites -/

theorem itemLookup_store (env : Env) (model : String) (v : JsVal) (w : World) :
    (itemLookup env model v w).2.store = w.store :=
  have h : Keeps (fun s t : Store => t = s) (itemLookup env model v) := itemLookup_keeps env model v
  h.run w

/-- The result of `itemLookup` depends on the artists, albums and tracks only. -/
theorem itemLookup_result (env : Env) (model : String) (v : JsVal) (w1 w2 : World)
    (h1 : w1.store.artists = w2.store.artists) (h2 : w1.store.albums = w2.store.albums)
    (h3 : w1.store.tracks = w2.store.tracks) :
    (itemLookup env model v w1).1 = (itemLookup env model v w2).1 := by
  unfold itemLookup
  split
  · cases hcast : env.castObjectId v <;> simp [castId, Album.findById, h2, hcast]
  split
  · cases hcast : env.castObjectId v <;> simp [castId, Artist.findById, h1, hcast]
  split
  · cases hcast : env.castObjectId v <;> simp [castId, Track.findById, h3, hcast]
  · rfl

/-- What `addFavorite` does: either it replies something other than 201 and
leaves the store as it was, or it replies 201 for a caller `u` and an item `it`
that is stored, having appended the id of the favorite of `it` to the caller's
list; that favorite is the first stored one of `it`, which the caller did not
hold, or, when there is none, a new one appended to the collection. -/
theorem addFavorite_cases (env : Env) (req : Req) (w : World) :
    ((addFavorite env req w).1.status ≠ 201 ∧ (addFavorite env req w).2.store = w.store) ∨
    ∃ (c : Claims) (u : User) (it : ObjectId) (fav : Favorite),
      (addFavorite env req w).1.status = 201 ∧
      (!truthy (req.body.get "item_id") || !truthy (req.body.get "category") ||
        !includesStr ["artist", "track", "album"] (req.body.get "category")) = false ∧
      req.user = some c ∧
      w.store.users.find? (fun x => x.id == c.id) = some u ∧
      env.castObjectId (req.body.get "item_id") = some it ∧
      fav.item_id = it ∧
      (∃ name, ∀ w1 : World, w1.store.artists = w.store.artists →
        w1.store.albums = w.store.albums → w1.store.tracks = w.store.tracks →
        (itemLookup env (modelOf (req.body.get "category")) (req.body.get "item_id") w1).1 =
          Res.ok (some name)) ∧
      ((w.store.favorites.find? (fun x => x.item_id == it) = some fav ∧
          fav.id ∉ u.favorites ∧
          (addFavorite env req w).2.store =
            { w.store with
              users := w.store.users.map (fun x =>
                if x.id == u.id then { u with favorites := u.favorites ++ [fav.id] } else x) }) ∨
       (w.store.favorites.find? (fun x => x.item_id == it) = none ∧
          fav.id = w.store.nextId ∧
          (addFavorite env req w).2.store =
            { w.store with
              users := w.store.users.map (fun x =>
                if x.id == u.id then { u with favorites := u.favorites ++ [fav.id] } else x)
              favorites := w.store.favorites ++ [fav]
              nextId := w.store.nextId + 1 })) := by
  by_cases hc : (!truthy (req.body.get "item_id") || !truthy (req.body.get "category") ||
      !includesStr ["artist", "track", "album"] (req.body.get "category")) = true
  · left
    simp only [addFavorite]
    rw [catch500_if_pos hc]
    exact ⟨by simp [reply], rfl⟩
  cases hu : req.user with
  | none =>
    left
    simp [addFavorite, catch500, hc, reqUser, hu, reply]
  | some c =>
    cases hfu : w.store.users.find? (fun u => u.id == c.id) with
    | none =>
      left
      simp [addFavorite, catch500, hc, reqUser, hu, User.findById, hfu, reply]
    | some u =>
      have hex : ∃ x ∈ w.store.users, x.id = u.id := ⟨u, List.mem_of_find?_eq_some hfu, rfl⟩
      rcases hl : itemLookup env
        (modelOf (req.body.get "category")) (req.body.get "item_id")
        { store := w.store, log := w.log ++ [DbOp.query Coll.users] } with ⟨r, w2⟩
      have hs : w2.store = w.store := by
        have := itemLookup_store env
          (modelOf (req.body.get "category")) (req.body.get "item_id")
          { store := w.store, log := w.log ++ [DbOp.query Coll.users] }
        rw [hl] at this
        exact this
      cases r with
      | thrown =>
        left
        simp [addFavorite, catch500, hc, reqUser, hu, User.findById, hfu, hl, hs, reply]
      | ok item =>
        cases item with
        | none =>
          left
          simp [addFavorite, catch500, hc, reqUser, hu, User.findById, hfu, hl, hs, reply]
        | some name =>
          have hname : ∀ w1 : World, w1.store.artists = w.store.artists →
              w1.store.albums = w.store.albums → w1.store.tracks = w.store.tracks →
              (itemLookup env (modelOf (req.body.get "category")) (req.body.get "item_id")
                w1).1 = Res.ok (some name) := by
            intro w1 e1 e2 e3
            rw [itemLookup_result env _ _ w1
              { store := w.store, log := w.log ++ [DbOp.query Coll.users] } e1 e2 e3, hl]
          cases hid : env.castObjectId (req.body.get "item_id") with
          | none =>
            left
            simp [addFavorite, catch500, hc, reqUser, hu, User.findById, hfu, hl, hs, castId,
              hid, reply]
          | some it =>
            cases hfav : w.store.favorites.find? (fun x => x.item_id == it) with
            | some f0 =>
              by_cases hheld : f0.id ∈ u.favorites
              · left
                simp [addFavorite, catch500, hc, reqUser, hu, User.findById, hfu, hl, hs, castId,
                  hid, Favorite.findOne, hfav, hheld, reply]
              · right
                refine ⟨c, u, it, f0, ?_, by simpa using hc, rfl, hfu, rfl,
                  by simpa using List.find?_some hfav, ⟨name, hname⟩, Or.inl ⟨hfav, hheld, ?_⟩⟩
                · simp [addFavorite, catch500, hc, reqUser, hu, User.findById, hfu, hl, hs,
                    castId, hid, Favorite.findOne, hfav, hheld, User.save, hex, reply]
                · simp [addFavorite, catch500, hc, reqUser, hu, User.findById, hfu, hl, hs,
                    castId, hid, Favorite.findOne, hfav, hheld, User.save, hex]
            | none =>
              cases hcs : castStr env (req.body.get "category") with
              | none =>
                left
                simp [addFavorite, catch500, hc, reqUser, hu, User.findById, hfu, hl, hs, castId,
                  hid, Favorite.findOne, hfav, Favorite.create, hcs, reply]
              | some cat =>
                by_cases hv : name = "" ∨ (¬cat = "artist" ∧ ¬cat = "album" ∧ ¬cat = "track")
                · left
                  simp [addFavorite, catch500, hc, reqUser, hu, User.findById, hfu, hl, hs,
                    castId, hid, Favorite.findOne, hfav, Favorite.create, hcs, hv, reply]
                · right
                  refine ⟨c, u, it,
                    { id := w.store.nextId, item_id := it, category := cat, name := name,
                      createdAt := req.nowMs }, ?_, by simpa using hc, rfl, hfu, rfl, rfl,
                    ⟨name, hname⟩, Or.inr ⟨hfav, rfl, ?_⟩⟩
                  · simp [addFavorite, catch500, hc, reqUser, hu, User.findById, hfu, hl, hs,
                      castId, hid, Favorite.findOne, hfav, Favorite.create, hcs, hv, User.save,
                      hex, reply]
                  · simp [addFavorite, catch500, hc, reqUser, hu, User.findById, hfu, hl, hs,
                      castId, hid, Favorite.findOne, hfav, Favorite.create, hcs, hv, User.save,
                      hex]

/-! ## Middlewares and the route chain -/

/-- No middleware changes the store. -/
theorem runMiddleware_store (env : Env) (m : Middleware) (req : Req) (w : World) :
    (runMiddleware env m req w).2.store = w.store := by
  cases m <;>
  simp only [runMiddleware, auth, isAdmin, isEditorOrAdmin] <;>
  refine @keeps_catchMw (fun s t : Store => t = s) _ _ ?_ w <;>
  repeat' (first
    | with_reducible exact keeps_pure _
    | with_reducible exact keeps_throwErr
    | with_reducible exact jwtVerify_keeps _ _ _
    | with_reducible exact reqUser_keeps _
    | with_reducible exact user_findById_keeps _
    | with_reducible exact blacklist_findOne_keeps _
    | with_reducible apply keeps_tryCatch
    | with_reducible apply keeps_bind
    | intro _
    | split)

/-- Serving a request either stops in a middleware, which leaves the store as
it was, or ends in the controller, run on a world with the same store. -/
theorem runChain_cases (env : Env) (ctrl : Req → World → Response × World)
    (ms : List Middleware) (req : Req) (w : World) :
    ((runChain env ctrl ms req w).reached = false ∧
      (runChain env ctrl ms req w).world.store = w.store) ∨
    ∃ (req1 : Req) (w1 : World), w1.store = w.store ∧
      (runChain env ctrl ms req w).reached = true ∧
      (runChain env ctrl ms req w).response = (ctrl req1 w1).1 ∧
      (runChain env ctrl ms req w).world = (ctrl req1 w1).2 := by
  induction ms generalizing req w with
  | nil => exact Or.inr ⟨req, w, rfl, rfl, rfl, rfl⟩
  | cons m ms ih =>
    have hst := runMiddleware_store env m req w
    rcases hm : runMiddleware env m req w with ⟨r, w1⟩
    rw [hm] at hst
    cases r with
    | respond r =>
      left
      simp only [runChain, hm]
      exact ⟨trivial, hst⟩
    | next req1 =>
      simp only [runChain, hm]
      rcases ih req1 w1 with ⟨h1, h2⟩ | ⟨req2, w2, h1, h2, h3, h4⟩
      · exact Or.inl ⟨h1, h2.trans hst⟩
      · exact Or.inr ⟨req2, w2, h1.trans hst, h2, h3, h4⟩

/-- The store after any event is the store before it, or the store a
controller leaves when run on the store before it. -/
theorem step_cases (env : Env) (s : Store) (e : Event) :
    step env s e = s ∨
    (∃ nowMs, step env s e = ttlSweep nowMs s) ∨
    ∃ (ep : Endpoint) (req : Req) (w : World), w.store = s ∧
      step env s e = (controller env ep req w).2.store := by
  cases e with
  | request ep req =>
    rcases runChain_cases env (controller env ep) (middlewares ep) { req with user := none }
      { store := s, log := [] } with ⟨_, h⟩ | ⟨req1, w1, h1, _, _, h4⟩
    · exact Or.inl h
    · exact Or.inr (Or.inr ⟨ep, req1, w1, h1, by simp only [step, handle, h4]⟩)
  | call ep req => exact Or.inr (Or.inr ⟨ep, req, { store := s, log := [] }, rfl, rfl⟩)
  | sweep nowMs => exact Or.inr (Or.inl ⟨nowMs, rfl⟩)

/-- A property of stores that holds of the empty store and that the expiry
sweep and every controller keep holds of every reachable store. -/
theorem reachable_induction (env : Env) (P : Store → Prop) (h0 : P Store.empty)
    (hsweep : ∀ s nowMs, P s → P (ttlSweep nowMs s))
    (hctrl : ∀ ep req w, P w.store → P (controller env ep req w).2.store) :
    ∀ s, Reachable env s → P s := by
  have hstep : ∀ s e, P s → P (step env s e) := by
    intro s e hs
    rcases step_cases env s e with h | ⟨n, h⟩ | ⟨ep, req, w, hw, h⟩
    · rw [h]; exact hs
    · rw [h]; exact hsweep s n hs
    · rw [h]; exact hctrl ep req w (by rw [hw]; exact hs)
  have hrun : ∀ (events : List Event) (s : Store), P s → P (run env s events) := by
    intro events
    induction events with
    | nil => intro s hs; exact hs
    | cons e es ih => intro s hs; exact ih (step env s e) (hstep s e hs)
  rintro s ⟨events, rfl⟩
  exact hrun events Store.empty h0

/-! ## One favorite per item -/

/-- Only `addFavorite` inserts into the favorites, and no controller updates
a favorite. -/
theorem opsOf_favorites (ep : Endpoint) (h : ep ≠ Endpoint.addFavorite) :
    DbOp.insert Coll.favorites ∉ opsOf ep ∧ DbOp.update Coll.favorites ∉ opsOf ep := by
  cases ep <;> first | exact absurd rfl h | exact ⟨by decide, by decide⟩

theorem controller_favoritesUnique (env : Env) (ep : Endpoint) (req : Req) (w : World)
    (h : FavoritesUnique w.store) : FavoritesUnique (controller env ep req w).2.store := by
  by_cases hep : ep = Endpoint.addFavorite
  · subst hep
    simp only [controller]
    rcases addFavorite_cases env req w with ⟨_, hst⟩ |
      ⟨c, u, it, fav, _, _, _, _, _, hit, _, ⟨_, _, hst⟩ | ⟨hnone, _, hst⟩⟩
    · rw [hst]; exact h
    · rw [hst]; exact h
    · rw [hst]
      unfold FavoritesUnique
      simp only
      rw [List.pairwise_append]
      refine ⟨h, List.pairwise_singleton _ _, ?_⟩
      intro x hx y hy
      rw [List.mem_singleton] at hy
      subst hy
      have := List.find?_eq_none.mp hnone x hx
      rw [hit]
      simpa using this
  · obtain ⟨hi, hu⟩ := opsOf_favorites ep hep
    exact List.Pairwise.sublist ((controller_allowed env ep req w).favorites.sub hi hu) h

theorem reachable_favoritesUnique (env : Env) (s : Store) (h : Reachable env s) :
    FavoritesUnique s :=
  reachable_induction env FavoritesUnique List.Pairwise.nil (fun _ _ hs => hs)
    (controller_favoritesUnique env) s h

theorem find_replaced (l : List User) (i : ObjectId) (u v : User)
    (h : l.find? (fun x => x.id == i) = some u) (hv : v.id = u.id) :
    (l.map (fun x => if x.id == u.id then v else x)).find? (fun x => x.id == i) = some v := by
  have hui : u.id = i := by simpa using List.find?_some h
  induction l with
  | nil => simp at h
  | cons x xs ih =>
    simp only [List.find?_cons] at h
    simp only [List.map_cons, List.find?_cons]
    by_cases hx : x.id = i
    · simp only [hx, beq_self_eq_true] at h
      simp [hx, hui, hv]
    · have hx1 : (x.id == i) = false := by simpa using hx
      have hx2 : (x.id == u.id) = false := by simpa [hui] using hx
      simp only [hx1] at h
      simp only [hx2, Bool.false_eq_true, if_false, hx1]
      exact ih h

/-- Repeating a successful `addFavorite` (same body, same caller) replies 400
and leaves the store as it is. -/
theorem addFavorite_twice (env : Env) (req req2 : Req) (w : World)
    (hbody : req2.body = req.body) (huser : req2.user = req.user)
    (hok : (addFavorite env req w).1.status = 201) :
    (addFavorite env req2 (addFavorite env req w).2).1.status = 400 ∧
    (addFavorite env req2 (addFavorite env req w).2).2.store = (addFavorite env req w).2.store := by
  rcases addFavorite_cases env req w with ⟨hne, _⟩ |
    ⟨c, u, it, fav, _, hc, hu, hfu, hid, hit, ⟨name, hname⟩, hcase⟩
  · exact absurd hok hne
  rcases hw : (addFavorite env req w).2 with ⟨s1, l1⟩
  rw [hw] at hcase
  have hc2 : ¬(!truthy (req.body.get "item_id") || !truthy (req.body.get "category") ||
      !includesStr ["artist", "track", "album"] (req.body.get "category")) = true := by
    rw [hc]; exact Bool.false_ne_true
  have hus : s1.users.find? (fun x => x.id == c.id) =
      some { u with favorites := u.favorites ++ [fav.id] } := by
    rcases hcase with ⟨_, _, hst⟩ | ⟨_, _, hst⟩ <;>
    · simp only at hst
      rw [hst]
      exact find_replaced _ _ _ _ hfu rfl
  have hfs : s1.favorites.find? (fun x => x.item_id == it) = some fav := by
    rcases hcase with ⟨hf, _, hst⟩ | ⟨hnone, _, hst⟩
    · simp only at hst
      rw [hst]; exact hf
    · simp only at hst
      rw [hst]
      simp [List.find?_append, hnone, hit]
  have hent : s1.artists = w.store.artists ∧ s1.albums = w.store.albums ∧
      s1.tracks = w.store.tracks := by
    rcases hcase with ⟨_, _, hst⟩ | ⟨_, _, hst⟩ <;>
    · simp only at hst
      rw [hst]
      exact ⟨rfl, rfl, rfl⟩
  rcases hl : itemLookup env (modelOf (req.body.get "category")) (req.body.get "item_id")
    { store := s1, log := l1 ++ [DbOp.query Coll.users] } with ⟨r, w2⟩
  have hs : w2.store = s1 := by
    have := itemLookup_store env (modelOf (req.body.get "category")) (req.body.get "item_id")
      { store := s1, log := l1 ++ [DbOp.query Coll.users] }
    rw [hl] at this
    exact this
  have hr : r = Res.ok (some name) := by
    have := hname { store := s1, log := l1 ++ [DbOp.query Coll.users] } hent.1 hent.2.1 hent.2.2
    rw [hl] at this
    exact this
  subst hr
  simp [addFavorite, catch500, hbody, huser, hc2, reqUser, hu, User.findById, hus, hl, hs, castId,
    hid, Favorite.findOne, hfs, reply]

/-- The reply of `addFavorite` to a caller who holds the stored favorite of the
item: 400, and the store is left as it was. -/
theorem addFavorite_held_run (env : Env) (req : Req) (w : World) (c : Claims) (u : User)
    (f : Favorite) (it : ObjectId) (name : String)
    (hg : (!truthy (req.body.get "item_id") || !truthy (req.body.get "category") ||
      !includesStr ["artist", "track", "album"] (req.body.get "category")) = false)
    (hc : req.user = some c)
    (hu : w.store.users.find? (fun x => x.id == c.id) = some u)
    (hl : ∀ w1 : World, w1.store.artists = w.store.artists →
      w1.store.albums = w.store.albums → w1.store.tracks = w.store.tracks →
      (itemLookup env (modelOf (req.body.get "category")) (req.body.get "item_id") w1).1 =
        Res.ok (some name))
    (hid : env.castObjectId (req.body.get "item_id") = some it)
    (hf : w.store.favorites.find? (fun x => x.item_id == it) = some f)
    (hheld : f.id ∈ u.favorites) :
    (addFavorite env req w).1 =
      reply "status" 400 Json.null "The given item is already present in the favorite"
        Json.null ∧
    (addFavorite env req w).2.store = w.store := by
  have hc2 : ¬(!truthy (req.body.get "item_id") || !truthy (req.body.get "category") ||
      !includesStr ["artist", "track", "album"] (req.body.get "category")) = true := by
    rw [hg]; exact Bool.false_ne_true
  rcases hlk : itemLookup env (modelOf (req.body.get "category")) (req.body.get "item_id")
    { store := w.store, log := w.log ++ [DbOp.query Coll.users] } with ⟨r, w2⟩
  have hs : w2.store = w.store := by
    have := itemLookup_store env (modelOf (req.body.get "category")) (req.body.get "item_id")
      { store := w.store, log := w.log ++ [DbOp.query Coll.users] }
    rw [hlk] at this
    exact this
  have hr : r = Res.ok (some name) := by
    have := hl { store := w.store, log := w.log ++ [DbOp.query Coll.users] } rfl rfl rfl
    rw [hlk] at this
    exact this
  subst hr
  constructor
  · simp [addFavorite, catch500, hc2, reqUser, hc, User.findById, hu, hlk, hs, castId,
      hid, Favorite.findOne, hf, hheld, reply]
  · simp [addFavorite, catch500, hc2, reqUser, hc, User.findById, hu, hlk, hs, castId,
      hid, Favorite.findOne, hf, hheld]

/-- The lookup of `addFavorite` finds an item that is stored in the collection
its category names. -/
theorem itemLookup_stored (env : Env) (cat : String) (v : JsVal) (it : ObjectId) (w : World)
    (hid : env.castObjectId v = some it)
    (h : (cat = "artist" ∧ ∃ a ∈ w.store.artists, a.id = it) ∨
      (cat = "album" ∧ ∃ a ∈ w.store.albums, a.id = it) ∨
      (cat = "track" ∧ ∃ t ∈ w.store.tracks, t.id = it)) :
    ∃ name, ∀ w1 : World, w1.store.artists = w.store.artists →
      w1.store.albums = w.store.albums → w1.store.tracks = w.store.tracks →
      (itemLookup env (modelOf (JsVal.str cat)) v w1).1 = Res.ok (some name) := by
  rcases h with ⟨rfl, a, ha, rfl⟩ | ⟨rfl, a, ha, rfl⟩ | ⟨rfl, a, ha, rfl⟩
  · obtain ⟨y, hy, _⟩ := find_id_of_mem Artist.id w.store.artists ha
    refine ⟨y.name, fun w1 h1 _ _ => ?_⟩
    have hm : modelOf (JsVal.str "artist") = "Artist" := by decide
    rw [hm]
    simp [itemLookup, castId, hid, Artist.findById, h1, hy]
  · obtain ⟨y, hy, _⟩ := find_id_of_mem Album.id w.store.albums ha
    refine ⟨y.name, fun w1 _ h2 _ => ?_⟩
    have hm : modelOf (JsVal.str "album") = "Album" := by decide
    rw [hm]
    simp [itemLookup, castId, hid, Album.findById, h2, hy]
  · obtain ⟨y, hy, _⟩ := find_id_of_mem Track.id w.store.tracks ha
    refine ⟨y.name, fun w1 _ _ h3 => ?_⟩
    have hm : modelOf (JsVal.str "track") = "Track" := by decide
    rw [hm]
    simp [itemLookup, castId, hid, Track.findById, h3, hy]

/-- When the documents of the id `j` are replaced by `v`, a document of that
id, the document the id `i` finds still holds what it held, provided `v` holds
it in case `i` is `j`. -/
theorem find_map_held (l : List User) (i j fid : ObjectId) (u v : User)
    (hu : l.find? (fun x => x.id == i) = some u) (hfid : fid ∈ u.favorites)
    (hv : v.id = j) (hsame : i = j → fid ∈ v.favorites) :
    ∃ u2, (l.map (fun x => if x.id == j then v else x)).find? (fun x => x.id == i) = some u2 ∧
      fid ∈ u2.favorites := by
  induction l with
  | nil => simp at hu
  | cons x xs ih =>
    simp only [List.find?_cons] at hu
    simp only [List.map_cons, List.find?_cons]
    by_cases hxi : x.id = i
    · have hb : (x.id == i) = true := by simpa using hxi
      simp only [hb, Option.some.injEq] at hu
      subst hu
      by_cases hxj : x.id = j
      · have hb2 : (x.id == j) = true := by simpa using hxj
        have hb3 : (v.id == i) = true := by simpa using hv.trans (hxj.symm.trans hxi)
        simp only [hb2, if_true, hb3]
        exact ⟨v, rfl, hsame (hxi.symm.trans hxj)⟩
      · have hb2 : (x.id == j) = false := by simpa using hxj
        simp only [hb2, Bool.false_eq_true, if_false, hb]
        exact ⟨x, rfl, hfid⟩
    · have hb : (x.id == i) = false := by simpa using hxi
      simp only [hb] at hu
      by_cases hxj : x.id = j
      · have hb2 : (x.id == j) = true := by simpa using hxj
        have hb3 : (v.id == i) = false := by
          have : v.id ≠ i := fun h => hxi (hxj.trans (hv.symm.trans h))
          simpa using this
        simp only [hb2, if_true, hb3]
        exact ih hu
      · have hb2 : (x.id == j) = false := by simpa using hxj
        simp only [hb2, Bool.false_eq_true, if_false, hb]
        exact ih hu

/-- An `addFavorite`, whoever issues it and whatever it replies, leaves the
artists, albums and tracks as they were, keeps the favorite an item finds, and
keeps in the list of every stored user what the list held. -/
theorem addFavorite_keeps_held (env : Env) (req : Req) (w : World) (i it fid : ObjectId)
    (u : User) (f : Favorite)
    (hu : w.store.users.find? (fun x => x.id == i) = some u) (hfid : fid ∈ u.favorites)
    (hf : w.store.favorites.find? (fun x => x.item_id == it) = some f) :
    (addFavorite env req w).2.store.artists = w.store.artists ∧
    (addFavorite env req w).2.store.albums = w.store.albums ∧
    (addFavorite env req w).2.store.tracks = w.store.tracks ∧
    (addFavorite env req w).2.store.favorites.find? (fun x => x.item_id == it) = some f ∧
    ∃ u2, (addFavorite env req w).2.store.users.find? (fun x => x.id == i) = some u2 ∧
      fid ∈ u2.favorites := by
  rcases addFavorite_cases env req w with ⟨_, hst⟩ |
    ⟨c, v, it2, fav, _, _, _, hv, _, _, _, ⟨_, _, hst⟩ | ⟨_, _, hst⟩⟩
  · rw [hst]
    exact ⟨rfl, rfl, rfl, hf, u, hu, hfid⟩
  · rw [hst]
    refine ⟨rfl, rfl, rfl, hf, ?_⟩
    exact find_map_held w.store.users i v.id fid u _ hu hfid rfl (fun hij => by
      have huv : u = v := by
        have hvid : v.id = c.id := by simpa using List.find?_some hv
        rw [hij, hvid] at hu
        exact Option.some.inj (hu.symm.trans hv)
      rw [← huv]
      exact List.mem_append_left _ hfid)
  · rw [hst]
    refine ⟨rfl, rfl, rfl, ?_, ?_⟩
    · simp [List.find?_append, hf]
    · exact find_map_held w.store.users i v.id fid u _ hu hfid rfl (fun hij => by
        have huv : u = v := by
          have hvid : v.id = c.id := by simpa using List.find?_some hv
          rw [hij, hvid] at hu
          exact Option.some.inj (hu.symm.trans hv)
        rw [← huv]
        exact List.mem_append_left _ hfid)

/-- After a successful `addFavorite` and any number of further `addFavorite`
requests, of whatever callers and items, the same request (same body, same
caller) is answered 400 and leaves the store as it is. -/
theorem addFavorite_again (env : Env) (req req2 : Req) (reqs : List Req) (w : World)
    (hbody : req2.body = req.body) (huser : req2.user = req.user)
    (hok : (addFavorite env req w).1.status = 201) :
    (addFavorite env req2
      (reqs.foldl (fun x r => (addFavorite env r x).2) (addFavorite env req w).2)).1.status =
        400 ∧
    (addFavorite env req2
      (reqs.foldl (fun x r => (addFavorite env r x).2) (addFavorite env req w).2)).2.store =
      (reqs.foldl (fun x r => (addFavorite env r x).2) (addFavorite env req w).2).store := by
  rcases addFavorite_cases env req w with ⟨hne, _⟩ |
    ⟨c, u, it, fav, _, hc, hu, hfu, hid, hit, ⟨name, hname⟩, hcase⟩
  · exact absurd hok hne
  have h1 : (addFavorite env req w).2.store.artists = w.store.artists ∧
      (addFavorite env req w).2.store.albums = w.store.albums ∧
      (addFavorite env req w).2.store.tracks = w.store.tracks ∧
      (addFavorite env req w).2.store.favorites.find? (fun x => x.item_id == it) = some fav ∧
      ∃ u2, (addFavorite env req w).2.store.users.find? (fun x => x.id == c.id) = some u2 ∧
        fav.id ∈ u2.favorites := by
    rcases hcase with ⟨hf, _, hst⟩ | ⟨hnone, _, hst⟩
    · rw [hst]
      exact ⟨rfl, rfl, rfl, hf, _, find_replaced _ _ _ _ hfu rfl,
        List.mem_append_right _ (List.mem_singleton.mpr rfl)⟩
    · rw [hst]
      refine ⟨rfl, rfl, rfl, ?_, _, find_replaced _ _ _ _ hfu rfl,
        List.mem_append_right _ (List.mem_singleton.mpr rfl)⟩
      simp [List.find?_append, hnone, hit]
  have hinv : ∀ (rs : List Req) (x : World),
      (x.store.artists = w.store.artists ∧ x.store.albums = w.store.albums ∧
        x.store.tracks = w.store.tracks ∧
        x.store.favorites.find? (fun y => y.item_id == it) = some fav ∧
        ∃ u2, x.store.users.find? (fun y => y.id == c.id) = some u2 ∧ fav.id ∈ u2.favorites) →
      (addFavorite env req2 (rs.foldl (fun x r => (addFavorite env r x).2) x)).1.status = 400 ∧
      (addFavorite env req2 (rs.foldl (fun x r => (addFavorite env r x).2) x)).2.store =
        (rs.foldl (fun x r => (addFavorite env r x).2) x).store := by
    intro rs
    induction rs with
    | nil =>
      intro x ⟨ha, hal, ht, hf, u2, hu2, hheld⟩
      have h := addFavorite_held_run env req2 x c u2 fav it name (by rw [hbody]; exact hc)
        (by rw [huser]; exact hu) hu2
        (fun w1 e1 e2 e3 => by
          rw [hbody]
          exact hname w1 (e1.trans ha) (e2.trans hal) (e3.trans ht))
        (by rw [hbody]; exact hid) hf hheld
      simp only [List.foldl_nil]
      exact ⟨by rw [h.1]; rfl, h.2⟩
    | cons r rs ih =>
      intro x ⟨ha, hal, ht, hf, u2, hu2, hheld⟩
      obtain ⟨k1, k2, k3, k4, k5⟩ :=
        addFavorite_keeps_held env r x c.id it fav.id u2 fav hu2 hheld hf
      simp only [List.foldl_cons]
      exact ih (addFavorite env r x).2 ⟨k1.trans ha, k2.trans hal, k3.trans ht, k4, k5⟩
  exact hinv reqs _ h1

/-- C4: every store reachable from the empty store by a sequence of events
(requests served on a route, controllers invoked directly, expiry sweeps) has
at most one favorite per item; `addFavorite` leaves the favorites as they were
or appends one favorite of the requested item, and only when no favorite of
that item was stored; repeating a successful `addFavorite` (same body, same
caller) replies 400 and leaves the whole store, with the favorites and the
caller's list, as it is, directly after the first or after any number of
further `addFavorite` requests; and in every reachable store an `addFavorite`
of a stored item by a stored caller whose list holds the id of the item's
favorite, wherever in the list, replies 400 `already present` and leaves the
store as it is. -/
theorem one_favorite_per_item (env : Env) :
    (∀ s, Reachable env s → FavoritesUnique s) ∧
    (∀ req w,
      (addFavorite env req w).2.store.favorites = w.store.favorites ∨
      ∃ f : Favorite,
        (addFavorite env req w).2.store.favorites = w.store.favorites ++ [f] ∧
        env.castObjectId (req.body.get "item_id") = some f.item_id ∧
        ∀ g ∈ w.store.favorites, g.item_id ≠ f.item_id) ∧
    (∀ req req2 w, req2.body = req.body → req2.user = req.user →
      (addFavorite env req w).1.status = 201 →
      (addFavorite env req2 (addFavorite env req w).2).1.status = 400 ∧
      (addFavorite env req2 (addFavorite env req w).2).2.store =
        (addFavorite env req w).2.store) ∧
    (∀ (req req2 : Req) (reqs : List Req) (w : World),
      req2.body = req.body → req2.user = req.user →
      (addFavorite env req w).1.status = 201 →
      (addFavorite env req2
        (reqs.foldl (fun x r => (addFavorite env r x).2) (addFavorite env req w).2)).1.status =
          400 ∧
      (addFavorite env req2
        (reqs.foldl (fun x r => (addFavorite env r x).2) (addFavorite env req w).2)).2.store =
        (reqs.foldl (fun x r => (addFavorite env r x).2) (addFavorite env req w).2).store) ∧
    (∀ (req : Req) (w : World) (c : Claims) (u : User) (f : Favorite) (cat : String),
      Reachable env w.store →
      req.user = some c →
      w.store.users.find? (fun x => x.id == c.id) = some u →
      truthy (req.body.get "item_id") = true →
      env.castObjectId (req.body.get "item_id") = some f.item_id →
      req.body.get "category" = JsVal.str cat →
      ((cat = "artist" ∧ ∃ a ∈ w.store.artists, a.id = f.item_id) ∨
        (cat = "album" ∧ ∃ a ∈ w.store.albums, a.id = f.item_id) ∨
        (cat = "track" ∧ ∃ t ∈ w.store.tracks, t.id = f.item_id)) →
      f ∈ w.store.favorites → f.id ∈ u.favorites →
      (addFavorite env req w).1 =
        reply "status" 400 Json.null "The given item is already present in the favorite"
          Json.null ∧
      (addFavorite env req w).2.store = w.store) := by
  refine ⟨reachable_favoritesUnique env, ?_, ?_, ?_, ?_⟩
  · intro req w
    rcases addFavorite_cases env req w with ⟨_, hst⟩ |
      ⟨c, u, it, fav, _, _, _, _, hid, hit, _, ⟨_, _, hst⟩ | ⟨hnone, _, hst⟩⟩
    · left; rw [hst]
    · left; rw [hst]
    · right
      refine ⟨fav, by rw [hst], by rw [hid, hit], ?_⟩
      intro g hg
      have := List.find?_eq_none.mp hnone g hg
      rw [hit]
      simpa using this
  · intro req req2 w hbody huser hok
    exact addFavorite_twice env req req2 w hbody huser hok
  · intro req req2 reqs w hbody huser hok
    exact addFavorite_again env req req2 reqs w hbody huser hok
  · intro req w c u f cat hreach hc hu hitem hid hcat hstored hf hheld
    obtain ⟨name, hname⟩ := itemLookup_stored env cat (req.body.get "item_id") f.item_id w hid
      hstored
    have hg : (!truthy (req.body.get "item_id") || !truthy (req.body.get "category") ||
        !includesStr ["artist", "track", "album"] (req.body.get "category")) = false := by
      rw [hitem, hcat]
      rcases hstored with ⟨rfl, _⟩ | ⟨rfl, _⟩ | ⟨rfl, _⟩ <;> decide
    exact addFavorite_held_run env req w c u f f.item_id name hg hc hu
      (fun w1 e1 e2 e3 => by rw [hcat]; exact hname w1 e1 e2 e3) hid
      (find_item_of_unique (reachable_favoritesUnique env w.store hreach) hf) hheld

theorem one_favorite_per_item_witness :
    FavoritesUnique (run sampleEnv Store.empty
      (setupEvents ++ [Event.call Endpoint.addFavorite addFavoriteReq])) ∧
    (addFavorite sampleEnv addFavoriteReq setupWorld).1.status = 201 ∧
    (addFavorite sampleEnv addFavoriteReq
      (addFavorite sampleEnv addFavoriteReq setupWorld).2).1.status = 400 ∧
    heldWorld.store.users.map User.favorites = [[3, 4]] ∧
    heldWorld.store.favorites.map (fun f => (f.id, f.item_id)) = [(3, 1), (4, 2)] ∧
    (addFavorite sampleEnv addFavoriteReq heldWorld).1 =
      reply "status" 400 Json.null "The given item is already present in the favorite"
        Json.null ∧
    (addFavorite sampleEnv addFavoriteReq heldWorld).2.store = heldWorld.store ∧
    (addFavorite sampleEnv addFavoriteReq
      (addFavorite sampleEnv addFavoriteTwoReq
        (addFavorite sampleEnv addFavoriteReq setupWorld).2).2).1.status = 400 :=
  have h := (one_favorite_per_item sampleEnv).2.2.2.2 addFavoriteReq heldWorld
    (sampleClaims 0 "Admin")
    { id := 0, email := "a@x.com", password := "hash:abcd1", role := "Admin",
      favorites := [3, 4], createdAt := 0 }
    { id := 3, item_id := 1, category := "artist", name := "Adele", createdAt := 0 }
    "artist" ⟨heldEvents, rfl⟩ rfl (by decide) (by decide) (by decide) rfl
    (Or.inl ⟨rfl, by decide⟩) (by decide) (by decide)
  ⟨(one_favorite_per_item sampleEnv).1 _ ⟨_, rfl⟩, by decide,
    ((one_favorite_per_item sampleEnv).2.2.1 addFavoriteReq addFavoriteReq setupWorld rfl rfl
      (by decide)).1,
    by decide, by decide, h.1, h.2,
    ((one_favorite_per_item sampleEnv).2.2.2.1 addFavoriteReq addFavoriteReq
      [addFavoriteTwoReq] setupWorld rfl rfl (by decide)).1⟩

/-! ## The `auth` middleware, step by step -/

/-- The reply of `auth` to a token it does not accept. -/
theorem auth_eq (env : Env) (req : Req) (w : World) :
    auth env req w =
      match bearerToken req with
      | none =>
        (MwResult.respond (reply "state" 401 Json.null "Unauthorized Access" Json.null), w)
      | some t =>
        if t == "" then
          (MwResult.respond (reply "state" 401 Json.null "Unauthorized Access" Json.null), w)
        else if (w.store.blacklist.find? (fun b => b.token == t)).isSome then
          (MwResult.respond (reply "state" 401 Json.null "Unauthorized Access" Json.null),
            { w with log := w.log ++ [DbOp.query Coll.blacklist] })
        else
          match env.decode t with
          | none =>
            (MwResult.respond (reply "state" 401 Json.null "Unauthorized Access" Json.null),
              { w with log := w.log ++ [DbOp.query Coll.blacklist] })
          | some c =>
            if c.exp ≤ req.nowMs / 1000 then
              (MwResult.respond (reply "state" 401 Json.null "Unauthorized Access" Json.null),
                { w with log := w.log ++ [DbOp.query Coll.blacklist] })
            else if (w.store.users.find? (fun u => u.id == c.id)).isNone then
              (MwResult.respond (reply "state" 400 Json.null
                "User currently logged in does not exist!" Json.null),
                { w with log := w.log ++ [DbOp.query Coll.blacklist, DbOp.query Coll.users] })
            else
              (MwResult.next { req with user := some c },
                { w with log := w.log ++ [DbOp.query Coll.blacklist, DbOp.query Coll.users] }) := by
  cases hb : bearerToken req with
  | none => simp [auth, catchMw, hb]
  | some t =>
    by_cases ht : t = ""
    · simp [auth, catchMw, hb, ht]
    by_cases hl : (w.store.blacklist.find? (fun b => b.token == t)).isSome = true
    · simp [auth, catchMw, hb, ht, BlacklistToken.findOne, hl]
    cases hd : env.decode t with
    | none => simp [auth, catchMw, hb, ht, BlacklistToken.findOne, hl, tryCatch, jwtVerify, hd]
    | some c =>
      by_cases he : c.exp ≤ req.nowMs / 1000
      · simp [auth, catchMw, hb, ht, BlacklistToken.findOne, hl, tryCatch, jwtVerify, hd, he]
      cases hu : w.store.users.find? (fun u => u.id == c.id) with
      | none =>
        have hall := List.find?_eq_none.mp hu
        simp only [beq_iff_eq] at hall
        simp [auth, catchMw, hb, ht, BlacklistToken.findOne, hl, tryCatch, jwtVerify, hd, he,
          User.findById]
        rw [if_pos hall, if_pos hall]
        rfl
      | some u =>
        have hex : ¬∀ x ∈ w.store.users, ¬x.id = c.id := by
          intro hall
          exact hall u (List.mem_of_find?_eq_some hu) (by simpa using List.find?_some hu)
        simp [auth, catchMw, hb, ht, BlacklistToken.findOne, hl, tryCatch, jwtVerify, hd, he,
          User.findById]
        rw [if_neg hex, if_neg hex]
        rfl

theorem isAdmin_eq (req : Req) (w : World) :
    isAdmin req w =
      match req.user with
      | none =>
        (MwResult.respond (reply "state" 500 Json.null "User role can't be verified." Json.null),
          w)
      | some c =>
        match w.store.users.find? (fun u => u.id == c.id) with
        | none =>
          (MwResult.respond
            (reply "state" 500 Json.null "User role can't be verified." Json.null),
            { w with log := w.log ++ [DbOp.query Coll.users] })
        | some u =>
          if u.role != "Admin" then
            (MwResult.respond
              (reply "state" 403 Json.null "Forbidden Access/Operation not allowed." Json.null),
              { w with log := w.log ++ [DbOp.query Coll.users] })
          else (MwResult.next req, { w with log := w.log ++ [DbOp.query Coll.users] }) := by
  cases hu : req.user with
  | none => simp [isAdmin, catchMw, reqUser, hu]
  | some c =>
    cases hf : w.store.users.find? (fun u => u.id == c.id) with
    | none => simp [isAdmin, catchMw, reqUser, hu, User.findById, hf]
    | some u =>
      by_cases hr : u.role = "Admin" <;>
        simp [isAdmin, catchMw, reqUser, hu, User.findById, hf, hr]

theorem isEditorOrAdmin_eq (req : Req) (w : World) :
    isEditorOrAdmin req w =
      match req.user with
      | none =>
        (MwResult.respond (reply "state" 500 Json.null "User role can't be verified." Json.null),
          w)
      | some c =>
        match w.store.users.find? (fun u => u.id == c.id) with
        | none =>
          (MwResult.respond
            (reply "state" 500 Json.null "User role can't be verified." Json.null),
            { w with log := w.log ++ [DbOp.query Coll.users] })
        | some u =>
          if u.role != "Editor" && u.role != "Admin" then
            (MwResult.respond
              (reply "state" 403 Json.null "Forbidden Access/Operation not allowed." Json.null),
              { w with log := w.log ++ [DbOp.query Coll.users] })
          else (MwResult.next req, { w with log := w.log ++ [DbOp.query Coll.users] }) := by
  cases hu : req.user with
  | none => simp [isEditorOrAdmin, catchMw, reqUser, hu]
  | some c =>
    cases hf : w.store.users.find? (fun u => u.id == c.id) with
    | none => simp [isEditorOrAdmin, catchMw, reqUser, hu, User.findById, hf]
    | some u =>
      by_cases hr : u.role = "Admin" <;> by_cases he : u.role = "Editor" <;>
        simp [isEditorOrAdmin, catchMw, reqUser, hu, User.findById, hf, hr, he]

theorem find_isSome_iff_token (l : List BlacklistToken) (t : String) :
    (l.find? (fun b => b.token == t)).isSome = true ↔ ∃ b ∈ l, b.token = t := by
  simp [List.find?_isSome]

theorem find_user_none_iff (l : List User) (i : ObjectId) :
    (l.find? (fun u => u.id == i)).isNone = true ↔ ∀ u ∈ l, u.id ≠ i := by
  simp [List.find?_eq_none]

/-- The outcome of `auth` for a token that is present, not blacklisted and
verified: 400 when no user has the id it carries, `next()` otherwise. -/
theorem auth_of_tokenOk (env : Env) (req : Req) (w : World) (t : String) (c : Claims)
    (h : TokenOk env req w t c) :
    auth env req w =
      if (w.store.users.find? (fun u => u.id == c.id)).isNone then
        (MwResult.respond (reply "state" 400 Json.null
          "User currently logged in does not exist!" Json.null),
          { w with log := w.log ++ [DbOp.query Coll.blacklist, DbOp.query Coll.users] })
      else
        (MwResult.next { req with user := some c },
          { w with log := w.log ++ [DbOp.query Coll.blacklist, DbOp.query Coll.users] }) := by
  obtain ⟨hb, ht, hl, hd, he⟩ := h
  have hl2 : ¬(w.store.blacklist.find? (fun b => b.token == t)).isSome = true := by
    rw [find_isSome_iff_token]
    rintro ⟨b, hb1, hb2⟩
    exact hl b hb1 hb2
  have ht2 : (t == "") = false := by simpa using ht
  have he2 : ¬c.exp ≤ req.nowMs / 1000 := Nat.not_le.mpr he
  rw [auth_eq]
  simp only [hb, ht2, Bool.false_eq_true, if_false, hl2, hd, he2]

/-- The outcome of `auth` for a token that is missing, blacklisted, or does not
verify: 401. -/
theorem auth_of_not_tokenOk (env : Env) (req : Req) (w : World)
    (h : ¬∃ t c, TokenOk env req w t c) :
    (auth env req w).1 =
      MwResult.respond (reply "state" 401 Json.null "Unauthorized Access" Json.null) := by
  rw [auth_eq]
  cases hb : bearerToken req with
  | none => rfl
  | some t =>
    simp only
    by_cases ht : t = ""
    · simp [ht]
    have ht2 : (t == "") = false := by simpa using ht
    simp only [ht2, Bool.false_eq_true, if_false]
    split
    · rfl
    · rename_i hl
      cases hd : env.decode t with
      | none => rfl
      | some c =>
        simp only
        split
        · rfl
        · rename_i he
          exfalso
          apply h
          refine ⟨t, c, hb, ht, ?_, hd, Nat.not_le.mp he⟩
          intro b hb1 hb2
          exact hl ((find_isSome_iff_token _ _).mpr ⟨b, hb1, hb2⟩)

/-- C6: `auth` calls `next()` (passing the request on with the verified claims
as `req.user`) exactly when a token is present, is not blacklisted, verifies in
signature and expiry, and the user id it carries is that of a stored user; it
responds 401 when the token is missing, blacklisted, invalid or expired, and
400 when the token verifies but no stored user has its id.  For an
authenticated request (claims whose user is stored) `isAdmin` responds 403
exactly when the stored role is not Admin, `isEditorOrAdmin` exactly when it is
neither Editor nor Admin, and each calls `next()` otherwise. -/
theorem auth_and_role_decisions (env : Env) (req : Req) (w : World) :
    (∀ req1, (auth env req w).1 = MwResult.next req1 ↔
      ∃ t c, TokenOk env req w t c ∧ (∃ u ∈ w.store.users, u.id = c.id) ∧
        req1 = { req with user := some c }) ∧
    ((¬∃ t c, TokenOk env req w t c) → (auth env req w).1.status? = some 401) ∧
    (∀ t c, TokenOk env req w t c → (∀ u ∈ w.store.users, u.id ≠ c.id) →
      (auth env req w).1.status? = some 400) ∧
    (∀ c u, req.user = some c → w.store.users.find? (fun x => x.id == c.id) = some u →
      ((isAdmin req w).1.status? = some 403 ↔ u.role ≠ "Admin") ∧
      (u.role = "Admin" → (isAdmin req w).1 = MwResult.next req) ∧
      ((isEditorOrAdmin req w).1.status? = some 403 ↔ (u.role ≠ "Editor" ∧ u.role ≠ "Admin")) ∧
      (u.role = "Editor" ∨ u.role = "Admin" → (isEditorOrAdmin req w).1 = MwResult.next req)) := by
  refine ⟨fun req1 => ⟨fun h => ?_, fun h => ?_⟩, fun h => ?_, fun t c h hu => ?_,
    fun c u hc hu => ⟨?_, ?_, ?_, ?_⟩⟩
  · by_cases hok : ∃ t c, TokenOk env req w t c
    · obtain ⟨t, c, hok⟩ := hok
      rw [auth_of_tokenOk env req w t c hok] at h
      cases hf : w.store.users.find? (fun u => u.id == c.id) with
      | none => simp [hf] at h
      | some u =>
        simp only [hf, Option.isNone_some, Bool.false_eq_true, if_false] at h
        refine ⟨t, c, hok, ⟨u, List.mem_of_find?_eq_some hf, by simpa using List.find?_some hf⟩, ?_⟩
        exact (MwResult.next.inj h).symm
    · rw [auth_of_not_tokenOk env req w hok] at h
      exact MwResult.noConfusion h
  · obtain ⟨t, c, hok, ⟨u, hu, hid⟩, rfl⟩ := h
    rw [auth_of_tokenOk env req w t c hok]
    have : (w.store.users.find? (fun u => u.id == c.id)).isNone = false := by
      rw [Bool.eq_false_iff, Ne, find_user_none_iff]
      intro hall
      exact hall u hu hid
    simp only [this, Bool.false_eq_true, if_false]
  · rw [auth_of_not_tokenOk env req w h]
    rfl
  · rw [auth_of_tokenOk env req w t c h]
    have : (w.store.users.find? (fun u => u.id == c.id)).isNone = true :=
      (find_user_none_iff _ _).mpr hu
    simp only [this, if_true]
    rfl
  · rw [isAdmin_eq]
    simp only [hc, hu]
    by_cases hr : u.role = "Admin" <;> simp [hr, MwResult.status?, reply]
  · intro hr
    rw [isAdmin_eq]
    simp [hc, hu, hr]
  · rw [isEditorOrAdmin_eq]
    simp only [hc, hu]
    by_cases hr : u.role = "Admin" <;> by_cases he : u.role = "Editor" <;>
      simp [hr, he, MwResult.status?, reply]
  · intro hr
    rw [isEditorOrAdmin_eq]
    rcases hr with hr | hr <;> simp [hc, hu, hr]

theorem auth_and_role_decisions_witness :
    (auth sampleEnv tokenZeroReq setupWorld).1 =
      MwResult.next { tokenZeroReq with user := some (sampleClaims 0 "Admin") } ∧
    (auth sampleEnv emptyReq setupWorld).1.status? = some 401 ∧
    (auth sampleEnv tokenOneReq setupWorld).1.status? = some 400 ∧
    (isAdmin addArtistReq setupWorld).1 = MwResult.next addArtistReq :=
  have hok : TokenOk sampleEnv tokenZeroReq setupWorld "token-0" (sampleClaims 0 "Admin") :=
    ⟨by decide, by decide, by decide, by decide, by decide⟩
  have hone : TokenOk sampleEnv tokenOneReq setupWorld "token-1" (sampleClaims 1 "Viewer") :=
    ⟨by decide, by decide, by decide, by decide, by decide⟩
  ⟨((auth_and_role_decisions sampleEnv tokenZeroReq setupWorld).1 _).mpr
      ⟨"token-0", sampleClaims 0 "Admin", hok,
        ⟨{ id := 0, email := "a@x.com", password := "hash:abcd1", role := "Admin",
           favorites := [], createdAt := 0 }, by decide, rfl⟩, rfl⟩,
    (auth_and_role_decisions sampleEnv emptyReq setupWorld).2.1
      (fun ⟨_, _, h⟩ => Option.noConfusion h.1),
    (auth_and_role_decisions sampleEnv tokenOneReq setupWorld).2.2.1 _ _ hone (by decide),
    ((auth_and_role_decisions sampleEnv addArtistReq setupWorld).2.2.2 (sampleClaims 0 "Admin")
      { id := 0, email := "a@x.com", password := "hash:abcd1", role := "Admin",
        favorites := [], createdAt := 0 } rfl (by decide)).2.1 rfl⟩

/-! ## Logout and the blacklist -/

/-- What a successful `logout` did: it inserted one record, carrying the token
of the request and the expiry instant of its claims in milliseconds. -/
theorem logout_ok (env : Env) (req : Req) (w : World) (h : (logout env req w).1.status = 200) :
    ∃ t c, bearerToken req = some t ∧ t ≠ "" ∧ env.decode t = some c ∧
      req.nowMs / 1000 < c.exp ∧
      (logout env req w).2.store =
        { w.store with
          blacklist := w.store.blacklist ++
            [{ id := w.store.nextId, token := t, expiresAt := c.exp * 1000,
               createdAt := req.nowMs }]
          nextId := w.store.nextId + 1 } := by
  cases hb : bearerToken req with
  | none => simp [logout, catch500, hb, reply] at h
  | some t =>
    by_cases ht : t = ""
    · simp [logout, catch500, hb, ht, reply] at h
    cases hd : env.decode t with
    | none => simp [logout, catch500, hb, ht, jwtVerify, hd, reply] at h
    | some c =>
      by_cases he : c.exp ≤ req.nowMs / 1000
      · simp [logout, catch500, hb, ht, jwtVerify, hd, he, reply] at h
      · refine ⟨t, c, rfl, ht, hd, Nat.not_le.mp he, ?_⟩
        simp [logout, catch500, hb, ht, jwtVerify, hd, he, BlacklistToken.create]

/-- A request whose token is blacklisted in the store is stopped by `auth`
with 401, on every route that `auth` guards. -/
theorem handle_blacklisted (env : Env) (ep : Endpoint) (req : Req) (w : World) (t : String)
    (hep : Middleware.auth ∈ middlewares ep) (ht : bearerToken req = some t)
    (hl : ∃ b ∈ w.store.blacklist, b.token = t) :
    (handle env ep req w).response.status = 401 ∧ (handle env ep req w).reached = false ∧
      (handle env ep req w).world.store = w.store := by
  have hms : ∃ rest, middlewares ep = Middleware.auth :: rest := by
    cases ep <;> first | exact ⟨_, rfl⟩ | exact absurd hep (by decide)
  obtain ⟨rest, hms⟩ := hms
  have hfind : (w.store.blacklist.find? (fun b => b.token == t)).isSome = true :=
    (find_isSome_iff_token _ _).mpr hl
  have ht2 : bearerToken { req with user := none } = some t := ht
  have hauth : auth env { req with user := none } w =
      if t == "" then
        (MwResult.respond (reply "state" 401 Json.null "Unauthorized Access" Json.null), w)
      else
        (MwResult.respond (reply "state" 401 Json.null "Unauthorized Access" Json.null),
          { w with log := w.log ++ [DbOp.query Coll.blacklist] }) := by
    rw [auth_eq]
    simp only [ht2, hfind, if_true]
  have h1 : ∃ w1, auth env { req with user := none } w =
      (MwResult.respond (reply "state" 401 Json.null "Unauthorized Access" Json.null), w1) ∧
      w1.store = w.store := by
    rw [hauth]
    split
    · exact ⟨_, rfl, rfl⟩
    · exact ⟨_, rfl, rfl⟩
  obtain ⟨w1, hw1, hs1⟩ := h1
  simp only [handle, hms, runChain, runMiddleware, hw1]
  exact ⟨rfl, trivial, hs1⟩

theorem step_request_cases (env : Env) (s : Store) (ep : Endpoint) (req : Req) :
    step env s (Event.request ep req) = s ∨
    ∃ (req1 : Req) (w1 : World), w1.store = s ∧
      step env s (Event.request ep req) = (controller env ep req1 w1).2.store := by
  rcases runChain_cases env (controller env ep) (middlewares ep) { req with user := none }
    { store := s, log := [] } with ⟨_, h⟩ | ⟨req1, w1, h1, _, _, h4⟩
  · exact Or.inl h
  · exact Or.inr ⟨req1, w1, h1, by simp only [step, handle, h4]⟩

/-- No controller updates or deletes a blacklist record. -/
theorem opsOf_blacklist (ep : Endpoint) :
    DbOp.update Coll.blacklist ∉ opsOf ep ∧ DbOp.delete Coll.blacklist ∉ opsOf ep := by
  cases ep <;> exact ⟨by decide, by decide⟩

theorem controller_keeps_blacklisted (env : Env) (ep : Endpoint) (req : Req) (w : World)
    (b : BlacklistToken) (h : b ∈ w.store.blacklist) :
    b ∈ (controller env ep req w).2.store.blacklist := by
  obtain ⟨hu, hd⟩ := opsOf_blacklist ep
  exact ((controller_allowed env ep req w).blacklist.pre hu hd).subset h

/-- A blacklist record stays in the store through every sequence of events
whose expiry sweeps all come before the record's expiry instant. -/
theorem run_keeps_blacklisted (env : Env) (b : BlacklistToken) (events : List Event)
    (hsweep : ∀ n, Event.sweep n ∈ events → n < b.expiresAt) (s : Store)
    (h : b ∈ s.blacklist) : b ∈ (run env s events).blacklist := by
  induction events generalizing s with
  | nil => exact h
  | cons e es ih =>
    have hs : b ∈ (step env s e).blacklist := by
      cases e with
      | request ep req =>
        rcases step_request_cases env s ep req with h1 | ⟨req1, w1, hw, h1⟩
        · rw [h1]; exact h
        · rw [h1]; exact controller_keeps_blacklisted env ep req1 w1 b (by rw [hw]; exact h)
      | call ep req => exact controller_keeps_blacklisted env ep req { store := s, log := [] } b h
      | sweep n =>
        have hn := hsweep n (List.mem_cons_self _ _)
        simp only [step, ttlSweep, List.mem_filter, decide_eq_true_eq]
        exact ⟨h, hn⟩
    exact ih (fun n hn => hsweep n (List.mem_cons_of_mem _ hn)) (step env s e) hs

/-- C5: after a `logout` that replied 200 for the token `t` (with claims `c`),
the store has a blacklist record of `t` expiring at `c.exp` seconds (in
milliseconds); in any store that has a record of `t`, a request carrying `t`
on a route guarded by `auth` is answered 401 without the controller being
invoked and without a change to the store; the record stays through every
sequence of later events whose expiry sweeps come before `c.exp`, so until
then every such request is answered 401. -/
theorem blacklisted_token_rejected (env : Env) (req : Req) (w : World) (t : String)
    (c : Claims) (ht : bearerToken req = some t) (hc : env.decode t = some c)
    (hok : (logout env req w).1.status = 200) :
    (∃ b ∈ (logout env req w).2.store.blacklist, b.token = t ∧ b.expiresAt = c.exp * 1000) ∧
    (∀ ep req2 w2, Middleware.auth ∈ middlewares ep → bearerToken req2 = some t →
      (∃ b ∈ w2.store.blacklist, b.token = t) →
      (handle env ep req2 w2).response.status = 401 ∧
      (handle env ep req2 w2).reached = false ∧
      (handle env ep req2 w2).world.store = w2.store) ∧
    (∀ events ep req2 l, (∀ n, Event.sweep n ∈ events → n < c.exp * 1000) →
      Middleware.auth ∈ middlewares ep → bearerToken req2 = some t →
      (handle env ep req2
        { store := run env (logout env req w).2.store events, log := l }).response.status = 401 ∧
      (handle env ep req2
        { store := run env (logout env req w).2.store events, log := l }).reached = false) := by
  obtain ⟨t1, c1, ht1, _, hc1, _, hst⟩ := logout_ok env req w hok
  have ht' : t1 = t := Option.some.inj (ht1.symm.trans ht)
  subst ht'
  have hc' : c1 = c := Option.some.inj (hc1.symm.trans hc)
  subst hc'
  have hmem : (⟨w.store.nextId, t1, c1.exp * 1000, req.nowMs⟩ : BlacklistToken) ∈
      (logout env req w).2.store.blacklist := by
    rw [hst]
    simp
  refine ⟨⟨_, hmem, rfl, rfl⟩, ?_, ?_⟩
  · intro ep req2 w2 hep h2 hl
    exact handle_blacklisted env ep req2 w2 t1 hep h2 hl
  · intro events ep req2 l hsweep hep h2
    have hrun := run_keeps_blacklisted env _ events hsweep _ hmem
    have := handle_blacklisted env ep req2
      { store := run env (logout env req w).2.store events, log := l } t1 hep h2 ⟨_, hrun, rfl⟩
    exact ⟨this.1, this.2.1⟩

theorem blacklisted_token_rejected_witness :
    (handle sampleEnv Endpoint.signup signupReq emptyWorld).response.status = 201 ∧
    (handle sampleEnv Endpoint.login signupReq
      (handle sampleEnv Endpoint.signup signupReq emptyWorld).world).response =
        reply "status" 200 (Json.row [("token", Cell.str "token-0")]) "Login successful."
          Json.null ∧
    (handle sampleEnv Endpoint.logout tokenZeroReq loggedInWorld).response.status = 200 ∧
    (handle sampleEnv Endpoint.logout tokenZeroReq loggedInWorld).world.store =
      (logout sampleEnv tokenZeroReq loggedInWorld).2.store ∧
    (handle sampleEnv Endpoint.getUsers tokenZeroReq
      { store := run sampleEnv (logout sampleEnv tokenZeroReq loggedInWorld).2.store [],
        log := [] }).response.status = 401 :=
  ⟨by decide, by decide, by decide, by decide,
    ((blacklisted_token_rejected sampleEnv tokenZeroReq loggedInWorld "token-0"
      (sampleClaims 0 "Admin") (by decide) (by decide) (by decide)).2.2 [] Endpoint.getUsers
      tokenZeroReq [] (fun _ h => absurd h (List.not_mem_nil _)) (by decide) (by decide)).1⟩

/-! ## Role gates on the routes -/

theorem tokenOk_unique {env : Env} {req : Req} {w : World} {t1 t2 : String} {c1 c2 : Claims}
    (h1 : TokenOk env req w t1 c1) (h2 : TokenOk env req w t2 c2) : t1 = t2 ∧ c1 = c2 := by
  have ht : t1 = t2 := Option.some.inj (h1.1.symm.trans h2.1)
  subst ht
  exact ⟨rfl, Option.some.inj (h1.2.2.2.1.symm.trans h2.2.2.2.1)⟩

theorem callerRole_unique {env : Env} {req : Req} {w : World} {r1 r2 : String}
    (h1 : CallerRole env req w r1) (h2 : CallerRole env req w r2) : r1 = r2 := by
  obtain ⟨t1, c1, u1, hk1, hf1, hr1⟩ := h1
  obtain ⟨t2, c2, u2, hk2, hf2, hr2⟩ := h2
  obtain ⟨_, hc⟩ := tokenOk_unique hk1 hk2
  subst hc
  have hu : u1 = u2 := Option.some.inj (hf1.symm.trans hf2)
  subst hu
  exact hr1.symm.trans hr2

/-- On a route `auth, isAdmin, controller` the controller is invoked only for a
caller whose stored role is Admin. -/
theorem reached_isAdmin (env : Env) (ctrl : Req → World → Response × World) (req : Req)
    (w : World)
    (h : (runChain env ctrl [Middleware.auth, Middleware.isAdmin]
      { req with user := none } w).reached = true) :
    CallerRole env req w "Admin" := by
  by_cases hok : ∃ t c, TokenOk env { req with user := none } w t c
  · obtain ⟨t, c, hok⟩ := hok
    have ha := auth_of_tokenOk env { req with user := none } w t c hok
    cases hf : w.store.users.find? (fun u => u.id == c.id) with
    | none =>
      simp only [hf, Option.isNone_none, if_true] at ha
      simp [runChain, runMiddleware, ha] at h
    | some u =>
      simp only [hf, Option.isNone_some, Bool.false_eq_true, if_false] at ha
      by_cases hr : u.role = "Admin"
      · exact ⟨t, c, u, hok, hf, hr⟩
      · simp [runChain, runMiddleware, ha, isAdmin_eq, hf, hr] at h
  · have ha := auth_of_not_tokenOk env { req with user := none } w hok
    rcases hm : auth env { req with user := none } w with ⟨r, w1⟩
    rw [hm] at ha
    simp only at ha
    subst ha
    simp [runChain, runMiddleware, hm] at h

/-- On a route `auth, isEditorOrAdmin, controller` the controller is invoked
only for a caller whose stored role is Editor or Admin. -/
theorem reached_isEditorOrAdmin (env : Env) (ctrl : Req → World → Response × World)
    (req : Req) (w : World)
    (h : (runChain env ctrl [Middleware.auth, Middleware.isEditorOrAdmin]
      { req with user := none } w).reached = true) :
    CallerRole env req w "Editor" ∨ CallerRole env req w "Admin" := by
  by_cases hok : ∃ t c, TokenOk env { req with user := none } w t c
  · obtain ⟨t, c, hok⟩ := hok
    have ha := auth_of_tokenOk env { req with user := none } w t c hok
    cases hf : w.store.users.find? (fun u => u.id == c.id) with
    | none =>
      simp only [hf, Option.isNone_none, if_true] at ha
      simp [runChain, runMiddleware, ha] at h
    | some u =>
      simp only [hf, Option.isNone_some, Bool.false_eq_true, if_false] at ha
      by_cases hr : u.role = "Admin"
      · exact Or.inr ⟨t, c, u, hok, hf, hr⟩
      by_cases he : u.role = "Editor"
      · exact Or.inl ⟨t, c, u, hok, hf, he⟩
      · simp [runChain, runMiddleware, ha, isEditorOrAdmin_eq, hf, hr, he] at h
  · have ha := auth_of_not_tokenOk env { req with user := none } w hok
    rcases hm : auth env { req with user := none } w with ⟨r, w1⟩
    rw [hm] at ha
    simp only at ha
    subst ha
    simp [runChain, runMiddleware, hm] at h

/-- Serving a request changes the store only through the calls listed for the
controller of the route. -/
theorem handle_allowed (env : Env) (ep : Endpoint) (req : Req) (w : World) :
    Allowed (opsOf ep) w.store (handle env ep req w).world.store := by
  rcases runChain_cases env (controller env ep) (middlewares ep) { req with user := none } w
    with ⟨_, h⟩ | ⟨req1, w1, h1, _, _, h4⟩
  · simp only [handle, h]
    exact allowed_refl _ _
  · simp only [handle, h4]
    rw [← h1]
    exact controller_allowed env ep req1 w1

/-- When the controller is not invoked the store is left as it was. -/
theorem handle_not_reached (env : Env) (ep : Endpoint) (req : Req) (w : World)
    (h : (handle env ep req w).reached = false) : (handle env ep req w).world.store = w.store := by
  rcases runChain_cases env (controller env ep) (middlewares ep) { req with user := none } w
    with ⟨_, h1⟩ | ⟨req1, w1, _, h2, _, _⟩
  · exact h1
  · simp only [handle] at h
    rw [h] at h2
    exact absurd h2 Bool.false_ne_true

theorem not_reached_isAdmin (env : Env) (ctrl : Req → World → Response × World) (req : Req)
    (w : World) (r : String) (hrole : CallerRole env req w r) (hr : r ≠ "Admin") :
    (runChain env ctrl [Middleware.auth, Middleware.isAdmin]
      { req with user := none } w).reached = false := by
  cases h : (runChain env ctrl [Middleware.auth, Middleware.isAdmin]
      { req with user := none } w).reached with
  | false => rfl
  | true => exact absurd (callerRole_unique hrole (reached_isAdmin env ctrl req w h)) hr

theorem not_reached_isEditorOrAdmin (env : Env) (ctrl : Req → World → Response × World)
    (req : Req) (w : World) (r : String) (hrole : CallerRole env req w r)
    (hr : r ≠ "Admin") (he : r ≠ "Editor") :
    (runChain env ctrl [Middleware.auth, Middleware.isEditorOrAdmin]
      { req with user := none } w).reached = false := by
  cases h : (runChain env ctrl [Middleware.auth, Middleware.isEditorOrAdmin]
      { req with user := none } w).reached with
  | false => rfl
  | true =>
    rcases reached_isEditorOrAdmin env ctrl req w h with h1 | h1
    · exact absurd (callerRole_unique hrole h1) he
    · exact absurd (callerRole_unique hrole h1) hr

theorem handle_not_reached_admin (env : Env) (ep : Endpoint) (req : Req) (w : World)
    (r : String) (hms : middlewares ep = [Middleware.auth, Middleware.isAdmin])
    (hrole : CallerRole env req w r) (hr : r ≠ "Admin") :
    (handle env ep req w).reached = false := by
  unfold handle
  rw [hms]
  exact not_reached_isAdmin env _ req w r hrole hr

theorem handle_not_reached_editor (env : Env) (ep : Endpoint) (req : Req) (w : World)
    (r : String) (hms : middlewares ep = [Middleware.auth, Middleware.isEditorOrAdmin])
    (hrole : CallerRole env req w r) (hr : r ≠ "Admin") (he : r ≠ "Editor") :
    (handle env ep req w).reached = false := by
  unfold handle
  rw [hms]
  exact not_reached_isEditorOrAdmin env _ req w r hrole hr he

/-- A request of a caller whose stored role is neither Admin nor Editor leaves
the artists, albums and tracks as they were, on every route. -/
theorem entities_unchanged_of_role (env : Env) (ep : Endpoint) (req : Req) (w : World)
    (r : String) (hrole : CallerRole env req w r) (hr : r ≠ "Admin") (he : r ≠ "Editor") :
    (handle env ep req w).world.store.artists = w.store.artists ∧
    (handle env ep req w).world.store.albums = w.store.albums ∧
    (handle env ep req w).world.store.tracks = w.store.tracks := by
  have hfree : (∀ op ∈ [DbOp.insert Coll.artists, DbOp.update Coll.artists,
      DbOp.delete Coll.artists, DbOp.insert Coll.albums, DbOp.update Coll.albums,
      DbOp.delete Coll.albums, DbOp.insert Coll.tracks, DbOp.update Coll.tracks,
      DbOp.delete Coll.tracks], op ∉ opsOf ep) →
      (handle env ep req w).world.store.artists = w.store.artists ∧
      (handle env ep req w).world.store.albums = w.store.albums ∧
      (handle env ep req w).world.store.tracks = w.store.tracks := by
    intro h
    have ha := handle_allowed env ep req w
    exact ⟨collRel_eq ha.artists (h _ (by simp)) (h _ (by simp)) (h _ (by simp)),
      collRel_eq ha.albums (h _ (by simp)) (h _ (by simp)) (h _ (by simp)),
      collRel_eq ha.tracks (h _ (by simp)) (h _ (by simp)) (h _ (by simp))⟩
  have hstop : (handle env ep req w).reached = false →
      (handle env ep req w).world.store.artists = w.store.artists ∧
      (handle env ep req w).world.store.albums = w.store.albums ∧
      (handle env ep req w).world.store.tracks = w.store.tracks := by
    intro h
    rw [handle_not_reached env ep req w h]
    exact ⟨rfl, rfl, rfl⟩
  cases ep <;> first
    | (apply hfree; decide)
    | exact hstop (handle_not_reached_admin env _ req w r rfl hrole hr)
    | exact hstop (handle_not_reached_editor env _ req w r rfl hrole hr he)

/-- A request of a caller whose stored role is not Admin adds no artist, album
or track, on every route. -/
theorem no_entity_created_of_role (env : Env) (ep : Endpoint) (req : Req) (w : World)
    (r : String) (hrole : CallerRole env req w r) (hr : r ≠ "Admin") :
    NoNew Artist.id w.store.artists (handle env ep req w).world.store.artists ∧
    NoNew Album.id w.store.albums (handle env ep req w).world.store.albums ∧
    NoNew Track.id w.store.tracks (handle env ep req w).world.store.tracks := by
  have hfree : (∀ op ∈ [DbOp.insert Coll.artists, DbOp.insert Coll.albums,
      DbOp.insert Coll.tracks], op ∉ opsOf ep) →
      NoNew Artist.id w.store.artists (handle env ep req w).world.store.artists ∧
      NoNew Album.id w.store.albums (handle env ep req w).world.store.albums ∧
      NoNew Track.id w.store.tracks (handle env ep req w).world.store.tracks := by
    intro h
    have ha := handle_allowed env ep req w
    exact ⟨ha.artists.noNew (h _ (by simp)), ha.albums.noNew (h _ (by simp)),
      ha.tracks.noNew (h _ (by simp))⟩
  have hstop : (handle env ep req w).reached = false →
      NoNew Artist.id w.store.artists (handle env ep req w).world.store.artists ∧
      NoNew Album.id w.store.albums (handle env ep req w).world.store.albums ∧
      NoNew Track.id w.store.tracks (handle env ep req w).world.store.tracks := by
    intro h
    rw [handle_not_reached env ep req w h]
    exact ⟨fun x hx => ⟨x, hx, rfl⟩, fun x hx => ⟨x, hx, rfl⟩, fun x hx => ⟨x, hx, rfl⟩⟩
  cases ep <;> first
    | (apply hfree; decide)
    | exact hstop (handle_not_reached_admin env _ req w r rfl hrole hr)

/-- C7: on the routes of artists, albums and tracks, a create controller is
invoked only for a caller whose stored role is Admin, and an update or delete
controller only for a caller whose stored role is Editor or Admin; so a
request of a caller whose stored role is Viewer leaves the three collections
as they were, whatever the route, and a request of a caller whose stored role
is Editor adds no artist, album or track. -/
theorem entity_writes_gated (env : Env) (ep : Endpoint) (req : Req) (w : World) :
    (ep ∈ [Endpoint.addArtist, Endpoint.addAlbum, Endpoint.addTrack] →
      (handle env ep req w).reached = true → CallerRole env req w "Admin") ∧
    (ep ∈ [Endpoint.updateArtist, Endpoint.deleteArtist, Endpoint.updateAlbum,
        Endpoint.deleteAlbum, Endpoint.updateTrack, Endpoint.deleteTrack] →
      (handle env ep req w).reached = true →
      CallerRole env req w "Editor" ∨ CallerRole env req w "Admin") ∧
    (CallerRole env req w "Viewer" →
      (handle env ep req w).world.store.artists = w.store.artists ∧
      (handle env ep req w).world.store.albums = w.store.albums ∧
      (handle env ep req w).world.store.tracks = w.store.tracks) ∧
    (CallerRole env req w "Editor" →
      NoNew Artist.id w.store.artists (handle env ep req w).world.store.artists ∧
      NoNew Album.id w.store.albums (handle env ep req w).world.store.albums ∧
      NoNew Track.id w.store.tracks (handle env ep req w).world.store.tracks) := by
  refine ⟨fun hep h => ?_, fun hep h => ?_, fun hv => ?_, fun hed => ?_⟩
  · simp only [List.mem_cons, List.mem_singleton, List.not_mem_nil, or_false] at hep
    rcases hep with rfl | rfl | rfl <;> exact reached_isAdmin env _ req w h
  · simp only [List.mem_cons, List.mem_singleton, List.not_mem_nil, or_false] at hep
    rcases hep with rfl | rfl | rfl | rfl | rfl | rfl <;>
      exact reached_isEditorOrAdmin env _ req w h
  · exact entities_unchanged_of_role env ep req w "Viewer" hv (by decide) (by decide)
  · exact no_entity_created_of_role env ep req w "Editor" hed (by decide)

theorem entity_writes_gated_witness :
    CallerRole viewerEnv viewerDeleteReq viewerWorld "Viewer" ∧
    (handle viewerEnv Endpoint.deleteArtist viewerDeleteReq viewerWorld).response.status = 403 ∧
    (handle viewerEnv Endpoint.deleteArtist viewerDeleteReq viewerWorld).world.store.artists =
      viewerWorld.store.artists ∧
    ((handle viewerEnv Endpoint.addArtist addArtistReq viewerWorld).reached = true →
      CallerRole viewerEnv addArtistReq viewerWorld "Admin") :=
  have hv : CallerRole viewerEnv viewerDeleteReq viewerWorld "Viewer" :=
    ⟨"token-1", sampleClaims 2 "Viewer",
      { id := 2, email := "v@x.com", password := "hash:abcd2", role := "Viewer",
        favorites := [], createdAt := 0 },
      ⟨by decide, by decide, by decide, by decide, by decide⟩, by decide, rfl⟩
  ⟨hv, by decide,
    ((entity_writes_gated viewerEnv Endpoint.deleteArtist viewerDeleteReq viewerWorld).2.2.1
      hv).1,
    (entity_writes_gated viewerEnv Endpoint.addArtist addArtistReq viewerWorld).1 (by decide)⟩

/-! ## Signup -/

theorem isEmail_of_not_str (env : Env) (v : JsVal) (h : ∀ s, v ≠ JsVal.str s) :
    isEmail env v = throwErr := by
  cases v with
  | str s => exact absurd rfl (h s)
  | _ => rfl

/-- What `signup` does: either it replies something other than 201 and leaves
the store as it was, or it replies 201 and appends one user, whose role is
Admin when no user was stored and Viewer otherwise. -/
theorem signup_cases (env : Env) (req : Req) (w : World) :
    ((signup env req w).1.status ≠ 201 ∧ (signup env req w).2.store = w.store) ∨
    ∃ u : User,
      (signup env req w).1.status = 201 ∧
      (signup env req w).2.store =
        { w.store with users := w.store.users ++ [u], nextId := w.store.nextId + 1 } ∧
      u.id = w.store.nextId ∧
      req.body.get "email" = JsVal.str u.email ∧
      u.role = (if w.store.users.length == 0 then "Admin" else "Viewer") ∧
      u.favorites = [] ∧
      (∀ x ∈ w.store.users, x.email ≠ u.email) := by
  by_cases hc : (!truthy (req.body.get "email") || !truthy (req.body.get "password")) = true
  · left
    simp only [signup]
    rw [catch500_if_pos hc]
    exact ⟨by simp [reply], rfl⟩
  cases hce : castStr env (req.body.get "email") with
  | none =>
    left
    simp [signup, catch500, hc, User.findOne, hce, reply]
  | some e =>
    cases hfu : w.store.users.find? (fun u => u.email == e) with
    | some u0 =>
      left
      simp [signup, catch500, hc, User.findOne, hce, hfu, reply]
    | none =>
      by_cases hstr : ∀ s, req.body.get "email" ≠ JsVal.str s
      · left
        simp [signup, catch500, hc, User.findOne, hce, hfu, isEmail_of_not_str env _ hstr, reply]
      · have hs : req.body.get "email" = JsVal.str e := by
          simp only [ne_eq, not_forall, not_not] at hstr
          obtain ⟨s, hs⟩ := hstr
          rw [hs] at hce
          simp only [castStr, Option.some.injEq] at hce
          rw [hs, hce]
        rw [hs] at hc hce
        by_cases hv : env.isEmail e = true
        swap
        · left
          simp [signup, catch500, hc, User.findOne, hce, hfu, isEmail, hs, hv, reply]
        by_cases hlen : lengthLe4 (req.body.get "password") = true
        · left
          simp [signup, catch500, hc, User.findOne, hce, hfu, isEmail, hs, hv, hlen, reply]
        by_cases hpw : ∀ p, req.body.get "password" ≠ JsVal.str p
        · have hh : bcryptHash env (req.body.get "password") req.salt = throwErr := by
            cases hp : req.body.get "password" with
            | str p => exact absurd hp (hpw p)
            | _ => rfl
          left
          simp [signup, catch500, hc, User.findOne, hce, hfu, isEmail, hs, hv, hlen,
            User.countDocuments, hh, reply]
        · simp only [ne_eq, not_forall, not_not] at hpw
          obtain ⟨p, hp⟩ := hpw
          rw [hp] at hc hlen
          have hany : ∀ x ∈ w.store.users, ¬x.email = e := by
            intro x hx
            have := List.find?_eq_none.mp hfu x hx
            simpa using this
          have hnex : ¬∃ x ∈ w.store.users, x.email = e := by
            rintro ⟨x, hx, hxe⟩
            exact hany x hx hxe
          have hne : ¬e = "" := by
            intro he
            simp [he, truthy] at hc
          by_cases hh : env.hash p req.salt = ""
          · left
            simp [signup, catch500, hc, User.findOne, hce, hfu, isEmail, hs, hv, hlen,
              User.countDocuments, bcryptHash, hp, User.create, hh, castStr, reply]
          · right
            refine ⟨{ id := w.store.nextId, email := e, password := env.hash p req.salt,
                      role := if w.store.users.length == 0 then "Admin" else "Viewer",
                      favorites := [], createdAt := req.nowMs }, ?_, ?_, rfl, hs, rfl, rfl, hany⟩
            · by_cases h0 : w.store.users = [] <;>
              simp [signup, catch500, hc, User.findOne, hce, hfu, isEmail, hs, hv, hlen,
                User.countDocuments, bcryptHash, hp, User.create, hh, hne, hnex, h0, castStr,
                reply]
            · by_cases h0 : w.store.users = [] <;>
              simp [signup, catch500, hc, User.findOne, hce, hfu, isEmail, hs, hv, hlen,
                User.countDocuments, bcryptHash, hp, User.create, hh, hne, hnex, h0, castStr]

/-- C8: a signup that does not reply 201 stores nothing; from a store without
users, a signup that replies 201 stores exactly one user, with role Admin, and
a following signup that replies 201 stores a second user, with role Viewer;
in general a successful signup on a store that has users appends a Viewer.
This holds for every request, so for every body, whatever role or other field
it supplies. -/
theorem signup_first_admin_then_viewer (env : Env) :
    (∀ req w, (signup env req w).1.status ≠ 201 → (signup env req w).2.store = w.store) ∧
    (∀ req1 req2 w, w.store.users = [] →
      (signup env req1 w).1.status = 201 →
      (signup env req2 (signup env req1 w).2).1.status = 201 →
      ∃ u1 u2, (signup env req1 w).2.store.users = [u1] ∧ u1.role = "Admin" ∧
        (signup env req2 (signup env req1 w).2).2.store.users = [u1, u2] ∧
        u2.role = "Viewer") ∧
    (∀ req w, w.store.users ≠ [] → (signup env req w).1.status = 201 →
      ∃ u, (signup env req w).2.store.users = w.store.users ++ [u] ∧ u.role = "Viewer") := by
  have hfirst : ∀ req w, w.store.users = [] → (signup env req w).1.status = 201 →
      ∃ u, (signup env req w).2.store.users = [u] ∧ u.role = "Admin" := by
    intro req w hempty hok
    rcases signup_cases env req w with ⟨hne, _⟩ | ⟨u, _, hst, _, _, hrole, _, _⟩
    · exact absurd hok hne
    · refine ⟨u, by rw [hst, hempty]; rfl, ?_⟩
      rw [hrole, hempty]
      rfl
  have hlater : ∀ req w, w.store.users ≠ [] → (signup env req w).1.status = 201 →
      ∃ u, (signup env req w).2.store.users = w.store.users ++ [u] ∧ u.role = "Viewer" := by
    intro req w hne hok
    rcases signup_cases env req w with ⟨hne, _⟩ | ⟨u, _, hst, _, _, hrole, _, _⟩
    · exact absurd hok hne
    · refine ⟨u, by rw [hst], ?_⟩
      rw [hrole]
      have : (w.store.users.length == 0) = false := by
        cases hu : w.store.users with
        | nil => exact absurd hu hne
        | cons x xs => rfl
      rw [this]
      rfl
  refine ⟨?_, ?_, hlater⟩
  · intro req w hne
    rcases signup_cases env req w with ⟨_, hst⟩ | ⟨u, hok, _⟩
    · exact hst
    · exact absurd hok hne
  · intro req1 req2 w hempty h1 h2
    obtain ⟨u1, hu1, hr1⟩ := hfirst req1 w hempty h1
    obtain ⟨u2, hu2, hr2⟩ := hlater req2 (signup env req1 w).2
      (by rw [hu1]; exact List.cons_ne_nil _ _) h2
    exact ⟨u1, u2, hu1, hr1, by rw [hu2, hu1]; rfl, hr2⟩

theorem signup_first_admin_then_viewer_witness :
    (signup sampleEnv signupReq emptyWorld).1.status = 201 ∧
    (signup sampleEnv secondSignupReq (signup sampleEnv signupReq emptyWorld).2).1.status = 201 ∧
    ∃ u1 u2, (signup sampleEnv signupReq emptyWorld).2.store.users = [u1] ∧ u1.role = "Admin" ∧
      (signup sampleEnv secondSignupReq (signup sampleEnv signupReq emptyWorld).2).2.store.users =
        [u1, u2] ∧ u2.role = "Viewer" :=
  ⟨by decide, by decide,
    (signup_first_admin_then_viewer sampleEnv).2.1 signupReq secondSignupReq emptyWorld rfl
      (by decide) (by decide)⟩

/-! ## Creating an album -/

theorem find_artist_none (l : List Artist) (i : ObjectId) (h : ∀ a ∈ l, a.id ≠ i) :
    l.find? (fun a => a.id == i) = none := by
  rw [List.find?_eq_none]
  intro a ha
  simpa using h a ha

/-- C9, as the code has it: an `addAlbum` request whose four fields are all
truthy and whose `artist_id` casts to an id that no stored artist has is
answered 404, and the store is left as it was; and whenever the `artist_id`
does not resolve to a stored artist (it does not cast, or no artist has the
id), whatever the other fields, the albums are left as they were. -/
theorem addAlbum_unknown_artist (env : Env) (req : Req) (w : World) :
    (∀ i, truthy (req.body.get "artist_id") = true → truthy (req.body.get "name") = true →
      truthy (req.body.get "year") = true → truthy (req.body.get "hidden") = true →
      env.castObjectId (req.body.get "artist_id") = some i →
      (∀ a ∈ w.store.artists, a.id ≠ i) →
      (addAlbum env req w).1.status = 404 ∧ (addAlbum env req w).2.store = w.store) ∧
    ((∀ i, env.castObjectId (req.body.get "artist_id") = some i →
        ∀ a ∈ w.store.artists, a.id ≠ i) →
      (addAlbum env req w).2.store.albums = w.store.albums) := by
  constructor
  · intro i h1 h2 h3 h4 hid hno
    have hf := find_artist_none _ _ hno
    simp [addAlbum, catch500, h1, h2, h3, h4, castId, hid, Artist.findById, hf, reply]
  · intro hno
    by_cases hc : (!truthy (req.body.get "artist_id") || !truthy (req.body.get "name") ||
        !truthy (req.body.get "year") || !truthy (req.body.get "hidden")) = true
    · simp only [addAlbum]
      rw [catch500_if_pos hc]
    cases hid : env.castObjectId (req.body.get "artist_id") with
    | none => simp [addAlbum, catch500, hc, castId, hid]
    | some i =>
      have hf := find_artist_none _ _ (hno i hid)
      simp [addAlbum, catch500, hc, castId, hid, Artist.findById, hf]

theorem addAlbum_unknown_artist_witness :
    (addAlbum sampleEnv albumNoArtistReq setupWorld).1.status = 404 ∧
    (addAlbum sampleEnv albumNoArtistReq setupWorld).2.store = setupWorld.store :=
  (addAlbum_unknown_artist sampleEnv albumNoArtistReq setupWorld).1 7 (by decide) (by decide)
    (by decide) (by decide) (by decide) (by decide)

/-- C9 as stated fails: with all four fields present, `hidden` being `false`,
and an `artist_id` that casts to an id no stored artist has, `addAlbum`
replies 400, not 404; and with all four fields truthy and an `artist_id` that
is not an id at all, the lookup throws and `addAlbum` replies 500, not 404. -/
theorem addAlbum_present_fields_not_404 :
    ((∀ k ∈ ["artist_id", "name", "year", "hidden"],
        albumHiddenFalseReq.body.get k ≠ JsVal.undefined ∧
        albumHiddenFalseReq.body.get k ≠ JsVal.null) ∧
      sampleEnv.castObjectId (albumHiddenFalseReq.body.get "artist_id") = some 7 ∧
      (∀ a ∈ setupWorld.store.artists, a.id ≠ 7) ∧
      (addAlbum sampleEnv albumHiddenFalseReq setupWorld).1.status = 400) ∧
    ((∀ k ∈ ["artist_id", "name", "year", "hidden"], truthy (albumBadIdReq.body.get k) = true) ∧
      sampleEnv.castObjectId (albumBadIdReq.body.get "artist_id") = none ∧
      (addAlbum sampleEnv albumBadIdReq setupWorld).1.status = 500) := by
  decide

/-! ## Listing favorites -/

/-- For a stored caller and a request that passes the validation, `getFavorites`
replies with every favorite of the caller's list that is stored, in the order
of the list: the category, the limit and the offset play no part. -/
theorem getFavorites_returns_all (env : Env) (req : Req) (w : World) (c : Claims) (u : User)
    (hvalid : (!truthy (req.params.get "category") ||
      isNaN env (withDefault (req.query.get "limit") (JsVal.num 5)) ||
      ltZero env (withDefault (req.query.get "limit") (JsVal.num 5)) ||
      isNaN env (withDefault (req.query.get "offset") (JsVal.num 0)) ||
      ltZero env (withDefault (req.query.get "offset") (JsVal.num 0)) ||
      !includesStr ["artist", "album", "track"] (req.params.get "category")) = false)
    (hu : req.user = some c) (hf : w.store.users.find? (fun x => x.id == c.id) = some u) :
    (getFavorites env req w).1 =
      reply "state" 200
        (Json.rows ((u.favorites.filterMap
          (fun fid => w.store.favorites.find? (fun f => f.id == fid))).map favoriteRow))
        "Favorites retrieved successfully." Json.null := by
  have hv : ¬(!truthy (req.params.get "category") ||
      isNaN env (withDefault (req.query.get "limit") (JsVal.num 5)) ||
      ltZero env (withDefault (req.query.get "limit") (JsVal.num 5)) ||
      isNaN env (withDefault (req.query.get "offset") (JsVal.num 0)) ||
      ltZero env (withDefault (req.query.get "offset") (JsVal.num 0)) ||
      !includesStr ["artist", "album", "track"] (req.params.get "category")) = true := by
    rw [hvalid]; exact Bool.false_ne_true
  simp only [getFavorites, catch500, if_neg hv, run_bind, reqUser, hu, run_orThrow_some,
    User.findByIdPopulated, run_logOp, run_getStore, run_pure, hf, Option.map_some']

/-- C10 fails on the code: user 2 holds the favorite 1 (an artist) and the
favorite 3 (an album); asked for category artist with limit 1 and offset 0,
`getFavorites` replies 200 with both favorites: two items, one of them of
category album. -/
theorem getFavorites_ignores_category_and_limit :
    (getFavorites sampleEnv favoritesPageReq cascadeWorld).1 =
      reply "state" 200
        (Json.rows
          [favoriteRow
             { id := 1, item_id := 0, category := "artist", name := "Adele", createdAt := 0 },
           favoriteRow
             { id := 3, item_id := 5, category := "album", name := "25", createdAt := 0 }])
        "Favorites retrieved successfully." Json.null := by
  decide

/-! ## Removing a favorite -/

/-- The world `removeFavorite` leaves when the favorite is found. -/
theorem removeFavorite_run (env : Env) (req : Req) (w : World) (c : Claims) (i : ObjectId)
    (f : Favorite)
    (hparam : truthy (req.params.get "id") = true)
    (hid : env.castObjectId (req.params.get "id") = some i)
    (hf : w.store.favorites.find? (fun x => x.id == i) = some f)
    (hc : req.user = some c) :
    (removeFavorite env req w).1.status = 200 ∧
    (removeFavorite env req w).2.store =
      { w.store with
        users := w.store.users.map (fun u => if u.id == c.id then pullFavorite i u else u) } := by
  simp [removeFavorite, catch500, castId, hid, hparam, Favorite.findById, hf, reqUser, hc,
    User.findByIdAndUpdatePull, pullFavorite, reply]

/-- C11: for a stored favorite F and a caller (the claims `req.user` carries),
`removeFavorite` addressed at F replies 200 and leaves the store as it was but
for the users with the caller's id, whose lists lose every occurrence of the id
of F and keep their other entries in order: the favorites collection, F
included, is what it was, the users are the same in number and order, and
every user with another id is unchanged. -/
theorem removeFavorite_pulls_own_reference (env : Env) (req : Req) (w : World) (c : Claims)
    (f : Favorite)
    (hparam : truthy (req.params.get "id") = true)
    (hid : env.castObjectId (req.params.get "id") = some f.id)
    (hf : f ∈ w.store.favorites)
    (hc : req.user = some c) :
    (removeFavorite env req w).1.status = 200 ∧
    (removeFavorite env req w).2.store =
      { w.store with
        users := w.store.users.map (fun u =>
          if u.id == c.id then
            { u with favorites := u.favorites.filter (fun x => x != f.id) }
          else u) } ∧
    (removeFavorite env req w).2.store.favorites = w.store.favorites ∧
    f ∈ (removeFavorite env req w).2.store.favorites ∧
    (∀ u ∈ (removeFavorite env req w).2.store.users, u.id = c.id → f.id ∉ u.favorites) ∧
    (removeFavorite env req w).2.store.users.map User.id = w.store.users.map User.id ∧
    (∀ u ∈ w.store.users, u.id ≠ c.id → u ∈ (removeFavorite env req w).2.store.users) ∧
    (∀ u ∈ w.store.users, u.id = c.id →
      { u with favorites := u.favorites.filter (fun x => x != f.id) } ∈
        (removeFavorite env req w).2.store.users) := by
  obtain ⟨f1, hf1, _⟩ := find_id_of_mem Favorite.id w.store.favorites hf
  obtain ⟨hstatus, hstore⟩ := removeFavorite_run env req w c f.id f1 hparam hid hf1 hc
  refine ⟨hstatus, hstore, by rw [hstore], by rw [hstore]; exact hf, ?_, ?_, ?_, ?_⟩
  · intro u hu huc
    rw [hstore] at hu
    obtain ⟨u0, _, rfl⟩ := List.mem_map.mp hu
    by_cases h0 : u0.id = c.id
    · have : (u0.id == c.id) = true := by simpa using h0
      simp only [this, if_true]
      exact not_mem_pull f.id u0
    · have : (u0.id == c.id) = false := by simpa using h0
      simp only [this, Bool.false_eq_true, if_false] at huc
      exact absurd huc h0
  · rw [hstore]
    simp only [List.map_map]
    apply List.map_congr_left
    intro u _
    simp only [Function.comp]
    split <;> rfl
  · intro u hu hne
    rw [hstore]
    refine List.mem_map.mpr ⟨u, hu, ?_⟩
    have : (u.id == c.id) = false := by simpa using hne
    simp [this]
  · intro u hu he
    rw [hstore]
    refine List.mem_map.mpr ⟨u, hu, ?_⟩
    have : (u.id == c.id) = true := by simpa using he
    simp [this, pullFavorite]

theorem removeFavorite_pulls_own_reference_witness :
    (removeFavorite sampleEnv removeFavoriteReq cascadeWorld).1.status = 200 ∧
    (removeFavorite sampleEnv removeFavoriteReq cascadeWorld).2.store.users.map User.favorites =
      [[1], [3]] ∧
    (removeFavorite sampleEnv removeFavoriteReq cascadeWorld).2.store.favorites =
      cascadeWorld.store.favorites :=
  have h := removeFavorite_pulls_own_reference sampleEnv removeFavoriteReq cascadeWorld
    (sampleClaims 2 "Admin")
    { id := 3, item_id := 5, category := "album", name := "25", createdAt := 0 }
    (by decide) (by decide) (by decide) rfl
  ⟨h.1, by decide, h.2.2.1⟩

/-! ## The response envelope -/

/-- C12 fails on the code: `signup` names the first key of its envelope
`status` in the reply to a missing field and `state` in the reply to a short
password, and a successful `updateArtist` replies with `sendStatus(204)`, whose
body is the reason phrase as text and not a JSON envelope. -/
theorem envelope_not_uniform :
    (signup sampleEnv emptyReq emptyWorld).1.keys =
      some ["status", "data", "message", "error"] ∧
    (signup sampleEnv shortPasswordReq emptyWorld).1 =
      reply "state" 400 Json.null "Password length can't be less than 4" Json.null ∧
    (signup sampleEnv shortPasswordReq emptyWorld).1.keys =
      some ["state", "data", "message", "error"] ∧
    (updateArtist sampleEnv renameArtistReq setupWorld).1 = sendStatus 204 "No Content" ∧
    (updateArtist sampleEnv renameArtistReq setupWorld).1.keys = none := by
  decide

/-! ## Rejections come before any mutating call -/

theorem onlyQueried_refl (w : World) : OnlyQueried w w :=
  ⟨rfl, [], (List.append_nil _).symm, fun _ h => absurd h (List.not_mem_nil _)⟩

theorem onlyQueried_trans {a b c : World} (h1 : OnlyQueried a b) (h2 : OnlyQueried b c) :
    OnlyQueried a c := by
  obtain ⟨s1, o1, l1, q1⟩ := h1
  obtain ⟨s2, o2, l2, q2⟩ := h2
  refine ⟨s2.trans s1, o1 ++ o2, by rw [l2, l1, List.append_assoc], fun op hop => ?_⟩
  rcases List.mem_append.mp hop with h | h
  · exact q1 op h
  · exact q2 op h

theorem quiet_pure {α : Type} (a : α) : Quiet (pure a : M α) := ⟨fun w => onlyQueried_refl w⟩

theorem quiet_mpure {α : Type} (a : α) : Quiet (M.pure a : M α) := ⟨fun w => onlyQueried_refl w⟩

theorem quiet_throwErr {α : Type} : Quiet (throwErr : M α) := ⟨fun w => onlyQueried_refl w⟩

theorem quiet_orThrow {α : Type} (o : Option α) : Quiet (orThrow o) := by
  cases o
  · exact quiet_throwErr
  · exact quiet_mpure _

theorem quiet_getStore : Quiet getStore := ⟨fun w => onlyQueried_refl w⟩

theorem quiet_logQuery (c : Coll) : Quiet (logOp (DbOp.query c)) :=
  ⟨fun _ => ⟨rfl, [DbOp.query c], rfl, fun op hop => by
    rw [List.mem_singleton.mp hop]; rfl⟩⟩

theorem quiet_bind {α β : Type} {m : M α} {f : α → M β} (hm : Quiet m)
    (hf : ∀ a, Quiet (f a)) : Quiet (m >>= f) := by
  constructor
  intro w
  simp only [run_bind]
  have h1 := hm.run w
  rcases hmw : m w with ⟨r, w1⟩
  rw [hmw] at h1
  cases r with
  | ok a => exact onlyQueried_trans h1 ((hf a).run w1)
  | thrown => exact h1

/-- A computation that leaves the world as it is issues no call at all. -/
theorem quiet_of_same {α : Type} {m : M α} (h : ∀ w, (m w).2 = w) : Quiet m :=
  ⟨fun w => by rw [h w]; exact onlyQueried_refl w⟩

theorem quiet_castId (env : Env) (v : JsVal) : Quiet (castId env v) := quiet_orThrow _

theorem quiet_reqUser (req : Req) : Quiet (reqUser req) := quiet_orThrow _

theorem quiet_paginate {α : Type} (env : Env) (o l : JsVal) (xs : List α) :
    Quiet (paginate env o l xs) := by
  unfold paginate
  split
  · split
    · exact quiet_throwErr
    · split <;> exact quiet_mpure _
  · exact quiet_throwErr

theorem quiet_jwtVerify (env : Env) (t : String) (n : Nat) : Quiet (jwtVerify env t n) := by
  unfold jwtVerify
  split
  · exact quiet_throwErr
  · split
    · exact quiet_throwErr
    · exact quiet_mpure _

theorem quiet_bcryptHash (env : Env) (v : JsVal) (n : Nat) : Quiet (bcryptHash env v n) :=
  quiet_of_same (fun _ => by cases v <;> rfl)

theorem quiet_bcryptCompare (env : Env) (v : JsVal) (h : String) :
    Quiet (bcryptCompare env v h) :=
  quiet_of_same (fun _ => by cases v <;> rfl)

theorem quiet_isEmail (env : Env) (v : JsVal) : Quiet (isEmail env v) :=
  quiet_of_same (fun _ => by cases v <;> rfl)

theorem quiet_user_findById (i : ObjectId) : Quiet (User.findById i) :=
  quiet_bind (quiet_logQuery _) (fun _ => quiet_bind quiet_getStore (fun _ => quiet_pure _))

theorem quiet_user_findOne (env : Env) (e : JsVal) : Quiet (User.findOne env e) :=
  quiet_bind (quiet_logQuery _) (fun _ => quiet_bind (quiet_orThrow _) (fun _ =>
    quiet_bind quiet_getStore (fun _ => quiet_pure _)))

theorem quiet_user_find (env : Env) (roles : List String) (o l : JsVal) :
    Quiet (User.find env roles o l) :=
  quiet_bind (quiet_logQuery _) (fun _ => quiet_bind quiet_getStore (fun _ =>
    quiet_paginate _ _ _ _))

theorem quiet_user_countDocuments : Quiet User.countDocuments :=
  quiet_bind (quiet_logQuery _) (fun _ => quiet_bind quiet_getStore (fun _ => quiet_pure _))

theorem quiet_user_findByIdPopulated (i : ObjectId) : Quiet (User.findByIdPopulated i) :=
  quiet_bind (quiet_logQuery _) (fun _ => quiet_bind quiet_getStore (fun _ => quiet_pure _))

theorem quiet_artist_findById (i : ObjectId) : Quiet (Artist.findById i) :=
  quiet_bind (quiet_logQuery _) (fun _ => quiet_bind quiet_getStore (fun _ => quiet_pure _))

theorem quiet_artist_find (env : Env) (q : ArtistQuery) (o l : JsVal) :
    Quiet (Artist.find env q o l) :=
  quiet_bind (quiet_logQuery _) (fun _ => quiet_bind (quiet_orThrow _) (fun _ =>
    quiet_bind (quiet_orThrow _) (fun _ => quiet_bind quiet_getStore (fun _ =>
      quiet_paginate _ _ _ _))))

theorem quiet_album_findById (i : ObjectId) : Quiet (Album.findById i) :=
  quiet_bind (quiet_logQuery _) (fun _ => quiet_bind quiet_getStore (fun _ => quiet_pure _))

theorem quiet_album_findByIdPopulated (i : ObjectId) : Quiet (Album.findByIdPopulated i) :=
  quiet_bind (quiet_logQuery _) (fun _ => quiet_bind quiet_getStore (fun _ => quiet_pure _))

theorem quiet_album_find (env : Env) (q : AlbumQuery) (o l : JsVal) :
    Quiet (Album.find env q o l) :=
  quiet_bind (quiet_logQuery _) (fun _ => quiet_bind (quiet_orThrow _) (fun _ =>
    quiet_bind (quiet_orThrow _) (fun _ => quiet_bind quiet_getStore (fun _ =>
      quiet_bind (quiet_paginate _ _ _ _) (fun _ => quiet_pure _)))))

theorem quiet_track_findById (i : ObjectId) : Quiet (Track.findById i) :=
  quiet_bind (quiet_logQuery _) (fun _ => quiet_bind quiet_getStore (fun _ => quiet_pure _))

theorem quiet_track_findByIdPopulated (i : ObjectId) : Quiet (Track.findByIdPopulated i) :=
  quiet_bind (quiet_logQuery _) (fun _ => quiet_bind quiet_getStore (fun _ => quiet_pure _))

theorem quiet_track_find (env : Env) (q : TrackQuery) (o l : JsVal) :
    Quiet (Track.find env q o l) :=
  quiet_bind (quiet_logQuery _) (fun _ => quiet_bind (quiet_orThrow _) (fun _ =>
    quiet_bind (quiet_orThrow _) (fun _ => quiet_bind (quiet_orThrow _) (fun _ =>
      quiet_bind quiet_getStore (fun _ =>
        quiet_bind (quiet_paginate _ _ _ _) (fun _ => quiet_pure _))))))

theorem quiet_favorite_findOne (i : ObjectId) : Quiet (Favorite.findOne i) :=
  quiet_bind (quiet_logQuery _) (fun _ => quiet_bind quiet_getStore (fun _ => quiet_pure _))

theorem quiet_favorite_findById (i : ObjectId) : Quiet (Favorite.findById i) :=
  quiet_bind (quiet_logQuery _) (fun _ => quiet_bind quiet_getStore (fun _ => quiet_pure _))

theorem quiet_itemLookup (env : Env) (model : String) (v : JsVal) :
    Quiet (itemLookup env model v) := by
  unfold itemLookup
  split
  · exact quiet_bind (quiet_castId _ _) (fun _ =>
      quiet_bind (quiet_album_findById _) (fun _ => quiet_pure _))
  split
  · exact quiet_bind (quiet_castId _ _) (fun _ =>
      quiet_bind (quiet_artist_findById _) (fun _ => quiet_pure _))
  split
  · exact quiet_bind (quiet_castId _ _) (fun _ =>
      quiet_bind (quiet_track_findById _) (fun _ => quiet_pure _))
  · exact quiet_pure _

theorem bind_assoc_run {α β γ : Type} (m : M α) (g : α → M β) (f : β → M γ) :
    ((m >>= g) >>= f) = (m >>= fun a => g a >>= f) := by
  funext w
  simp only [run_bind]
  rcases m w with ⟨r, w1⟩
  cases r <;> rfl

theorem rejects_pure (r : Response) : RejectsEarly (pure r : M Response) :=
  ⟨fun w r1 w1 h _ => by
    rw [run_pure] at h
    rw [← (Prod.mk.inj h).2]
    exact onlyQueried_refl w⟩

theorem rejects_throwErr : RejectsEarly (throwErr : M Response) :=
  ⟨fun w r1 w1 h _ => by
    rw [run_throwErr] at h
    exact Res.noConfusion (Prod.mk.inj h).1⟩

theorem rejects_bind {α : Type} {m : M α} {f : α → M Response} (hm : Quiet m)
    (hf : ∀ a, RejectsEarly (f a)) : RejectsEarly (m >>= f) := by
  constructor
  intro w r w2 h hr
  simp only [run_bind] at h
  have h1 := hm.run w
  rcases hmw : m w with ⟨x, w1⟩
  rw [hmw] at h1 h
  cases x with
  | ok a => exact onlyQueried_trans h1 ((hf a).run w1 r w2 h hr)
  | thrown => exact Res.noConfusion (Prod.mk.inj h).1

theorem rejects_assoc {α β : Type} {m : M α} {g : α → M β} {f : β → M Response}
    (h : RejectsEarly (m >>= fun a => g a >>= f)) : RejectsEarly ((m >>= g) >>= f) := by
  rw [bind_assoc_run]
  exact h

theorem rejects_of_noRejection {m : M Response} (h : NoRejection m) : RejectsEarly m :=
  ⟨fun w r w1 hrun hr => by
    have := h.run w r w1 hrun
    rw [this] at hr
    exact Bool.noConfusion hr⟩

theorem noRejection_pure (r : Response) (h : r.isRejection = false) :
    NoRejection (pure r : M Response) :=
  ⟨fun w r1 w1 hrun => by
    rw [run_pure] at hrun
    rw [← Res.ok.inj (Prod.mk.inj hrun).1]
    exact h⟩

theorem noRejection_throwErr : NoRejection (throwErr : M Response) :=
  ⟨fun w r1 w1 h => by
    rw [run_throwErr] at h
    exact Res.noConfusion (Prod.mk.inj h).1⟩

theorem noRejection_bind {α : Type} {m : M α} {f : α → M Response}
    (hf : ∀ a, NoRejection (f a)) : NoRejection (m >>= f) := by
  constructor
  intro w r w2 h
  simp only [run_bind] at h
  rcases hmw : m w with ⟨x, w1⟩
  rw [hmw] at h
  cases x with
  | ok a => exact (hf a).run w1 r w2 h
  | thrown => exact Res.noConfusion (Prod.mk.inj h).1

theorem rejects_catch500 {m : M Response} (r : Response) (hr : r.isRejection = false)
    (hm : RejectsEarly m) (w : World) :
    (catch500 m r w).1.isRejection = true → OnlyQueried w (catch500 m r w).2 := by
  simp only [MusicLib.catch500]
  rcases hmw : m w with ⟨x, w1⟩
  cases x with
  | ok a => exact hm.run w a w1 hmw
  | thrown =>
    intro h
    rw [hr] at h
    exact Bool.noConfusion h

/-- Every controller replies 400, 404 or 409 only when it has issued no
mutating call. -/
theorem controller_rejectsEarly (env : Env) (ep : Endpoint) (req : Req) (w : World) :
    (controller env ep req w).1.isRejection = true →
      OnlyQueried w (controller env ep req w).2 := by
  cases ep <;>
  simp only [controller, signup, login, logout, getUsers, addUser, deleteUser,
    updatePassword, getArtists, getArtist, addArtist, updateArtist, deleteArtist, getAlbums,
    getAlbum, addAlbum, updateAlbum, deleteAlbum, getTracks, getTrack, addTrack, updateTrack,
    deleteTrack, getFavorites, addFavorite, removeFavorite] <;>
  refine rejects_catch500 _ ?_ ?_ w <;>
  repeat' (first
    | with_reducible exact rejects_pure _
    | with_reducible exact rejects_throwErr
    | with_reducible apply rejects_bind (quiet_pure _)
    | with_reducible apply rejects_bind (quiet_orThrow _)
    | with_reducible apply rejects_bind (quiet_castId _ _)
    | with_reducible apply rejects_bind (quiet_reqUser _)
    | with_reducible apply rejects_bind (quiet_isEmail _ _)
    | with_reducible apply rejects_bind (quiet_bcryptHash _ _ _)
    | with_reducible apply rejects_bind (quiet_bcryptCompare _ _ _)
    | with_reducible apply rejects_bind (quiet_jwtVerify _ _ _)
    | with_reducible apply rejects_bind (quiet_itemLookup _ _ _)
    | with_reducible apply rejects_bind (quiet_user_findById _)
    | with_reducible apply rejects_bind (quiet_user_findOne _ _)
    | with_reducible apply rejects_bind (quiet_user_find _ _ _ _)
    | with_reducible apply rejects_bind quiet_user_countDocuments
    | with_reducible apply rejects_bind (quiet_user_findByIdPopulated _)
    | with_reducible apply rejects_bind (quiet_artist_findById _)
    | with_reducible apply rejects_bind (quiet_artist_find _ _ _ _)
    | with_reducible apply rejects_bind (quiet_album_findById _)
    | with_reducible apply rejects_bind (quiet_album_findByIdPopulated _)
    | with_reducible apply rejects_bind (quiet_album_find _ _ _ _)
    | with_reducible apply rejects_bind (quiet_track_findById _)
    | with_reducible apply rejects_bind (quiet_track_findByIdPopulated _)
    | with_reducible apply rejects_bind (quiet_track_find _ _ _ _)
    | with_reducible apply rejects_bind (quiet_favorite_findOne _)
    | with_reducible apply rejects_bind (quiet_favorite_findById _)
    | with_reducible apply rejects_assoc
    | intro _
    | split
    | with_reducible apply rejects_of_noRejection
    | with_reducible apply noRejection_bind
    | with_reducible exact noRejection_throwErr
    | ((with_reducible apply noRejection_pure); rfl)
    | (show Response.isRejection _ = false; rfl))

theorem isRejection_iff (r : Response) :
    r.isRejection = true ↔ r.status = 400 ∨ r.status = 404 ∨ r.status = 409 := by
  simp [Response.isRejection, or_assoc]

/-- C13: whenever a controller replies 400, 404 or 409, the store it leaves is
the store it was given, and the persistence calls it has issued (the part it
added to the log) are all queries: no mutating call came before the reply.
The same holds of a request served through its route, middlewares included. -/
theorem rejection_leaves_store (env : Env) (ep : Endpoint) (req : Req) (w : World) :
    ((controller env ep req w).1.status = 400 ∨ (controller env ep req w).1.status = 404 ∨
        (controller env ep req w).1.status = 409 →
      (controller env ep req w).2.store = w.store ∧
      ∃ ops : List DbOp, (controller env ep req w).2.log = w.log ++ ops ∧
        ∀ op ∈ ops, op.mutating = false) ∧
    ((handle env ep req w).response.status = 400 ∨ (handle env ep req w).response.status = 404 ∨
        (handle env ep req w).response.status = 409 →
      (handle env ep req w).world.store = w.store) := by
  refine ⟨fun h => controller_rejectsEarly env ep req w ((isRejection_iff _).mpr h), fun h => ?_⟩
  rcases runChain_cases env (controller env ep) (middlewares ep) { req with user := none } w with
    ⟨_, hst⟩ | ⟨req1, w1, hw1, _, hresp, hworld⟩
  · exact hst
  · simp only [handle] at h ⊢
    rw [hresp] at h
    rw [hworld, (controller_rejectsEarly env ep req1 w1 ((isRejection_iff _).mpr h)).1, hw1]

theorem rejection_leaves_store_witness :
    (controller sampleEnv Endpoint.addAlbum albumNoArtistReq setupWorld).1.status = 404 ∧
    (controller sampleEnv Endpoint.addAlbum albumNoArtistReq setupWorld).2.store =
      setupWorld.store ∧
    ∃ ops : List DbOp,
      (controller sampleEnv Endpoint.addAlbum albumNoArtistReq setupWorld).2.log =
        setupWorld.log ++ ops ∧ ∀ op ∈ ops, op.mutating = false :=
  have h404 : (controller sampleEnv Endpoint.addAlbum albumNoArtistReq setupWorld).1.status = 404 :=
    by decide
  ⟨h404, (rejection_leaves_store sampleEnv Endpoint.addAlbum albumNoArtistReq setupWorld).1
    (Or.inr (Or.inl h404))⟩

/-! ## The minimum password length -/

theorem lengthLe4_str (p : String) : lengthLe4 (JsVal.str p) = decide (jsLength p ≤ 4) := rfl

/-- A signup with a fresh, well-formed email and a string password of five
code units or more creates the user. -/
theorem signup_created (env : Env) (req : Req) (w : World) (e p : String)
    (he : req.body.get "email" = JsVal.str e) (hne : e ≠ "") (hv : env.isEmail e = true)
    (hfresh : ∀ u ∈ w.store.users, u.email ≠ e)
    (hp : req.body.get "password" = JsVal.str p) (hlen : 5 ≤ jsLength p)
    (hh : env.hash p req.salt ≠ "") :
    (signup env req w).1.status = 201 ∧
    (signup env req w).2.store =
      { w.store with
        users := w.store.users ++
          [{ id := w.store.nextId, email := e, password := env.hash p req.salt,
             role := if w.store.users.length == 0 then "Admin" else "Viewer",
             favorites := [], createdAt := req.nowMs }]
        nextId := w.store.nextId + 1 } := by
  have hpne : p ≠ "" := by
    rintro rfl
    simp [jsLength] at hlen
  have hfu : w.store.users.find? (fun u => u.email == e) = none := by
    rw [List.find?_eq_none]
    intro u hu
    simpa using hfresh u hu
  have hnex : ¬∃ x ∈ w.store.users, x.email = e := by
    rintro ⟨x, hx, hxe⟩
    exact hfresh x hx hxe
  have hl : ¬jsLength p ≤ 4 := by omega
  constructor <;> by_cases h0 : w.store.users = [] <;>
    simp [signup, catch500, he, hp, truthy, hne, hpne, User.findOne, castStr, hfu, isEmail, hv,
      lengthLe4_str, hl, User.countDocuments, bcryptHash, User.create, hh, hnex, h0, reply]

/-- A signup with a fresh, well-formed email and a string password of four code
units or fewer is answered 400 and stores nothing. -/
theorem signup_short_password (env : Env) (req : Req) (w : World) (e p : String)
    (he : req.body.get "email" = JsVal.str e) (hv : env.isEmail e = true)
    (hfresh : ∀ u ∈ w.store.users, u.email ≠ e)
    (hp : req.body.get "password" = JsVal.str p) (hlen : jsLength p ≤ 4) :
    (signup env req w).1.status = 400 ∧ (signup env req w).2.store = w.store := by
  have hfu : w.store.users.find? (fun u => u.email == e) = none := by
    rw [List.find?_eq_none]
    intro u hu
    simpa using hfresh u hu
  by_cases hc : (!truthy (req.body.get "email") || !truthy (req.body.get "password")) = true
  · simp only [signup]
    rw [catch500_if_pos hc]
    exact ⟨rfl, rfl⟩
  · rw [he, hp] at hc
    simp [signup, catch500, he, hp, hc, User.findOne, castStr, hfu, isEmail, hv,
      lengthLe4_str, hlen, reply]

/-- A signup whose password is not a string creates no user. -/
theorem signup_password_not_string (env : Env) (req : Req) (w : World)
    (hp : ∀ p, req.body.get "password" ≠ JsVal.str p) :
    (signup env req w).1.status ≠ 201 := by
  rcases signup_cases env req w with ⟨h, _⟩ | ⟨u, hok, _, _, hem, _⟩
  · exact h
  · exfalso
    revert hok
    by_cases hc : (!truthy (req.body.get "email") || !truthy (req.body.get "password")) = true
    · simp only [signup]
      rw [catch500_if_pos hc]
      simp [reply]
    have hh : bcryptHash env (req.body.get "password") req.salt = throwErr := by
      cases hpw : req.body.get "password" with
      | str p => exact absurd hpw (hp p)
      | _ => rfl
    have hl : lengthLe4 (req.body.get "password") = false := by
      cases hpw : req.body.get "password" with
      | str p => exact absurd hpw (hp p)
      | _ => rfl
    rw [hem] at hc
    cases hfu : w.store.users.find? (fun x => x.email == u.email) with
    | some u0 => simp [signup, catch500, hc, User.findOne, castStr, hem, hfu, reply]
    | none =>
      by_cases hv : env.isEmail u.email = true <;>
        simp [signup, catch500, hc, User.findOne, castStr, hfu, isEmail, hem, hv, hl,
          User.countDocuments, hh, reply]

/-- The reply of `updatePassword` to a new password of four code units or
fewer: 400, whatever the old password, and nothing is stored. -/
theorem updatePassword_short (env : Env) (req : Req) (w : World) (c : Claims) (p : String)
    (hc : req.user = some c) (hp : req.body.get "new_password" = JsVal.str p)
    (hlen : jsLength p ≤ 4) :
    (updatePassword env req w).1.status = 400 ∧ (updatePassword env req w).2.store = w.store := by
  by_cases hg : (!truthy (req.body.get "old_password") ||
      !truthy (req.body.get "new_password")) = true
  · simp [updatePassword, catch500, reqUser, hc, User.findById, hg, reply]
  · have hg2 : ¬(truthy (req.body.get "old_password") = false ∨ truthy (JsVal.str p) = false) := by
      rw [hp] at hg
      simpa using hg
    simp [updatePassword, catch500, reqUser, hc, User.findById, hp, hg2, lengthLe4_str, hlen,
      reply]

/-- What `updatePassword` does for a stored caller whose old password is a
non-empty string and whose new password is a string of five code units or
more: 401 and nothing stored when the old password does not verify against the
stored hash; otherwise 204, and the caller's document is written back with the
hash of the new password. -/
theorem updatePassword_run (env : Env) (req : Req) (w : World) (c : Claims) (u : User)
    (o p : String) (hc : req.user = some c)
    (hu : w.store.users.find? (fun x => x.id == c.id) = some u)
    (ho : req.body.get "old_password" = JsVal.str o) (hone : o ≠ "")
    (hp : req.body.get "new_password" = JsVal.str p) (hlen : 5 ≤ jsLength p) :
    updatePassword env req w =
      if env.compare o u.password = true then
        (sendStatus 204 "No Content",
          { store :=
              { w.store with
                users := w.store.users.map (fun x =>
                  if x.id == u.id then { u with password := env.hash p req.salt } else x) }
            log := w.log ++ [DbOp.query Coll.users, DbOp.update Coll.users] })
      else
        (reply "state" 401 Json.null "Unauthorized Access" Json.null,
          { w with log := w.log ++ [DbOp.query Coll.users] }) := by
  have hpne : p ≠ "" := by
    rintro rfl
    simp [jsLength] at hlen
  have hl : ¬jsLength p ≤ 4 := by omega
  have hex : ∃ x ∈ w.store.users, x.id = u.id := ⟨u, List.mem_of_find?_eq_some hu, rfl⟩
  by_cases hcmp : env.compare o u.password = true
  · simp [updatePassword, catch500, reqUser, hc, User.findById, hu, ho, hp, truthy, hone, hpne,
      lengthLe4_str, hl, bcryptCompare, hcmp, bcryptHash, User.save, hex]
  · simp [updatePassword, catch500, reqUser, hc, User.findById, hu, ho, hp, truthy, hone, hpne,
      lengthLe4_str, hl, bcryptCompare, hcmp]

/-- C14: for a signup with a fresh, well-formed email (and a hashing service
that returns a hash), the user is created, with reply 201, exactly when the
password is a string whose length is at least 5; a password of length 4 or
less is answered 400 and nothing is stored; a password of length 5 or more
stores one user, with that email and the hash of that password.
`updatePassword` puts the same bound on `new_password`: a new password of
length 4 or less is answered 400 and nothing is stored, and with a stored
caller and an old password that verifies the reply is 204 exactly when the
length is at least 5.  The length is the `length` of the string, in UTF-16
code units. -/
theorem password_minimum_length (env : Env) (req : Req) (w : World) :
    (∀ e, req.body.get "email" = JsVal.str e → e ≠ "" → env.isEmail e = true →
      (∀ u ∈ w.store.users, u.email ≠ e) → (∀ p, env.hash p req.salt ≠ "") →
      ((signup env req w).1.status = 201 ↔
        ∃ p, req.body.get "password" = JsVal.str p ∧ 5 ≤ jsLength p) ∧
      (∀ p, req.body.get "password" = JsVal.str p → jsLength p ≤ 4 →
        (signup env req w).1.status = 400 ∧ (signup env req w).2.store = w.store) ∧
      (∀ p, req.body.get "password" = JsVal.str p → 5 ≤ jsLength p →
        ∃ u, (signup env req w).2.store.users = w.store.users ++ [u] ∧ u.email = e ∧
          u.password = env.hash p req.salt)) ∧
    (∀ c p, req.user = some c → req.body.get "new_password" = JsVal.str p → jsLength p ≤ 4 →
      (updatePassword env req w).1.status = 400 ∧
      (updatePassword env req w).2.store = w.store) ∧
    (∀ c u o p, req.user = some c →
      w.store.users.find? (fun x => x.id == c.id) = some u →
      req.body.get "old_password" = JsVal.str o → o ≠ "" → env.compare o u.password = true →
      req.body.get "new_password" = JsVal.str p →
      ((updatePassword env req w).1.status = 204 ↔ 5 ≤ jsLength p)) := by
  refine ⟨fun e he hne hv hfresh hh => ⟨⟨fun h201 => ?_, fun ⟨p, hp, hlen⟩ => ?_⟩,
    fun p hp hlen => signup_short_password env req w e p he hv hfresh hp hlen,
    fun p hp hlen => ?_⟩,
    fun c p hc hp hlen => updatePassword_short env req w c p hc hp hlen,
    fun c u o p hc hu ho hone hcmp hp => ⟨fun h204 => ?_, fun hlen => ?_⟩⟩
  · by_cases hstr : ∃ p, req.body.get "password" = JsVal.str p
    · obtain ⟨p, hp⟩ := hstr
      refine ⟨p, hp, ?_⟩
      by_contra hlen
      have h400 := (signup_short_password env req w e p he hv hfresh hp (by omega)).1
      rw [h400] at h201
      exact absurd h201 (by decide)
    · exact absurd h201
        (signup_password_not_string env req w (fun p hp => hstr ⟨p, hp⟩))
  · exact (signup_created env req w e p he hne hv hfresh hp hlen (hh p)).1
  · refine ⟨_, by rw [(signup_created env req w e p he hne hv hfresh hp hlen (hh p)).2], rfl, rfl⟩
  · by_contra hlen
    have h400 := (updatePassword_short env req w c p hc hp (by omega)).1
    rw [h400] at h204
    exact absurd h204 (by decide)
  · rw [updatePassword_run env req w c u o p hc hu ho hone hp hlen, if_pos hcmp]
    rfl

theorem hash_ne_empty (p : String) (n : Nat) : sampleEnv.hash p n ≠ "" := by
  intro h
  have h1 := congrArg String.length h
  simp only [sampleEnv, String.length_append] at h1
  have h2 : "hash:".length = 5 := by decide
  have h3 : "".length = 0 := rfl
  omega

theorem password_minimum_length_witness :
    (signup sampleEnv signupReq emptyWorld).1.status = 201 ∧
    (signup sampleEnv shortPasswordReq emptyWorld).1.status = 400 ∧
    (signup sampleEnv shortPasswordReq emptyWorld).2.store = emptyWorld.store :=
  ⟨((password_minimum_length sampleEnv signupReq emptyWorld).1 "a@x.com" rfl (by decide)
      (by decide) (by decide) (fun p => hash_ne_empty p _)).1.mpr ⟨"abcd1", rfl, by decide⟩,
    ((password_minimum_length sampleEnv shortPasswordReq emptyWorld).1 "a@x.com" rfl (by decide)
      (by decide) (by decide) (fun p => hash_ne_empty p _)).2.1 "abcd" rfl (by decide)⟩

/-! ## Changing the password -/

/-- What `updatePassword` does for a stored caller: when the old password is a
non-empty string that verifies against the stored hash and the new password is
a string of five code units or more, it replies 204 and writes the caller's
document back with the hash of the new password; in every other case it
replies something else and leaves the store as it was. -/
theorem updatePassword_cases (env : Env) (req : Req) (w : World) (c : Claims) (u : User)
    (hc : req.user = some c) (hu : w.store.users.find? (fun x => x.id == c.id) = some u) :
    (∃ o p, req.body.get "old_password" = JsVal.str o ∧ o ≠ "" ∧
        env.compare o u.password = true ∧
        req.body.get "new_password" = JsVal.str p ∧ 5 ≤ jsLength p ∧
        (updatePassword env req w).1.status = 204 ∧
        (updatePassword env req w).2.store =
          { w.store with
            users := w.store.users.map (fun x =>
              if x.id == u.id then { u with password := env.hash p req.salt } else x) }) ∨
    ((¬∃ o p, req.body.get "old_password" = JsVal.str o ∧ o ≠ "" ∧
        env.compare o u.password = true ∧
        req.body.get "new_password" = JsVal.str p ∧ 5 ≤ jsLength p) ∧
      (updatePassword env req w).1.status ≠ 204 ∧
      (updatePassword env req w).2.store = w.store) := by
  by_cases hcond : ∃ o p, req.body.get "old_password" = JsVal.str o ∧ o ≠ "" ∧
      env.compare o u.password = true ∧
      req.body.get "new_password" = JsVal.str p ∧ 5 ≤ jsLength p
  · left
    obtain ⟨o, p, ho, hone, hcmp, hp, hlen⟩ := hcond
    refine ⟨o, p, ho, hone, hcmp, hp, hlen, ?_⟩
    rw [updatePassword_run env req w c u o p hc hu ho hone hp hlen, if_pos hcmp]
    exact ⟨rfl, rfl⟩
  · right
    refine ⟨hcond, ?_⟩
    by_cases hg : (truthy (req.body.get "old_password") = false ∨
        truthy (req.body.get "new_password") = false)
    · simp [updatePassword, catch500, reqUser, hc, User.findById, hg, reply]
    by_cases hl : lengthLe4 (req.body.get "new_password") = true
    · simp [updatePassword, catch500, reqUser, hc, User.findById, hg, hl, reply]
    cases ho : req.body.get "old_password" with
    | str o =>
      rw [ho] at hg
      by_cases hcmp : env.compare o u.password = true
      · cases hp : req.body.get "new_password" with
        | str p =>
          exfalso
          apply hcond
          rw [hp] at hl hg
          refine ⟨o, p, ho, ?_, hcmp, hp, ?_⟩
          · rintro rfl
            simp [truthy] at hg
          · have : ¬jsLength p ≤ 4 := by simpa [lengthLe4_str] using hl
            omega
        | _ =>
          rw [hp] at hg hl
          simp [updatePassword, catch500, reqUser, hc, User.findById, hu, ho, hp, hg, hl,
            bcryptCompare, hcmp, bcryptHash, reply]
      · simp [updatePassword, catch500, reqUser, hc, User.findById, hu, ho, hg, hl,
          bcryptCompare, hcmp, reply]
    | _ =>
      rw [ho] at hg
      simp [updatePassword, catch500, reqUser, hc, User.findById, hu, ho, hg, hl,
        bcryptCompare, reply]

/-- C15, as the code has it: for a stored caller, `updatePassword` replies 204
exactly when `old_password` is a non-empty string that verifies against the
stored hash and `new_password` is a string of length at least 5, and in every
other case it leaves the store as it was; when `old_password` is a non-empty
string that does not verify and `new_password` meets the minimum length, the
reply is 401; on success the caller's document is written back with the hash
of `new_password` in place of the old hash and nothing else changed (a hash
that verifies `new_password` when the hashing service verifies its own
hashes), and every user with another id is still stored as it was. -/
theorem updatePassword_guarded_rewrite (env : Env) (req : Req) (w : World) (c : Claims)
    (u : User) (hc : req.user = some c)
    (hu : w.store.users.find? (fun x => x.id == c.id) = some u) :
    ((updatePassword env req w).1.status = 204 ↔
      ∃ o p, req.body.get "old_password" = JsVal.str o ∧ o ≠ "" ∧
        env.compare o u.password = true ∧
        req.body.get "new_password" = JsVal.str p ∧ 5 ≤ jsLength p) ∧
    ((updatePassword env req w).1.status ≠ 204 → (updatePassword env req w).2.store = w.store) ∧
    (∀ o p, req.body.get "old_password" = JsVal.str o → o ≠ "" →
      env.compare o u.password = false →
      req.body.get "new_password" = JsVal.str p → 5 ≤ jsLength p →
      (updatePassword env req w).1.status = 401 ∧
      (updatePassword env req w).2.store = w.store) ∧
    (∀ p, req.body.get "new_password" = JsVal.str p →
      (updatePassword env req w).1.status = 204 →
      (updatePassword env req w).2.store =
        { w.store with
          users := w.store.users.map (fun x =>
            if x.id == u.id then { u with password := env.hash p req.salt } else x) } ∧
      (∀ v ∈ (updatePassword env req w).2.store.users, v.id = u.id →
        v = { u with password := env.hash p req.salt }) ∧
      (env.compare p (env.hash p req.salt) = true →
        ∀ v ∈ (updatePassword env req w).2.store.users, v.id = u.id →
          env.compare p v.password = true) ∧
      (∀ x ∈ w.store.users, x.id ≠ u.id → x ∈ (updatePassword env req w).2.store.users)) := by
  have hcases := updatePassword_cases env req w c u hc hu
  refine ⟨⟨fun h204 => ?_, fun hcond => ?_⟩, fun hne => ?_, fun o p ho hone hcmp hp hlen => ?_,
    fun p hp h204 => ?_⟩
  · rcases hcases with ⟨o, p, ho, hone, hcmp, hp, hlen, _, _⟩ | ⟨_, hne, _⟩
    · exact ⟨o, p, ho, hone, hcmp, hp, hlen⟩
    · exact absurd h204 hne
  · rcases hcases with ⟨_, _, _, _, _, _, _, h204, _⟩ | ⟨hno, _, _⟩
    · exact h204
    · exact absurd hcond hno
  · rcases hcases with ⟨_, _, _, _, _, _, _, h204, _⟩ | ⟨_, _, hst⟩
    · exact absurd h204 hne
    · exact hst
  · rw [updatePassword_run env req w c u o p hc hu ho hone hp hlen]
    have : ¬env.compare o u.password = true := by rw [hcmp]; exact Bool.false_ne_true
    rw [if_neg this]
    exact ⟨rfl, rfl⟩
  · rcases hcases with ⟨o, p1, _, _, _, hp1, _, _, hst⟩ | ⟨_, hne, _⟩
    swap
    · exact absurd h204 hne
    have hpp : p1 = p := JsVal.str.inj (hp1.symm.trans hp)
    subst hpp
    have hmem : ∀ v ∈ (updatePassword env req w).2.store.users, v.id = u.id →
        v = { u with password := env.hash p1 req.salt } := by
      intro v hv hvid
      rw [hst] at hv
      obtain ⟨x, _, rfl⟩ := List.mem_map.mp hv
      by_cases hx : x.id = u.id
      · have : (x.id == u.id) = true := by simpa using hx
        simp only [this, if_true]
      · have : (x.id == u.id) = false := by simpa using hx
        simp only [this, Bool.false_eq_true, if_false] at hvid
        exact absurd hvid hx
    refine ⟨hst, hmem, fun hver v hv hvid => ?_, fun x hx hne => ?_⟩
    · rw [hmem v hv hvid]
      exact hver
    · rw [hst]
      refine List.mem_map.mpr ⟨x, hx, ?_⟩
      have : (x.id == u.id) = false := by simpa using hne
      simp only [this, Bool.false_eq_true, if_false]

theorem updatePassword_guarded_rewrite_witness :
    (updatePassword sampleEnv changePasswordReq cascadeWorld).1.status = 204 ∧
    (updatePassword sampleEnv changePasswordReq cascadeWorld).2.store.users.map User.password =
      ["hash:abcde", "hash:abcd2"] :=
  ⟨((updatePassword_guarded_rewrite sampleEnv changePasswordReq cascadeWorld
      (sampleClaims 2 "Admin")
      { id := 2, email := "a@x.com", password := "hash:abcd1", role := "Admin",
        favorites := [1, 3], createdAt := 0 } rfl (by decide)).1).mpr
      ⟨"abcd1", "abcde", rfl, by decide, by decide, rfl, by decide⟩,
    by decide⟩

/-- C15 as stated fails: the old password of the request does not verify
against the hash stored for the caller, and the new password has three
characters; `updatePassword` replies 400, not 401. -/
theorem updatePassword_short_before_401 :
    (cascadeWorld.store.users.find? (fun x => x.id == 2)).map User.password =
      some "hash:abcd1" ∧
    sampleEnv.compare "wrong" "hash:abcd1" = false ∧
    (updatePassword sampleEnv wrongOldShortNewReq cascadeWorld).1 =
      reply "state" 400 Json.null "Password length can't be less than 4" Json.null ∧
    (updatePassword sampleEnv wrongOldShortNewReq cascadeWorld).2.store = cascadeWorld.store := by
  decide

/-! ## Duplicates of a unique field -/

/-- C16 fails on the code: `signup` and `addUser` look the email up and reply
409 when it is stored, but `addArtist` and `addAlbum` have no such lookup: with
a name that is already stored the unique index refuses the insert, the
controller catches the error, and the reply is 500.  Nothing is stored in
either case. -/
theorem duplicate_name_not_409 :
    (signup sampleEnv signupReq setupWorld).1.status = 409 ∧
    (addUser sampleEnv duplicateUserReq setupWorld).1.status = 409 ∧
    (∃ a ∈ setupWorld.store.artists, JsVal.str a.name = addArtistReq.body.get "name") ∧
    (addArtist sampleEnv addArtistReq setupWorld).1 =
      reply "state" 500 Json.null "Internal server error while creating artist" Json.error ∧
    (addArtist sampleEnv addArtistReq setupWorld).2.store = setupWorld.store ∧
    (∃ a ∈ cascadeWorld.store.albums, JsVal.str a.name = duplicateAlbumReq.body.get "name") ∧
    (addAlbum sampleEnv duplicateAlbumReq cascadeWorld).1 =
      reply "state" 500 Json.null "Internal server error while creating album" Json.error ∧
    (addAlbum sampleEnv duplicateAlbumReq cascadeWorld).2.store = cascadeWorld.store := by
  decide

/-! ## Referential integrity -/

/-- Calls that leave the albums alone, do not update or delete artists and do
not insert or update tracks keep referential integrity. -/
theorem refIntegrity_of_allowed {ops : List DbOp} {s t : Store} (h : Allowed ops s t)
    (hsafe : ∀ op ∈ [DbOp.update Coll.artists, DbOp.delete Coll.artists,
      DbOp.insert Coll.albums, DbOp.update Coll.albums, DbOp.delete Coll.albums,
      DbOp.insert Coll.tracks, DbOp.update Coll.tracks], op ∉ ops)
    (hs : RefIntegrity s) : RefIntegrity t := by
  have ha : ∀ a ∈ s.artists, a ∈ t.artists := fun a ha =>
    (h.artists.pre (hsafe _ (by simp)) (hsafe _ (by simp))).subset ha
  have hal : t.albums = s.albums :=
    collRel_eq h.albums (hsafe _ (by simp)) (hsafe _ (by simp)) (hsafe _ (by simp))
  have ht : ∀ x ∈ t.tracks, x ∈ s.tracks := fun x hx =>
    (h.tracks.sub (hsafe _ (by simp)) (hsafe _ (by simp))).subset hx
  refine ⟨fun al hal1 => ?_, fun x hx => ?_⟩
  · rw [hal] at hal1
    obtain ⟨a, ha1, hid⟩ := hs.1 al hal1
    exact ⟨a, ha a ha1, hid⟩
  · obtain ⟨⟨a, ha1, hid⟩, ⟨al, hal1, hid2⟩⟩ := hs.2 x (ht x hx)
    exact ⟨⟨a, ha a ha1, hid⟩, ⟨al, by rw [hal]; exact hal1, hid2⟩⟩

theorem refIntegrity_map_artists (s : Store) (f : Artist → Artist) (hf : ∀ a, (f a).id = a.id)
    (hs : RefIntegrity s) : RefIntegrity { s with artists := s.artists.map f } := by
  refine ⟨fun al hal => ?_, fun x hx => ?_⟩
  · obtain ⟨a, ha, hid⟩ := hs.1 al hal
    exact ⟨f a, List.mem_map_of_mem f ha, (hf a).trans hid⟩
  · obtain ⟨⟨a, ha, hid⟩, h2⟩ := hs.2 x hx
    exact ⟨⟨f a, List.mem_map_of_mem f ha, (hf a).trans hid⟩, h2⟩

theorem refIntegrity_map_albums (s : Store) (f : Album → Album) (hf : ∀ a, (f a).id = a.id)
    (hg : ∀ a, (f a).artist = a.artist) (hs : RefIntegrity s) :
    RefIntegrity { s with albums := s.albums.map f } := by
  refine ⟨fun al hal => ?_, fun x hx => ?_⟩
  · obtain ⟨al0, hal0, rfl⟩ := List.mem_map.mp hal
    rw [hg al0]
    exact hs.1 al0 hal0
  · obtain ⟨h1, ⟨al, hal, hid⟩⟩ := hs.2 x hx
    exact ⟨h1, ⟨f al, List.mem_map_of_mem f hal, (hf al).trans hid⟩⟩

theorem refIntegrity_map_tracks (s : Store) (f : Track → Track)
    (hf : ∀ t, (f t).artist = t.artist) (hg : ∀ t, (f t).album = t.album)
    (hs : RefIntegrity s) : RefIntegrity { s with tracks := s.tracks.map f } := by
  refine ⟨hs.1, fun x hx => ?_⟩
  obtain ⟨x0, hx0, rfl⟩ := List.mem_map.mp hx
  rw [hf x0, hg x0]
  exact hs.2 x0 hx0

theorem artist_findByIdAndUpdate_ref (env : Env) (i : ObjectId) (patch : Obj) :
    Keeps RefKeeps (Artist.findByIdAndUpdate env i patch) := by
  constructor
  intro w
  simp only [Artist.findByIdAndUpdate, run_bind, run_logOp, run_getStore]
  cases castPatch (castStr env) patch "name" <;>
    simp only [run_orThrow_none, run_orThrow_some]
  · exact fun h => h
  cases castPatch (castNum env) patch "grammy" <;>
    simp only [run_orThrow_none, run_orThrow_some]
  · exact fun h => h
  cases castPatch (castBool env) patch "hidden" <;>
    simp only [run_orThrow_none, run_orThrow_some]
  · exact fun h => h
  split
  · exact fun h => h
  split
  · exact fun h => h
  · exact refIntegrity_map_artists _ _ (fun a => by split <;> rfl)

theorem album_findByIdAndUpdate_ref (env : Env) (i : ObjectId) (patch : Obj) :
    Keeps RefKeeps (Album.findByIdAndUpdate env i patch) := by
  constructor
  intro w
  simp only [Album.findByIdAndUpdate, run_bind, run_logOp, run_getStore]
  cases castPatch (castStr env) patch "name" <;>
    simp only [run_orThrow_none, run_orThrow_some]
  · exact fun h => h
  cases castPatch (castNum env) patch "year" <;>
    simp only [run_orThrow_none, run_orThrow_some]
  · exact fun h => h
  cases castPatch (castBool env) patch "hidden" <;>
    simp only [run_orThrow_none, run_orThrow_some]
  · exact fun h => h
  split
  · exact fun h => h
  split
  · exact fun h => h
  · exact refIntegrity_map_albums _ _ (fun a => by split <;> rfl) (fun a => by split <;> rfl)

theorem track_findByIdAndUpdate_ref (env : Env) (i : ObjectId) (patch : Obj) :
    Keeps RefKeeps (Track.findByIdAndUpdate env i patch) := by
  constructor
  intro w
  simp only [Track.findByIdAndUpdate, run_bind, run_logOp, run_getStore]
  cases castPatch (castStr env) patch "name" <;>
    simp only [run_orThrow_none, run_orThrow_some]
  · exact fun h => h
  cases castPatch (castNum env) patch "duration" <;>
    simp only [run_orThrow_none, run_orThrow_some]
  · exact fun h => h
  cases castPatch (castBool env) patch "hidden" <;>
    simp only [run_orThrow_none, run_orThrow_some]
  · exact fun h => h
  split
  · exact fun h => h
  · exact refIntegrity_map_tracks _ _ (fun a => by split <;> rfl) (fun a => by split <;> rfl)

/-- The three update controllers keep referential integrity: a patch cannot
name an id or a reference. -/
theorem update_refIntegrity (env : Env) (req : Req) (w : World) (hs : RefIntegrity w.store) :
    RefIntegrity (updateArtist env req w).2.store ∧
    RefIntegrity (updateAlbum env req w).2.store ∧
    RefIntegrity (updateTrack env req w).2.store := by
  refine ⟨?_, ?_, ?_⟩ <;>
  simp only [updateArtist, updateAlbum, updateTrack] <;>
  refine @keeps_catch500 RefKeeps _ _ ?_ w hs <;>
  repeat' (first
    | with_reducible exact keeps_pure _
    | with_reducible exact castId_keeps _ _
    | with_reducible exact artist_findById_keeps _
    | with_reducible exact album_findById_keeps _
    | with_reducible exact track_findById_keeps _
    | with_reducible exact artist_findByIdAndUpdate_ref _ _ _
    | with_reducible exact album_findByIdAndUpdate_ref _ _ _
    | with_reducible exact track_findByIdAndUpdate_ref _ _ _
    | with_reducible apply keeps_bind
    | intro _
    | split)

/-- What `Album.create` does to the store: nothing, or one album appended whose
artist is the id the given value casts to. -/
theorem album_create_store (env : Env) (n y ar h : JsVal) (now : Nat) (w : World) :
    (Album.create env n y ar h now w).2.store = w.store ∨
    ∃ al : Album, env.castObjectId ar = some al.artist ∧
      (Album.create env n y ar h now w).2.store =
        { w.store with albums := w.store.albums ++ [al], nextId := w.store.nextId + 1 } := by
  simp only [Album.create, run_bind, run_logOp, run_getStore]
  cases castStr env n <;> simp only [run_orThrow_none, run_orThrow_some]
  · exact Or.inl trivial
  cases castNum env y <;> simp only [run_orThrow_none, run_orThrow_some]
  · exact Or.inl trivial
  cases har : env.castObjectId ar <;> simp only [run_orThrow_none, run_orThrow_some]
  · exact Or.inl trivial
  cases castBool env h <;> simp only [run_orThrow_none, run_orThrow_some]
  · exact Or.inl trivial
  split
  · exact Or.inl rfl
  split
  · exact Or.inl rfl
  · exact Or.inr ⟨_, rfl, rfl⟩

/-- What `Track.create` does to the store: nothing, or one track appended whose
artist and album are the ids the given values cast to. -/
theorem track_create_store (env : Env) (n d ar al h : JsVal) (now : Nat) (w : World) :
    (Track.create env n d ar al h now w).2.store = w.store ∨
    ∃ t : Track, env.castObjectId ar = some t.artist ∧ env.castObjectId al = some t.album ∧
      (Track.create env n d ar al h now w).2.store =
        { w.store with tracks := w.store.tracks ++ [t], nextId := w.store.nextId + 1 } := by
  simp only [Track.create, run_bind, run_logOp, run_getStore]
  cases castStr env n <;> simp only [run_orThrow_none, run_orThrow_some]
  · exact Or.inl trivial
  cases castNum env d <;> simp only [run_orThrow_none, run_orThrow_some]
  · exact Or.inl trivial
  cases har : env.castObjectId ar <;> simp only [run_orThrow_none, run_orThrow_some]
  · exact Or.inl trivial
  cases hal : env.castObjectId al <;> simp only [run_orThrow_none, run_orThrow_some]
  · exact Or.inl trivial
  cases castBool env h <;> simp only [run_orThrow_none, run_orThrow_some]
  · exact Or.inl trivial
  split
  · exact Or.inl rfl
  · exact Or.inr ⟨_, rfl, rfl, rfl⟩

/-- The store `addAlbum` leaves: the one it was given, or the one `Album.create`
leaves when called after the artist was found. -/
theorem addAlbum_store (env : Env) (req : Req) (w : World) :
    (addAlbum env req w).2.store = w.store ∨
    ∃ (i : ObjectId) (a : Artist) (w1 : World), w1.store = w.store ∧
      env.castObjectId (req.body.get "artist_id") = some i ∧ a ∈ w.store.artists ∧ a.id = i ∧
      (addAlbum env req w).2.store =
        (Album.create env (req.body.get "name") (req.body.get "year")
          (req.body.get "artist_id") (req.body.get "hidden") req.nowMs w1).2.store := by
  by_cases hc : (!truthy (req.body.get "artist_id") || !truthy (req.body.get "name") ||
      !truthy (req.body.get "year") || !truthy (req.body.get "hidden")) = true
  · left
    simp only [addAlbum]
    rw [catch500_if_pos hc]
  cases hid : env.castObjectId (req.body.get "artist_id") with
  | none =>
    left
    simp [addAlbum, catch500, hc, castId, hid]
  | some i =>
    cases hf : w.store.artists.find? (fun a => a.id == i) with
    | none =>
      left
      simp [addAlbum, catch500, hc, castId, hid, Artist.findById, hf]
    | some a =>
      right
      refine ⟨i, a, { store := w.store, log := w.log ++ [DbOp.query Coll.artists] }, rfl, rfl,
        List.mem_of_find?_eq_some hf, by simpa using List.find?_some hf, ?_⟩
      simp only [addAlbum, catch500, if_neg hc, run_bind, castId, hid, run_orThrow_some,
        Artist.findById, run_logOp, run_getStore, run_pure, hf, Option.isNone_some,
        Bool.false_eq_true, if_false]
      rcases Album.create env (req.body.get "name") (req.body.get "year")
        (req.body.get "artist_id") (req.body.get "hidden") req.nowMs
        { store := w.store, log := w.log ++ [DbOp.query Coll.artists] } with ⟨r, w2⟩
      cases r <;> rfl

theorem addAlbum_refIntegrity (env : Env) (req : Req) (w : World) (hs : RefIntegrity w.store) :
    RefIntegrity (addAlbum env req w).2.store := by
  rcases addAlbum_store env req w with h | ⟨i, a, w1, hw1, hid, ha, hai, h⟩
  · rw [h]; exact hs
  · rw [h]
    rcases album_create_store env (req.body.get "name") (req.body.get "year")
      (req.body.get "artist_id") (req.body.get "hidden") req.nowMs w1 with h1 | ⟨al, hal, h1⟩
    · rw [h1, hw1]; exact hs
    · rw [h1, hw1]
      have hart : al.artist = i := Option.some.inj (hal.symm.trans hid)
      refine ⟨fun x hx => ?_, fun t ht => ?_⟩
      · rcases List.mem_append.mp hx with hx | hx
        · exact hs.1 x hx
        · rw [List.mem_singleton.mp hx]
          exact ⟨a, ha, hai.trans hart.symm⟩
      · obtain ⟨h2, ⟨al0, hal0, hid0⟩⟩ := hs.2 t ht
        exact ⟨h2, ⟨al0, List.mem_append_left _ hal0, hid0⟩⟩

/-- The store `addTrack` leaves: the one it was given, or the one `Track.create`
leaves when called after the artist and the album were found. -/
theorem addTrack_store (env : Env) (req : Req) (w : World) :
    (addTrack env req w).2.store = w.store ∨
    ∃ (i j : ObjectId) (a : Artist) (al : Album) (w1 : World), w1.store = w.store ∧
      env.castObjectId (req.body.get "artist_id") = some i ∧ a ∈ w.store.artists ∧ a.id = i ∧
      env.castObjectId (req.body.get "album_id") = some j ∧ al ∈ w.store.albums ∧ al.id = j ∧
      (addTrack env req w).2.store =
        (Track.create env (req.body.get "name") (req.body.get "duration")
          (req.body.get "artist_id") (req.body.get "album_id") (req.body.get "hidden")
          req.nowMs w1).2.store := by
  by_cases hc : (!truthy (req.body.get "artist_id") || !truthy (req.body.get "album_id") ||
      !truthy (req.body.get "name") || !truthy (req.body.get "duration") ||
      !truthy (req.body.get "hidden") ||
      (truthy (req.body.get "duration") && isNaN env (req.body.get "duration"))) = true
  · left
    simp only [addTrack]
    rw [catch500_if_pos hc]
  cases hid : env.castObjectId (req.body.get "artist_id") with
  | none =>
    left
    simp [addTrack, catch500, hc, castId, hid]
  | some i =>
    cases hf : w.store.artists.find? (fun a => a.id == i) with
    | none =>
      left
      simp [addTrack, catch500, hc, castId, hid, Artist.findById, hf]
    | some a =>
      cases hjd : env.castObjectId (req.body.get "album_id") with
      | none =>
        left
        simp [addTrack, catch500, hc, castId, hid, Artist.findById, hf, hjd]
      | some j =>
        cases hg : w.store.albums.find? (fun a => a.id == j) with
        | none =>
          left
          simp [addTrack, catch500, hc, castId, hid, Artist.findById, hf, hjd, Album.findById, hg]
        | some al =>
          right
          refine ⟨i, j, a, al,
            { store := w.store,
              log := w.log ++ [DbOp.query Coll.artists] ++ [DbOp.query Coll.albums] },
            rfl, rfl, List.mem_of_find?_eq_some hf, by simpa using List.find?_some hf, rfl,
            List.mem_of_find?_eq_some hg, by simpa using List.find?_some hg, ?_⟩
          simp only [addTrack, catch500, if_neg hc, run_bind, castId, hid, hjd, run_orThrow_some,
            Artist.findById, Album.findById, run_logOp, run_getStore, run_pure, hf, hg,
            Option.isNone_some, Bool.false_eq_true, if_false]
          rcases Track.create env (req.body.get "name") (req.body.get "duration")
            (req.body.get "artist_id") (req.body.get "album_id") (req.body.get "hidden")
            req.nowMs
            { store := w.store,
              log := w.log ++ [DbOp.query Coll.artists] ++ [DbOp.query Coll.albums] }
            with ⟨r, w2⟩
          cases r <;> rfl

theorem addTrack_refIntegrity (env : Env) (req : Req) (w : World) (hs : RefIntegrity w.store) :
    RefIntegrity (addTrack env req w).2.store := by
  rcases addTrack_store env req w with h | ⟨i, j, a, al, w1, hw1, hid, ha, hai, hjd, hal, halj, h⟩
  · rw [h]; exact hs
  · rw [h]
    rcases track_create_store env (req.body.get "name") (req.body.get "duration")
      (req.body.get "artist_id") (req.body.get "album_id") (req.body.get "hidden") req.nowMs w1
      with h1 | ⟨t, hta, htal, h1⟩
    · rw [h1, hw1]; exact hs
    · rw [h1, hw1]
      have hart : t.artist = i := Option.some.inj (hta.symm.trans hid)
      have halb : t.album = j := Option.some.inj (htal.symm.trans hjd)
      refine ⟨hs.1, fun x hx => ?_⟩
      rcases List.mem_append.mp hx with hx | hx
      · exact hs.2 x hx
      · rw [List.mem_singleton.mp hx]
        exact ⟨⟨a, ha, hai.trans hart.symm⟩, ⟨al, hal, halj.trans halb.symm⟩⟩

/-- Every controller other than `deleteArtist` and `deleteAlbum` keeps
referential integrity. -/
theorem controller_refIntegrity (env : Env) (ep : Endpoint) (req : Req) (w : World)
    (h1 : ep ≠ Endpoint.deleteArtist) (h2 : ep ≠ Endpoint.deleteAlbum)
    (hs : RefIntegrity w.store) : RefIntegrity (controller env ep req w).2.store := by
  cases ep <;>
  first
    | exact absurd rfl h1
    | exact absurd rfl h2
    | exact (update_refIntegrity env req w hs).1
    | exact (update_refIntegrity env req w hs).2.1
    | exact (update_refIntegrity env req w hs).2.2
    | exact addAlbum_refIntegrity env req w hs
    | exact addTrack_refIntegrity env req w hs
    | (refine refIntegrity_of_allowed (controller_allowed env _ req w) ?_ hs; decide)

/-- Events that do not go through `deleteArtist` or `deleteAlbum` keep
referential integrity. -/
theorem step_refIntegrity (env : Env) (s : Store) (e : Event)
    (h1 : e.endpoint? ≠ some Endpoint.deleteArtist) (h2 : e.endpoint? ≠ some Endpoint.deleteAlbum)
    (hs : RefIntegrity s) : RefIntegrity (step env s e) := by
  cases e with
  | request ep req =>
    have e1 : ep ≠ Endpoint.deleteArtist := fun h => h1 (by rw [h]; rfl)
    have e2 : ep ≠ Endpoint.deleteAlbum := fun h => h2 (by rw [h]; rfl)
    rcases runChain_cases env (controller env ep) (middlewares ep) { req with user := none }
      { store := s, log := [] } with ⟨_, h⟩ | ⟨req1, w1, hw1, _, _, h4⟩
    · simp only [step, handle]
      rw [h]
      exact hs
    · simp only [step, handle, h4]
      exact controller_refIntegrity env ep req1 w1 e1 e2 (by rw [hw1]; exact hs)
  | call ep req =>
    have e1 : ep ≠ Endpoint.deleteArtist := fun h => h1 (by rw [h]; rfl)
    have e2 : ep ≠ Endpoint.deleteAlbum := fun h => h2 (by rw [h]; rfl)
    exact controller_refIntegrity env ep req { store := s, log := [] } e1 e2 hs
  | sweep nowMs => exact hs

theorem run_refIntegrity (env : Env) (events : List Event) :
    ∀ s : Store, (∀ e ∈ events, e.endpoint? ≠ some Endpoint.deleteArtist ∧
      e.endpoint? ≠ some Endpoint.deleteAlbum) → RefIntegrity s →
      RefIntegrity (run env s events) := by
  induction events with
  | nil => intro s _ hs; exact hs
  | cons e es ih =>
    intro s hall hs
    have he := hall e (List.mem_cons_self _ _)
    exact ih (step env s e) (fun x hx => hall x (List.mem_cons_of_mem _ hx))
      (step_refIntegrity env s e he.1 he.2 hs)

/-- The favorite cascade leaves the artists, albums and tracks as they were. -/
theorem cascadeFavorite_entities (env : Env) (v : JsVal) (w : World) :
    (cascadeFavorite env v w).2.store.artists = w.store.artists ∧
    (cascadeFavorite env v w).2.store.albums = w.store.albums ∧
    (cascadeFavorite env v w).2.store.tracks = w.store.tracks := by
  have h : Keeps (Allowed [DbOp.delete Coll.favorites, DbOp.update Coll.users])
      (cascadeFavorite env v) := cascadeFavorite_keeps (by decide) (by decide) env v
  have ha := h.run w
  exact ⟨collRel_eq ha.artists (by decide) (by decide) (by decide),
    collRel_eq ha.albums (by decide) (by decide) (by decide),
    collRel_eq ha.tracks (by decide) (by decide) (by decide)⟩

/-- What `deleteArtist` does to the artists, albums and tracks: nothing, or it
removes the artists with the id the parameter casts to. -/
theorem deleteArtist_entities (env : Env) (req : Req) (w : World) :
    (deleteArtist env req w).2.store.albums = w.store.albums ∧
    (deleteArtist env req w).2.store.tracks = w.store.tracks ∧
    ((deleteArtist env req w).2.store.artists = w.store.artists ∨
      ∃ i, env.castObjectId (req.params.get "id") = some i ∧
        (deleteArtist env req w).2.store.artists =
          w.store.artists.filter (fun x => x.id != i)) := by
  have ha := controller_allowed env Endpoint.deleteArtist req w
  refine ⟨collRel_eq ha.albums (by decide) (by decide) (by decide),
    collRel_eq ha.tracks (by decide) (by decide) (by decide), ?_⟩
  by_cases hc : (!truthy (req.params.get "id")) = true
  · left
    simp only [deleteArtist]
    rw [catch500_if_pos hc]
  cases hid : env.castObjectId (req.params.get "id") with
  | none =>
    left
    simp [deleteArtist, catch500, hc, castId, hid]
  | some i =>
    cases hf : w.store.artists.find? (fun a => a.id == i) with
    | none =>
      left
      simp [deleteArtist, catch500, hc, castId, hid, Artist.findById, hf]
    | some a =>
      have hcas := cascadeFavorite_entities env (req.params.get "id")
        { store := w.store, log := w.log ++ [DbOp.query Coll.artists] }
      simp only [deleteArtist, catch500, if_neg hc, run_bind, castId, hid, run_orThrow_some,
        Artist.findById, run_logOp, run_getStore, run_pure, hf]
      rcases hcf : cascadeFavorite env (req.params.get "id")
        { store := w.store, log := w.log ++ [DbOp.query Coll.artists] } with ⟨r, w2⟩
      rw [hcf] at hcas
      have h1 : w2.store.artists = w.store.artists := hcas.1
      cases r with
      | thrown => exact Or.inl h1
      | ok u =>
        right
        refine ⟨i, rfl, ?_⟩
        simp only [Artist.findByIdAndDelete, run_bind, run_logOp, run_getStore, run_setStore,
          run_pure]
        rw [h1]

/-- What `deleteAlbum` does to the artists, albums and tracks: nothing, or it
removes the albums with the id the parameter casts to. -/
theorem deleteAlbum_entities (env : Env) (req : Req) (w : World) :
    (deleteAlbum env req w).2.store.artists = w.store.artists ∧
    (deleteAlbum env req w).2.store.tracks = w.store.tracks ∧
    ((deleteAlbum env req w).2.store.albums = w.store.albums ∨
      ∃ i, env.castObjectId (req.params.get "id") = some i ∧
        (deleteAlbum env req w).2.store.albums =
          w.store.albums.filter (fun x => x.id != i)) := by
  have ha := controller_allowed env Endpoint.deleteAlbum req w
  refine ⟨collRel_eq ha.artists (by decide) (by decide) (by decide),
    collRel_eq ha.tracks (by decide) (by decide) (by decide), ?_⟩
  by_cases hc : (!truthy (req.params.get "id")) = true
  · left
    simp only [deleteAlbum]
    rw [catch500_if_pos hc]
  cases hid : env.castObjectId (req.params.get "id") with
  | none =>
    left
    simp [deleteAlbum, catch500, hc, castId, hid]
  | some i =>
    cases hf : w.store.albums.find? (fun a => a.id == i) with
    | none =>
      left
      simp [deleteAlbum, catch500, hc, castId, hid, Album.findById, hf]
    | some a =>
      have hcas := cascadeFavorite_entities env (req.params.get "id")
        { store := w.store, log := w.log ++ [DbOp.query Coll.albums] }
      simp only [deleteAlbum, catch500, if_neg hc, run_bind, castId, hid, run_orThrow_some,
        Album.findById, run_logOp, run_getStore, run_pure, hf]
      rcases hcf : cascadeFavorite env (req.params.get "id")
        { store := w.store, log := w.log ++ [DbOp.query Coll.albums] } with ⟨r, w2⟩
      rw [hcf] at hcas
      have h1 : w2.store.albums = w.store.albums := hcas.2.1
      cases r with
      | thrown => exact Or.inl h1
      | ok u =>
        right
        refine ⟨i, rfl, ?_⟩
        simp only [Album.findByIdAndDelete, run_bind, run_logOp, run_getStore, run_setStore,
          run_pure]
        rw [h1]

/-- `deleteArtist` keeps referential integrity when no album and no track
refers to the artist it addresses. -/
theorem deleteArtist_refIntegrity (env : Env) (req : Req) (w : World)
    (hs : RefIntegrity w.store)
    (hno : ∀ i, env.castObjectId (req.params.get "id") = some i →
      (∀ al ∈ w.store.albums, al.artist ≠ i) ∧ (∀ t ∈ w.store.tracks, t.artist ≠ i)) :
    RefIntegrity (deleteArtist env req w).2.store := by
  obtain ⟨hal, htr, hart⟩ := deleteArtist_entities env req w
  have hkeep : ∀ a ∈ w.store.artists,
      ((∃ al ∈ w.store.albums, al.artist = a.id) ∨ ∃ t ∈ w.store.tracks, t.artist = a.id) →
      a ∈ (deleteArtist env req w).2.store.artists := by
    intro a ha href
    rcases hart with h | ⟨i, hid, h⟩
    · rw [h]; exact ha
    · rw [h]
      refine List.mem_filter.mpr ⟨ha, ?_⟩
      have hne : a.id ≠ i := by
        rcases href with ⟨al, hal1, e⟩ | ⟨t, ht1, e⟩
        · exact fun h0 => (hno i hid).1 al hal1 (e.trans h0)
        · exact fun h0 => (hno i hid).2 t ht1 (e.trans h0)
      simpa using hne
  refine ⟨fun al hal1 => ?_, fun t ht1 => ?_⟩
  · rw [hal] at hal1
    obtain ⟨a, ha, e⟩ := hs.1 al hal1
    exact ⟨a, hkeep a ha (Or.inl ⟨al, hal1, e.symm⟩), e⟩
  · rw [htr] at ht1
    obtain ⟨⟨a, ha, e⟩, ⟨al, hal1, e2⟩⟩ := hs.2 t ht1
    exact ⟨⟨a, hkeep a ha (Or.inr ⟨t, ht1, e.symm⟩), e⟩, ⟨al, by rw [hal]; exact hal1, e2⟩⟩

/-- `deleteAlbum` keeps referential integrity when no track refers to the album
it addresses. -/
theorem deleteAlbum_refIntegrity (env : Env) (req : Req) (w : World)
    (hs : RefIntegrity w.store)
    (hno : ∀ i, env.castObjectId (req.params.get "id") = some i →
      ∀ t ∈ w.store.tracks, t.album ≠ i) :
    RefIntegrity (deleteAlbum env req w).2.store := by
  obtain ⟨hart, htr, halb⟩ := deleteAlbum_entities env req w
  have hsub : ∀ al ∈ (deleteAlbum env req w).2.store.albums, al ∈ w.store.albums := by
    intro al hal1
    rcases halb with h | ⟨i, _, h⟩
    · rw [h] at hal1; exact hal1
    · rw [h] at hal1; exact (List.mem_filter.mp hal1).1
  have hkeep : ∀ al ∈ w.store.albums, (∃ t ∈ w.store.tracks, t.album = al.id) →
      al ∈ (deleteAlbum env req w).2.store.albums := by
    intro al hal1 href
    rcases halb with h | ⟨i, hid, h⟩
    · rw [h]; exact hal1
    · rw [h]
      refine List.mem_filter.mpr ⟨hal1, ?_⟩
      obtain ⟨t, ht1, e⟩ := href
      have hne : al.id ≠ i := fun h0 => hno i hid t ht1 (e.trans h0)
      simpa using hne
  refine ⟨fun al hal1 => ?_, fun t ht1 => ?_⟩
  · obtain ⟨a, ha, e⟩ := hs.1 al (hsub al hal1)
    exact ⟨a, by rw [hart]; exact ha, e⟩
  · rw [htr] at ht1
    obtain ⟨⟨a, ha, e⟩, ⟨al, hal1, e2⟩⟩ := hs.2 t ht1
    exact ⟨⟨a, by rw [hart]; exact ha, e⟩, ⟨al, hkeep al hal1 ⟨t, ht1, e2.symm⟩, e2⟩⟩

/-- C17, as the code has it: every controller other than `deleteArtist` and
`deleteAlbum` keeps referential integrity (the artist of every album and the
artist and album of every track are stored), and so does every sequence of
events, from the empty store, in which no request or call goes through those
two controllers; `deleteArtist` keeps it when no album and no track refers to
the artist it addresses, and `deleteAlbum` when no track refers to the album
it addresses. -/
theorem refIntegrity_without_entity_delete (env : Env) :
    (∀ ep req w, ep ≠ Endpoint.deleteArtist → ep ≠ Endpoint.deleteAlbum →
      RefIntegrity w.store → RefIntegrity (controller env ep req w).2.store) ∧
    (∀ events : List Event,
      (∀ e ∈ events, e.endpoint? ≠ some Endpoint.deleteArtist ∧
        e.endpoint? ≠ some Endpoint.deleteAlbum) →
      RefIntegrity (run env Store.empty events)) ∧
    (∀ req w, RefIntegrity w.store →
      (∀ i, env.castObjectId (req.params.get "id") = some i →
        (∀ al ∈ w.store.albums, al.artist ≠ i) ∧ (∀ t ∈ w.store.tracks, t.artist ≠ i)) →
      RefIntegrity (deleteArtist env req w).2.store) ∧
    (∀ req w, RefIntegrity w.store →
      (∀ i, env.castObjectId (req.params.get "id") = some i →
        ∀ t ∈ w.store.tracks, t.album ≠ i) →
      RefIntegrity (deleteAlbum env req w).2.store) :=
  ⟨fun ep req w h1 h2 hs => controller_refIntegrity env ep req w h1 h2 hs,
    fun events hall => run_refIntegrity env events Store.empty hall (by decide),
    fun req w hs hno => deleteArtist_refIntegrity env req w hs hno,
    fun req w hs hno => deleteAlbum_refIntegrity env req w hs hno⟩

theorem refIntegrity_without_entity_delete_witness :
    (run sampleEnv Store.empty trackEvents).tracks.map (fun t => (t.artist, t.album)) =
      [(1, 2)] ∧
    RefIntegrity (run sampleEnv Store.empty trackEvents) :=
  ⟨by decide, (refIntegrity_without_entity_delete sampleEnv).2.1 trackEvents (by decide)⟩

/-- C17 as stated fails: after a signup and the creation of an artist, an
album of it and a track of both, all served through their routes, the store
has referential integrity; `deleteArtist` of that artist replies 200 and leaves
the album and the track with an artist that is not stored, and `deleteAlbum` of
that album replies 200 and leaves the track with an album that is not stored.
Both stores are reachable. -/
theorem delete_leaves_dangling_references :
    RefIntegrity (run sampleEnv Store.empty trackEvents) ∧
    (handle sampleEnv Endpoint.deleteArtist tokenZeroIdOneReq
      { store := run sampleEnv Store.empty trackEvents, log := [] }).response.status = 200 ∧
    ¬RefIntegrity (run sampleEnv Store.empty
      (trackEvents ++ [Event.request Endpoint.deleteArtist tokenZeroIdOneReq])) ∧
    (handle sampleEnv Endpoint.deleteAlbum tokenZeroIdTwoReq
      { store := run sampleEnv Store.empty trackEvents, log := [] }).response.status = 200 ∧
    ¬RefIntegrity (run sampleEnv Store.empty
      (trackEvents ++ [Event.request Endpoint.deleteAlbum tokenZeroIdTwoReq])) ∧
    ∃ s, Reachable sampleEnv s ∧ ¬RefIntegrity s :=
  ⟨by decide, by decide, by decide, by decide, by decide,
    ⟨_, ⟨trackEvents ++ [Event.request Endpoint.deleteArtist tokenZeroIdOneReq], rfl⟩,
      by decide⟩⟩

/-! ## The role checked is the stored one -/

/-- On a route `auth, isAdmin, controller`, a request with a token that is
present, not blacklisted and verified reaches the controller exactly when the
user the token names is stored with the role Admin. -/
theorem chain_reached_isAdmin (env : Env) (ctrl : Req → World → Response × World) (req : Req)
    (w : World) (t : String) (c : Claims) (hok : TokenOk env { req with user := none } w t c) :
    (runChain env ctrl [Middleware.auth, Middleware.isAdmin] { req with user := none } w).reached =
      match w.store.users.find? (fun u => u.id == c.id) with
      | none => false
      | some u => u.role == "Admin" := by
  have ha := auth_of_tokenOk env { req with user := none } w t c hok
  cases hf : w.store.users.find? (fun u => u.id == c.id) with
  | none =>
    simp only [hf, Option.isNone_none, if_true] at ha
    simp [runChain, runMiddleware, ha]
  | some u =>
    simp only [hf, Option.isNone_some, Bool.false_eq_true, if_false] at ha
    by_cases hr : u.role = "Admin" <;>
      simp [runChain, runMiddleware, ha, isAdmin_eq, hf, hr]

/-- On a route `auth, isEditorOrAdmin, controller`, a request with a token that
is present, not blacklisted and verified reaches the controller exactly when
the user the token names is stored with the role Editor or Admin. -/
theorem chain_reached_isEditorOrAdmin (env : Env) (ctrl : Req → World → Response × World)
    (req : Req) (w : World) (t : String) (c : Claims)
    (hok : TokenOk env { req with user := none } w t c) :
    (runChain env ctrl [Middleware.auth, Middleware.isEditorOrAdmin]
        { req with user := none } w).reached =
      match w.store.users.find? (fun u => u.id == c.id) with
      | none => false
      | some u => u.role == "Editor" || u.role == "Admin" := by
  have ha := auth_of_tokenOk env { req with user := none } w t c hok
  cases hf : w.store.users.find? (fun u => u.id == c.id) with
  | none =>
    simp only [hf, Option.isNone_none, if_true] at ha
    simp [runChain, runMiddleware, ha]
  | some u =>
    simp only [hf, Option.isNone_some, Bool.false_eq_true, if_false] at ha
    by_cases hr : u.role = "Admin" <;> by_cases he : u.role = "Editor" <;>
      simp [runChain, runMiddleware, ha, isEditorOrAdmin_eq, hf, hr, he]

/-- C18: `isAdmin` and `isEditorOrAdmin` read of `req.user` its id only, and
decide by the role stored for that id.  For two requests whose verified claims
carry the same user id, whatever roles (or anything else) the claims carry,
run against the same store, each middleware gives the same outcome: both pass
the request on or both answer with the same status.  With the user stored,
`isAdmin` passes exactly when the stored role is Admin and answers 403
otherwise, `isEditorOrAdmin` passes exactly when it is Editor or Admin; so the
decision on a store is the one its stored role gives.  The same holds of whole
routes: two tokens that verify to claims with the same user id reach or miss
the controller together. -/
theorem role_decision_by_stored_role (env : Env) (w : World) :
    (∀ (req1 req2 : Req) (c1 c2 : Claims), req1.user = some c1 → req2.user = some c2 → c1.id = c2.id →
      (isAdmin req1 w).1.status? = (isAdmin req2 w).1.status? ∧
      (isEditorOrAdmin req1 w).1.status? = (isEditorOrAdmin req2 w).1.status?) ∧
    (∀ (req : Req) (c : Claims) (u : User), req.user = some c → w.store.users.find? (fun x => x.id == c.id) = some u →
      ((isAdmin req w).1 = MwResult.next req ↔ u.role = "Admin") ∧
      ((isAdmin req w).1.status? = some 403 ↔ u.role ≠ "Admin") ∧
      ((isEditorOrAdmin req w).1 = MwResult.next req ↔ (u.role = "Editor" ∨ u.role = "Admin")) ∧
      ((isEditorOrAdmin req w).1.status? = some 403 ↔
        (u.role ≠ "Editor" ∧ u.role ≠ "Admin"))) ∧
    (∀ (ctrl : Req → World → Response × World) (req1 req2 : Req) (t1 t2 : String)
        (c1 c2 : Claims),
      TokenOk env { req1 with user := none } w t1 c1 →
      TokenOk env { req2 with user := none } w t2 c2 → c1.id = c2.id →
      (runChain env ctrl [Middleware.auth, Middleware.isAdmin]
          { req1 with user := none } w).reached =
        (runChain env ctrl [Middleware.auth, Middleware.isAdmin]
          { req2 with user := none } w).reached ∧
      (runChain env ctrl [Middleware.auth, Middleware.isEditorOrAdmin]
          { req1 with user := none } w).reached =
        (runChain env ctrl [Middleware.auth, Middleware.isEditorOrAdmin]
          { req2 with user := none } w).reached) := by
  refine ⟨fun req1 req2 c1 c2 h1 h2 hid => ?_, fun req c u hc hu => ?_,
    fun ctrl req1 req2 t1 t2 c1 c2 hk1 hk2 hid => ?_⟩
  · rw [isAdmin_eq req1, isAdmin_eq req2, isEditorOrAdmin_eq req1, isEditorOrAdmin_eq req2]
    simp only [h1, h2, hid]
    cases hf : w.store.users.find? (fun u => u.id == c2.id) with
    | none => exact ⟨rfl, rfl⟩
    | some u =>
      by_cases hr : u.role = "Admin" <;> by_cases he : u.role = "Editor" <;>
        simp [hr, he, MwResult.status?]
  · rw [isAdmin_eq, isEditorOrAdmin_eq]
    simp only [hc, hu]
    by_cases hr : u.role = "Admin" <;> by_cases he : u.role = "Editor" <;>
      simp [hr, he, MwResult.status?, reply]
  · rw [chain_reached_isAdmin env ctrl req1 w t1 c1 hk1,
      chain_reached_isAdmin env ctrl req2 w t2 c2 hk2,
      chain_reached_isEditorOrAdmin env ctrl req1 w t1 c1 hk1,
      chain_reached_isEditorOrAdmin env ctrl req2 w t2 c2 hk2, hid]
    exact ⟨rfl, rfl⟩

theorem role_decision_by_stored_role_witness :
    (handle staleRoleEnv Endpoint.addArtist tokenZeroReq setupWorld).reached = true ∧
    (handle staleRoleEnv Endpoint.addArtist tokenZeroReq setupWorld).reached =
      (handle staleRoleEnv Endpoint.addArtist tokenOneReq setupWorld).reached ∧
    (staleRoleEnv.decode "token-1").map Claims.role = some "Viewer" :=
  ⟨by decide,
    ((role_decision_by_stored_role staleRoleEnv setupWorld).2.2
      (controller staleRoleEnv Endpoint.addArtist) tokenZeroReq tokenOneReq "token-0" "token-1"
      (sampleClaims 0 "Admin") (sampleClaims 0 "Viewer")
      ⟨by decide, by decide, by decide, by decide, by decide⟩
      ⟨by decide, by decide, by decide, by decide, by decide⟩ rfl).1,
    by decide⟩

/-! ## The role a signup gives -/

/-- C19, as the code has it: a successful signup appends one user, whose role
is Viewer exactly when some user is stored at that moment and Admin exactly
when none is; in particular, in every reachable store that has a user, a
successful signup stores a Viewer. -/
theorem signup_role_by_stored_users (env : Env) :
    (∀ req w, (signup env req w).1.status = 201 →
      ∃ u, (signup env req w).2.store.users = w.store.users ++ [u] ∧
        (u.role = "Viewer" ↔ w.store.users ≠ []) ∧
        (u.role = "Admin" ↔ w.store.users = [])) ∧
    (∀ s, Reachable env s → s.users ≠ [] → ∀ req log,
      (signup env req { store := s, log := log }).1.status = 201 →
      ∃ u, (signup env req { store := s, log := log }).2.store.users = s.users ++ [u] ∧
        u.role = "Viewer") := by
  have key : ∀ req w, (signup env req w).1.status = 201 →
      ∃ u, (signup env req w).2.store.users = w.store.users ++ [u] ∧
        (u.role = "Viewer" ↔ w.store.users ≠ []) ∧
        (u.role = "Admin" ↔ w.store.users = []) := by
    intro req w hok
    rcases signup_cases env req w with ⟨hne, _⟩ | ⟨u, _, hst, _, _, hrole, _, _⟩
    · exact absurd hok hne
    · refine ⟨u, by rw [hst], ?_, ?_⟩ <;>
      · rw [hrole]
        cases hu : w.store.users with
        | nil => simp
        | cons x xs => simp
  refine ⟨key, fun s _ hne req log hok => ?_⟩
  obtain ⟨u, hst, hv, _⟩ := key req { store := s, log := log } hok
  exact ⟨u, hst, hv.mpr hne⟩

theorem signup_role_by_stored_users_witness :
    (signup sampleEnv secondSignupReq (signup sampleEnv signupReq emptyWorld).2).1.status = 201 ∧
    ∃ u, (signup sampleEnv secondSignupReq (signup sampleEnv signupReq emptyWorld).2).2.store.users
        = (signup sampleEnv signupReq emptyWorld).2.store.users ++ [u] ∧ u.role = "Viewer" :=
  have hok : (signup sampleEnv secondSignupReq
      (signup sampleEnv signupReq emptyWorld).2).1.status = 201 := by decide
  have h := (signup_role_by_stored_users sampleEnv).1 secondSignupReq
    (signup sampleEnv signupReq emptyWorld).2 hok
  ⟨hok, h.elim (fun u hu => ⟨u, hu.1, hu.2.1.mpr (by decide)⟩)⟩

/-- C19 as stated fails: the first signup creates user 0, an Admin; that user
deletes itself through `deleteUser`, which leaves no user stored; the next
signup, served in a reachable state in which a user has already been created,
replies 201 and stores user 1 with the role Admin, not Viewer: a second Admin
created by signup. -/
theorem signup_admin_again_after_delete :
    (run sampleEnv Store.empty [Event.request Endpoint.signup signupReq]).users.map
        (fun u => (u.id, u.role)) = [(0, "Admin")] ∧
    (run sampleEnv Store.empty signupDeleteEvents).users = [] ∧
    Reachable sampleEnv (run sampleEnv Store.empty signupDeleteEvents) ∧
    (handle sampleEnv Endpoint.signup laterSignupReq
      { store := run sampleEnv Store.empty signupDeleteEvents, log := [] }).response.status =
        201 ∧
    (run sampleEnv Store.empty
      (signupDeleteEvents ++ [Event.request Endpoint.signup laterSignupReq])).users.map
        (fun u => (u.id, u.email, u.role)) = [(1, "b@x.com", "Admin")] :=
  ⟨by decide, by decide, ⟨signupDeleteEvents, rfl⟩, by decide, by decide⟩

/-! ## Users added by an admin -/

theorem castStr_of_not_str (env : Env) (v : JsVal) (h : ∀ s, v ≠ JsVal.str s) :
    castStr env v = env.castString v := by
  cases v with
  | str s => exact absurd rfl (h s)
  | _ => rfl

/-- What `addUser` does: either it replies something other than 201 and leaves
the store as it was, or it replies 201 and appends one user, whose role is what
the `role` of the body casts to, one of the three roles, the body's `role`
being anything but the string `Admin`. -/
theorem addUser_cases (env : Env) (req : Req) (w : World) :
    ((addUser env req w).1.status ≠ 201 ∧ (addUser env req w).2.store = w.store) ∨
    ∃ u : User,
      (addUser env req w).1.status = 201 ∧
      (addUser env req w).2.store =
        { w.store with users := w.store.users ++ [u], nextId := w.store.nextId + 1 } ∧
      u.id = w.store.nextId ∧
      req.body.get "email" = JsVal.str u.email ∧
      castStr env (req.body.get "role") = some u.role ∧
      req.body.get "role" ≠ JsVal.str "Admin" ∧
      (u.role = "Admin" ∨ u.role = "Editor" ∨ u.role = "Viewer") ∧
      u.favorites = [] := by
  by_cases hc : (!truthy (req.body.get "email") || !truthy (req.body.get "password") ||
      !truthy (req.body.get "role") || strictEqStr (req.body.get "role") "Admin") = true
  · left
    simp only [addUser]
    rw [catch500_if_pos hc]
    exact ⟨by simp [reply], rfl⟩
  cases hce : castStr env (req.body.get "email") with
  | none =>
    left
    simp [addUser, catch500, hc, User.findOne, hce, reply]
  | some e =>
    cases hfu : w.store.users.find? (fun u => u.email == e) with
    | some u0 =>
      left
      simp [addUser, catch500, hc, User.findOne, hce, hfu, reply]
    | none =>
      by_cases hstr : ∀ s, req.body.get "email" ≠ JsVal.str s
      · left
        simp [addUser, catch500, hc, User.findOne, hce, hfu, isEmail_of_not_str env _ hstr, reply]
      · have hs : req.body.get "email" = JsVal.str e := by
          simp only [ne_eq, not_forall, not_not] at hstr
          obtain ⟨s, hs⟩ := hstr
          rw [hs] at hce
          simp only [castStr, Option.some.injEq] at hce
          rw [hs, hce]
        have hrole : req.body.get "role" ≠ JsVal.str "Admin" := by
          intro h
          rw [h] at hc
          simp [strictEqStr] at hc
        rw [hs] at hc hce
        by_cases hv : env.isEmail e = true
        swap
        · left
          simp [addUser, catch500, hc, User.findOne, hce, hfu, isEmail, hs, hv, reply]
        by_cases hpw : ∀ p, req.body.get "password" ≠ JsVal.str p
        · have hh : bcryptHash env (req.body.get "password") req.salt = throwErr := by
            cases hp : req.body.get "password" with
            | str p => exact absurd hp (hpw p)
            | _ => rfl
          left
          simp [addUser, catch500, hc, User.findOne, hce, hfu, isEmail, hs, hv, hh, reply]
        · simp only [ne_eq, not_forall, not_not] at hpw
          obtain ⟨p, hp⟩ := hpw
          rw [hp] at hc
          have hany : ∀ x ∈ w.store.users, ¬x.email = e := by
            intro x hx
            have := List.find?_eq_none.mp hfu x hx
            simpa using this
          have hnex : ¬∃ x ∈ w.store.users, x.email = e := by
            rintro ⟨x, hx, hxe⟩
            exact hany x hx hxe
          have hne : ¬e = "" := by
            intro he
            simp [he, truthy] at hc
          cases hcr : castStr env (req.body.get "role") with
          | none =>
            left
            simp [addUser, catch500, hc, User.findOne, hce, hfu, isEmail, hs, hv,
              bcryptHash, hp, User.create, hcr, reply]
          | some r =>
            by_cases hh : env.hash p req.salt = ""
            · left
              simp [addUser, catch500, hc, User.findOne, hce, hfu, isEmail, hs, hv,
                bcryptHash, hp, User.create, hcr, hh, reply]
            by_cases hr : r = "Admin" ∨ r = "Editor" ∨ r = "Viewer"
            swap
            · left
              simp only [not_or] at hr
              simp [addUser, catch500, hc, User.findOne, hce, hfu, isEmail, hs, hv,
                bcryptHash, hp, User.create, hcr, hh, hne, hr, reply]
            · right
              have hr2 : ¬(¬r = "Admin" ∧ ¬r = "Editor" ∧ ¬r = "Viewer") := by
                rintro ⟨h1, h2, h3⟩
                rcases hr with h | h | h
                · exact h1 h
                · exact h2 h
                · exact h3 h
              refine ⟨{ id := w.store.nextId, email := e, password := env.hash p req.salt,
                        role := r, favorites := [], createdAt := req.nowMs },
                ?_, ?_, rfl, hs, rfl, hrole, hr, rfl⟩
              · simp [addUser, catch500, hc, User.findOne, hce, hfu, isEmail, hs, hv,
                  bcryptHash, hp, User.create, hcr, hh, hne, hnex, hr2, reply]
              · simp [addUser, catch500, hc, User.findOne, hce, hfu, isEmail, hs, hv,
                  bcryptHash, hp, User.create, hcr, hh, hne, hnex, hr2]

/-- What `addUser` does with the role of the body: with the string `Admin` it
replies 400 and stores nothing; an `addUser` that does not reply 201 stores
nothing; an `addUser` that replies 201 appends one user, whose role is the
role of the body as the schema casts it to a string, and that is the role of
the body itself, which is not `Admin`, when the role of the body is a
string. -/
theorem addUser_role_as_cast (env : Env) (req : Req) (w : World) :
    (req.body.get "role" = JsVal.str "Admin" →
      (addUser env req w).1.status = 400 ∧ (addUser env req w).2.store = w.store) ∧
    ((addUser env req w).1.status ≠ 201 → (addUser env req w).2.store = w.store) ∧
    ((addUser env req w).1.status = 201 →
      ∃ u, (addUser env req w).2.store.users = w.store.users ++ [u] ∧
        castStr env (req.body.get "role") = some u.role ∧
        (∀ r, req.body.get "role" = JsVal.str r → u.role = r ∧ r ≠ "Admin")) := by
  refine ⟨fun hadm => ?_, fun hne => ?_, fun hok => ?_⟩
  · have hc : (!truthy (req.body.get "email") || !truthy (req.body.get "password") ||
        !truthy (req.body.get "role") || strictEqStr (req.body.get "role") "Admin") = true := by
      rw [hadm]
      simp [strictEqStr]
    simp only [addUser]
    rw [catch500_if_pos hc]
    exact ⟨rfl, rfl⟩
  · rcases addUser_cases env req w with ⟨_, hst⟩ | ⟨u, hok, _⟩
    · exact hst
    · exact absurd hok hne
  · rcases addUser_cases env req w with ⟨hne, _⟩ | ⟨u, _, hst, _, _, hcr, hrole, _, _⟩
    · exact absurd hok hne
    · refine ⟨u, by rw [hst], hcr, fun r hr => ?_⟩
      rw [hr] at hcr hrole
      simp only [castStr, Option.some.injEq] at hcr
      exact ⟨hcr.symm, fun h => hrole (by rw [h])⟩

/-- A role that is not a string passes the test `role === "Admin"`: when it is
truthy and the schema casts it to the string `Admin`, `addUser` with a fresh
valid email and a non-empty string password stores an Admin and replies
201. -/
theorem addUser_admin_by_cast (env : Env) (req : Req) (w : World) (e p : String)
    (he : req.body.get "email" = JsVal.str e) (hne : e ≠ "") (hv : env.isEmail e = true)
    (hfresh : ∀ u ∈ w.store.users, u.email ≠ e)
    (hp : req.body.get "password" = JsVal.str p) (hpne : p ≠ "")
    (hh : env.hash p req.salt ≠ "")
    (hrole : ∀ s, req.body.get "role" ≠ JsVal.str s)
    (htruthy : truthy (req.body.get "role") = true)
    (hcast : env.castString (req.body.get "role") = some "Admin") :
    (addUser env req w).1 = reply "state" 201 Json.null "User created successfully." Json.null ∧
    (addUser env req w).2.store =
      { w.store with
        users := w.store.users ++
          [{ id := w.store.nextId, email := e, password := env.hash p req.salt,
             role := "Admin", favorites := [], createdAt := req.nowMs }]
        nextId := w.store.nextId + 1 } := by
  have hfu : w.store.users.find? (fun u => u.email == e) = none := by
    rw [List.find?_eq_none]
    intro u hu
    simpa using hfresh u hu
  have hnex : ¬∃ x ∈ w.store.users, x.email = e := by
    rintro ⟨x, hx, hxe⟩
    exact hfresh x hx hxe
  have hse : strictEqStr (req.body.get "role") "Admin" = false := by
    cases hr : req.body.get "role" with
    | str s => exact absurd hr (hrole s)
    | _ => rfl
  have hcr : castStr env (req.body.get "role") = some "Admin" := by
    rw [castStr_of_not_str env _ hrole, hcast]
  have hc : ¬(!truthy (JsVal.str e) || !truthy (JsVal.str p) ||
      !truthy (req.body.get "role") || strictEqStr (req.body.get "role") "Admin") = true := by
    rw [htruthy, hse]
    simp [truthy, hne, hpne]
  have hce : castStr env (JsVal.str e) = some e := rfl
  constructor
  · simp [addUser, catch500, hc, User.findOne, hce, hfu, isEmail, he, hv, bcryptHash, hp,
      User.create, hcr, hh, hne, hnex, reply]
  · simp [addUser, catch500, hc, User.findOne, hce, hfu, isEmail, he, hv, bcryptHash, hp,
      User.create, hcr, hh, hne, hnex]

/-- C20 fails on the code: the test `role === "Admin"` of `addUser` holds of the
string only.  With the role `{ "_id": "Admin" }`, an object, the test passes,
the schema casts the role to the string `Admin`, which the enum admits, and
the user is stored as an Admin with reply 201, by the controller and through
the route `POST /users/add-user` alike. -/
theorem addUser_object_role_stores_admin :
    addObjectRoleReq.body.get "role" = JsVal.idObj "Admin" ∧
    strictEqStr (addObjectRoleReq.body.get "role") "Admin" = false ∧
    (addUser sampleEnv addObjectRoleReq setupWorld).1 =
      reply "state" 201 Json.null "User created successfully." Json.null ∧
    (addUser sampleEnv addObjectRoleReq setupWorld).2.store.users.map
        (fun u => (u.email, u.role)) = [("a@x.com", "Admin"), ("e@x.com", "Admin")] ∧
    (handle sampleEnv Endpoint.addUser addObjectRoleByTokenReq setupWorld).response.status =
      201 ∧
    (handle sampleEnv Endpoint.addUser addObjectRoleByTokenReq setupWorld).world.store.users.map
        (fun u => (u.email, u.role)) = [("a@x.com", "Admin"), ("e@x.com", "Admin")] := by
  decide

/-! ## The order of the checks of `addTrack` -/

/-- The first test of `addTrack` holds exactly when one of the five fields is
falsy or the duration is not a number. -/
theorem addTrack_guard_iff (env : Env) (req : Req) :
    (!truthy (req.body.get "artist_id") || !truthy (req.body.get "album_id") ||
      !truthy (req.body.get "name") || !truthy (req.body.get "duration") ||
      !truthy (req.body.get "hidden") ||
      (truthy (req.body.get "duration") && isNaN env (req.body.get "duration"))) = true ↔
    ((∃ k ∈ ["artist_id", "album_id", "name", "duration", "hidden"],
        truthy (req.body.get k) = false) ∨ isNaN env (req.body.get "duration") = true) := by
  simp only [List.mem_cons, List.mem_singleton, List.not_mem_nil, or_false, exists_eq_or_imp,
    exists_eq_left]
  cases truthy (req.body.get "artist_id") <;> cases truthy (req.body.get "album_id") <;>
    cases truthy (req.body.get "name") <;> cases truthy (req.body.get "duration") <;>
    cases truthy (req.body.get "hidden") <;> cases isNaN env (req.body.get "duration") <;>
    simp

theorem find_album_none (l : List Album) (i : ObjectId) (h : ∀ a ∈ l, a.id ≠ i) :
    l.find? (fun a => a.id == i) = none := by
  rw [List.find?_eq_none]
  intro a ha
  simpa using h a ha

/-- C21, as the code has it: `addTrack` replies 400 `Bad Request`, with the
world untouched (no lookup), when one of the five fields is falsy or the
duration is not a number; otherwise, when `artist_id` casts to an id that no
stored artist has, it replies 404 `Artist not found.` after the artist lookup
alone, whatever `album_id` is; otherwise, when the artist is stored and
`album_id` casts to an id that no stored album has, it replies 404
`Album not found.`; in both cases the store is left as it was.  The store
changes only when the first test passes and both ids resolve, and then by one
track appended, whose artist and album are the ones found. -/
theorem addTrack_check_order (env : Env) (req : Req) (w : World) :
    (((∃ k ∈ ["artist_id", "album_id", "name", "duration", "hidden"],
          truthy (req.body.get k) = false) ∨ isNaN env (req.body.get "duration") = true) →
      addTrack env req w = (reply "state" 400 Json.null "Bad Request" Json.null, w)) ∧
    ((∀ k ∈ ["artist_id", "album_id", "name", "duration", "hidden"],
        truthy (req.body.get k) = true) →
      isNaN env (req.body.get "duration") = false →
      (∀ i, env.castObjectId (req.body.get "artist_id") = some i →
        (∀ a ∈ w.store.artists, a.id ≠ i) →
        addTrack env req w =
          (reply "state" 404 Json.null "Artist not found." Json.null,
            { w with log := w.log ++ [DbOp.query Coll.artists] })) ∧
      (∀ i j a, env.castObjectId (req.body.get "artist_id") = some i →
        a ∈ w.store.artists → a.id = i →
        env.castObjectId (req.body.get "album_id") = some j →
        (∀ al ∈ w.store.albums, al.id ≠ j) →
        addTrack env req w =
          (reply "state" 404 Json.null "Album not found." Json.null,
            { w with log := w.log ++ [DbOp.query Coll.artists, DbOp.query Coll.albums] }))) ∧
    ((addTrack env req w).2.store ≠ w.store →
      (∀ k ∈ ["artist_id", "album_id", "name", "duration", "hidden"],
        truthy (req.body.get k) = true) ∧
      isNaN env (req.body.get "duration") = false ∧
      ∃ a ∈ w.store.artists, ∃ al ∈ w.store.albums, ∃ t : Track,
        env.castObjectId (req.body.get "artist_id") = some a.id ∧
        env.castObjectId (req.body.get "album_id") = some al.id ∧
        t.artist = a.id ∧ t.album = al.id ∧
        (addTrack env req w).2.store =
          { w.store with tracks := w.store.tracks ++ [t], nextId := w.store.nextId + 1 }) := by
  have hguard : ((∃ k ∈ ["artist_id", "album_id", "name", "duration", "hidden"],
        truthy (req.body.get k) = false) ∨ isNaN env (req.body.get "duration") = true) →
      addTrack env req w = (reply "state" 400 Json.null "Bad Request" Json.null, w) := by
    intro h
    have hc := (addTrack_guard_iff env req).mpr h
    simp only [addTrack]
    rw [catch500_if_pos hc]
  have hpass : (∀ k ∈ ["artist_id", "album_id", "name", "duration", "hidden"],
        truthy (req.body.get k) = true) →
      isNaN env (req.body.get "duration") = false →
      ¬(!truthy (req.body.get "artist_id") || !truthy (req.body.get "album_id") ||
        !truthy (req.body.get "name") || !truthy (req.body.get "duration") ||
        !truthy (req.body.get "hidden") ||
        (truthy (req.body.get "duration") && isNaN env (req.body.get "duration"))) = true := by
    intro hall hnan hc
    rcases (addTrack_guard_iff env req).mp hc with ⟨k, hk, hf⟩ | hn
    · rw [hall k hk] at hf
      exact Bool.noConfusion hf
    · rw [hnan] at hn
      exact Bool.noConfusion hn
  refine ⟨hguard, fun hall hnan => ⟨fun i hid hno => ?_, fun i j a hid ha hai hjd hno => ?_⟩,
    fun hne => ?_⟩
  · have hc := hpass hall hnan
    have hf := find_artist_none _ _ hno
    simp only [addTrack, catch500, if_neg hc, run_bind, castId, hid, run_orThrow_some,
      Artist.findById, run_logOp, run_getStore, run_pure, hf, Option.isNone_none, if_true]
  · have hc := hpass hall hnan
    obtain ⟨a0, hf, _⟩ : ∃ a0, w.store.artists.find? (fun x => x.id == i) = some a0 ∧
        a0.id = a.id := by
      rw [← hai]
      exact find_id_of_mem Artist.id w.store.artists ha
    have hg := find_album_none _ _ hno
    simp only [addTrack, catch500, if_neg hc, run_bind, castId, hid, hjd, run_orThrow_some,
      Artist.findById, Album.findById, run_logOp, run_getStore, run_pure, hf, hg,
      Option.isNone_some, Option.isNone_none, Bool.false_eq_true, if_false, if_true,
      List.append_assoc, List.singleton_append]
  · have hfields : (∀ k ∈ ["artist_id", "album_id", "name", "duration", "hidden"],
        truthy (req.body.get k) = true) ∧ isNaN env (req.body.get "duration") = false := by
      by_contra hcon
      apply hne
      have : (∃ k ∈ ["artist_id", "album_id", "name", "duration", "hidden"],
          truthy (req.body.get k) = false) ∨ isNaN env (req.body.get "duration") = true := by
        by_contra hno
        apply hcon
        simp only [not_or, not_exists, not_and, Bool.not_eq_false, Bool.not_eq_true] at hno
        exact ⟨fun k hk => hno.1 k hk, hno.2⟩
      rw [hguard this]
    refine ⟨hfields.1, hfields.2, ?_⟩
    rcases addTrack_store env req w with h | ⟨i, j, a, al, w1, hw1, hid, ha, hai, hjd, hal, halj, h⟩
    · exact absurd h hne
    · rcases track_create_store env (req.body.get "name") (req.body.get "duration")
        (req.body.get "artist_id") (req.body.get "album_id") (req.body.get "hidden") req.nowMs w1
        with h1 | ⟨t, hta, htal, h1⟩
      · exact absurd (by rw [h, h1, hw1]) hne
      · have hart : t.artist = i := Option.some.inj (hta.symm.trans hid)
        have halb : t.album = j := Option.some.inj (htal.symm.trans hjd)
        exact ⟨a, ha, al, hal, t, by rw [hid, hai], by rw [hjd, halj], hart.trans hai.symm,
          halb.trans halj.symm, by rw [h, h1, hw1]⟩

theorem addTrack_check_order_witness :
    addTrack sampleEnv trackNoArtistReq setupWorld =
      (reply "state" 404 Json.null "Artist not found." Json.null,
        { setupWorld with log := setupWorld.log ++ [DbOp.query Coll.artists] }) ∧
    sampleEnv.castObjectId (trackNoArtistReq.body.get "album_id") = some 8 ∧
    (∀ al ∈ setupWorld.store.albums, al.id ≠ 8) :=
  ⟨((addTrack_check_order sampleEnv trackNoArtistReq setupWorld).2.1 (by decide) (by decide)).1
      7 (by decide) (by decide),
    by decide, by decide⟩

/-- C21 as stated fails: with all five fields present and truthy, a duration
that is not a number, and an `artist_id` that casts to an id no stored artist
has, `addTrack` replies 400, not 404; and with all five fields truthy, a
numeric duration and an `artist_id` that is not an id at all, the lookup throws
and `addTrack` replies 500, not 404. -/
theorem addTrack_truthy_fields_not_404 :
    ((∀ k ∈ ["artist_id", "album_id", "name", "duration", "hidden"],
        truthy (trackBadDurationReq.body.get k) = true) ∧
      sampleEnv.castObjectId (trackBadDurationReq.body.get "artist_id") = some 7 ∧
      (∀ a ∈ setupWorld.store.artists, a.id ≠ 7) ∧
      (addTrack sampleEnv trackBadDurationReq setupWorld).1 =
        reply "state" 400 Json.null "Bad Request" Json.null) ∧
    ((∀ k ∈ ["artist_id", "album_id", "name", "duration", "hidden"],
        truthy (trackBadIdReq.body.get k) = true) ∧
      isNaN sampleEnv (trackBadIdReq.body.get "duration") = false ∧
      sampleEnv.castObjectId (trackBadIdReq.body.get "artist_id") = none ∧
      (addTrack sampleEnv trackBadIdReq setupWorld).1 =
        reply "state" 500 Json.null "Internal server error while creating Track" Json.error ∧
      (addTrack sampleEnv trackBadIdReq setupWorld).2.store = setupWorld.store) := by
  decide

/-! ## One blacklist record per token -/

/-- What `logout` does: either it replies 200 and appends one record, carrying
the token of the request and the expiry instant of its claims in milliseconds,
or it replies something else and leaves the store as it was. -/
theorem logout_cases (env : Env) (req : Req) (w : World) :
    ((logout env req w).1.status ≠ 200 ∧ (logout env req w).2.store = w.store) ∨
    ∃ t c, bearerToken req = some t ∧ t ≠ "" ∧ env.decode t = some c ∧
      req.nowMs / 1000 < c.exp ∧
      (logout env req w).1.status = 200 ∧
      (logout env req w).2.store =
        { w.store with
          blacklist := w.store.blacklist ++
            [{ id := w.store.nextId, token := t, expiresAt := c.exp * 1000,
               createdAt := req.nowMs }]
          nextId := w.store.nextId + 1 } := by
  cases hb : bearerToken req with
  | none =>
    left
    simp [logout, catch500, hb, reply]
  | some t =>
    by_cases ht : t = ""
    · left
      simp [logout, catch500, hb, ht, reply]
    cases hd : env.decode t with
    | none =>
      left
      simp [logout, catch500, hb, ht, jwtVerify, hd, reply]
    | some c =>
      by_cases he : c.exp ≤ req.nowMs / 1000
      · left
        simp [logout, catch500, hb, ht, jwtVerify, hd, he, reply]
      · right
        refine ⟨t, c, rfl, ht, hd, Nat.not_le.mp he, ?_, ?_⟩
        · simp [logout, catch500, hb, ht, jwtVerify, hd, he, BlacklistToken.create, reply]
        · simp [logout, catch500, hb, ht, jwtVerify, hd, he, BlacklistToken.create]

/-- What serving `GET /logout` does: either the reply is not 200 and the store
is left as it was, or the token of the request is present, not blacklisted and
verified, the reply is 200, and one record of that token is appended. -/
theorem handle_logout_cases (env : Env) (req : Req) (w : World) :
    ((handle env Endpoint.logout req w).response.status ≠ 200 ∧
      (handle env Endpoint.logout req w).world.store = w.store) ∨
    ∃ t c, TokenOk env { req with user := none } w t c ∧
      (handle env Endpoint.logout req w).response.status = 200 ∧
      (handle env Endpoint.logout req w).reached = true ∧
      (handle env Endpoint.logout req w).world.store =
        { w.store with
          blacklist := w.store.blacklist ++
            [{ id := w.store.nextId, token := t, expiresAt := c.exp * 1000,
               createdAt := req.nowMs }]
          nextId := w.store.nextId + 1 } := by
  by_cases hok : ∃ t c, TokenOk env { req with user := none } w t c
  · obtain ⟨t, c, hok⟩ := hok
    have ha := auth_of_tokenOk env { req with user := none } w t c hok
    cases hf : w.store.users.find? (fun u => u.id == c.id) with
    | none =>
      left
      simp only [hf, Option.isNone_none, if_true] at ha
      simp [handle, middlewares, runChain, runMiddleware, ha, reply]
    | some u =>
      simp only [hf, Option.isNone_some, Bool.false_eq_true, if_false] at ha
      rcases logout_cases env { req with user := some c }
        { w with log := w.log ++ [DbOp.query Coll.blacklist, DbOp.query Coll.users] } with
        ⟨h1, h2⟩ | ⟨t1, c1, hb, _, hd, _, h1, h2⟩
      · left
        simp only [handle, middlewares, runChain, runMiddleware, ha, controller]
        exact ⟨h1, h2⟩
      · right
        have ht : t1 = t := Option.some.inj (hb.symm.trans hok.1)
        subst ht
        have hc : c1 = c := Option.some.inj (hd.symm.trans hok.2.2.2.1)
        subst hc
        refine ⟨t1, c1, hok, ?_, ?_, ?_⟩
        · simp only [handle, middlewares, runChain, runMiddleware, ha, controller]
          exact h1
        · simp only [handle, middlewares, runChain, runMiddleware, ha]
        · simp only [handle, middlewares, runChain, runMiddleware, ha, controller]
          exact h2
  · left
    have ha := auth_of_not_tokenOk env { req with user := none } w hok
    have hs := runMiddleware_store env Middleware.auth { req with user := none } w
    rcases hm : auth env { req with user := none } w with ⟨r, w1⟩
    rw [hm] at ha
    simp only [runMiddleware, hm] at hs
    simp only at ha
    subst ha
    simp only [handle, middlewares, runChain, runMiddleware, hm]
    exact ⟨by simp [reply], hs⟩

/-- Only `logout` inserts into the blacklist. -/
theorem opsOf_blacklist_insert (ep : Endpoint) (h : ep ≠ Endpoint.logout) :
    DbOp.insert Coll.blacklist ∉ opsOf ep := by
  cases ep <;> first | exact absurd rfl h | decide

/-- Serving a request on any route keeps the blacklist at one record per
token. -/
theorem handle_blacklistUnique (env : Env) (ep : Endpoint) (req : Req) (w : World)
    (h : BlacklistUnique w.store) : BlacklistUnique (handle env ep req w).world.store := by
  by_cases hep : ep = Endpoint.logout
  · subst hep
    rcases handle_logout_cases env req w with ⟨_, hst⟩ | ⟨t, c, hok, _, _, hst⟩
    · rw [hst]; exact h
    · rw [hst]
      unfold BlacklistUnique
      simp only
      rw [List.pairwise_append]
      refine ⟨h, List.pairwise_singleton _ _, ?_⟩
      intro x hx y hy
      rw [List.mem_singleton] at hy
      subst hy
      exact hok.2.2.1 x hx
  · obtain ⟨hu, hd⟩ := opsOf_blacklist ep
    have heq := collRel_eq (handle_allowed env ep req w).blacklist
      (opsOf_blacklist_insert ep hep) hu hd
    unfold BlacklistUnique
    rw [heq]
    exact h

/-- Every sequence of routed requests and expiry sweeps keeps the blacklist at
one record per token. -/
theorem run_blacklistUnique (env : Env) (events : List Event) :
    ∀ s : Store, (∀ e ∈ events, e.routed = true) → BlacklistUnique s →
      BlacklistUnique (run env s events) := by
  induction events with
  | nil => intro s _ hs; exact hs
  | cons e es ih =>
    intro s hall hs
    have he := hall e (List.mem_cons_self _ _)
    refine ih (step env s e) (fun x hx => hall x (List.mem_cons_of_mem _ hx)) ?_
    cases e with
    | request ep req => exact handle_blacklistUnique env ep req { store := s, log := [] } hs
    | call ep req => exact absurd he Bool.false_ne_true
    | sweep nowMs => exact List.Pairwise.sublist (List.filter_sublist _) hs

/-- C22: a `logout` that replies 200 appends exactly one record to the
blacklist, whose token is the token T of the request and whose `expiresAt` is
`c.exp * 1000` for the claims `c` of T, the rest of the store staying as it
was; so does serving `GET /logout` with reply 200, where T was not blacklisted
and the controller is invoked, and a following logout with T is answered 401 by
`auth`, without the controller being invoked and without a change to the
store; and every store reached from the empty store by requests served through
their routes (and expiry sweeps) has at most one record per token. -/
theorem logout_blacklists_once (env : Env) :
    (∀ req w, (logout env req w).1.status = 200 →
      ∃ t c, bearerToken req = some t ∧ env.decode t = some c ∧
        (logout env req w).2.store =
          { w.store with
            blacklist := w.store.blacklist ++
              [{ id := w.store.nextId, token := t, expiresAt := c.exp * 1000,
                 createdAt := req.nowMs }]
            nextId := w.store.nextId + 1 }) ∧
    (∀ req w, (handle env Endpoint.logout req w).response.status = 200 →
      ∃ t c, bearerToken req = some t ∧ env.decode t = some c ∧
        (∀ b ∈ w.store.blacklist, b.token ≠ t) ∧
        (handle env Endpoint.logout req w).reached = true ∧
        (handle env Endpoint.logout req w).world.store =
          { w.store with
            blacklist := w.store.blacklist ++
              [{ id := w.store.nextId, token := t, expiresAt := c.exp * 1000,
                 createdAt := req.nowMs }]
            nextId := w.store.nextId + 1 } ∧
        ∀ (req2 : Req) (l : List DbOp), bearerToken req2 = some t →
          (handle env Endpoint.logout req2
            { store := (handle env Endpoint.logout req w).world.store,
              log := l }).response.status = 401 ∧
          (handle env Endpoint.logout req2
            { store := (handle env Endpoint.logout req w).world.store,
              log := l }).reached = false ∧
          (handle env Endpoint.logout req2
            { store := (handle env Endpoint.logout req w).world.store,
              log := l }).world.store = (handle env Endpoint.logout req w).world.store) ∧
    (∀ events : List Event, (∀ e ∈ events, e.routed = true) →
      BlacklistUnique (run env Store.empty events)) := by
  refine ⟨fun req w h200 => ?_, fun req w h200 => ?_, fun events hall =>
    run_blacklistUnique env events Store.empty hall List.Pairwise.nil⟩
  · rcases logout_cases env req w with ⟨hne, _⟩ | ⟨t, c, hb, _, hd, _, _, hst⟩
    · exact absurd h200 hne
    · exact ⟨t, c, hb, hd, hst⟩
  rcases handle_logout_cases env req w with ⟨hne, _⟩ | ⟨t, c, hok, _, hreached, hst⟩
  · exact absurd h200 hne
  · refine ⟨t, c, hok.1, hok.2.2.2.1, hok.2.2.1, hreached, hst, fun req2 l h2 => ?_⟩
    refine handle_blacklisted env Endpoint.logout req2 _ t (by decide) h2 ?_
    refine ⟨⟨w.store.nextId, t, c.exp * 1000, req.nowMs⟩, ?_, rfl⟩
    rw [hst]
    simp

theorem logout_blacklists_once_witness :
    (handle sampleEnv Endpoint.logout tokenZeroReq loggedInWorld).response.status = 200 ∧
    (handle sampleEnv Endpoint.logout tokenZeroReq loggedInWorld).world.store.blacklist.map
        (fun b => (b.token, b.expiresAt)) = [("token-0", 86400000)] ∧
    (run sampleEnv Store.empty logoutTwiceEvents).blacklist.map
        (fun b => (b.token, b.expiresAt)) = [("token-0", 86400000)] ∧
    BlacklistUnique (run sampleEnv Store.empty logoutTwiceEvents) :=
  have h200 : (handle sampleEnv Endpoint.logout tokenZeroReq loggedInWorld).response.status =
      200 := by decide
  ⟨h200, by decide, by decide,
    (logout_blacklists_once sampleEnv).2.2 logoutTwiceEvents (by decide)⟩

/-! ## Adding and then removing a favorite -/

theorem idsAllotted_of_listsFrom {s t : Store} (h : ListsFrom s t) (hs : IdsAllotted s) :
    IdsAllotted t := by
  refine ⟨fun u hu x hx => ?_, fun f hf => ?_⟩
  · obtain ⟨v, hv, hxv⟩ := h.2.1 u hu x hx
    exact Nat.lt_of_lt_of_le (hs.1 v hv x hxv) h.1
  · obtain ⟨g, hg, hgf⟩ := h.2.2 f hf
    rw [← hgf]
    exact Nat.lt_of_lt_of_le (hs.2 g hg) h.1

/-- A step that neither inserts nor updates a user and inserts no favorite
puts no new id in a list. -/
theorem listsFrom_of_allowed {ops : List DbOp} {s t : Store} (h : Allowed ops s t)
    (hi : DbOp.insert Coll.users ∉ ops) (hu : DbOp.update Coll.users ∉ ops)
    (hf : DbOp.insert Coll.favorites ∉ ops) : ListsFrom s t :=
  ⟨h.nextId, fun u hu1 _ hx => ⟨u, (h.users.sub hi hu).subset hu1, hx⟩,
    fun f hf1 => h.favorites.noNew hf f hf1⟩

theorem listsFrom_pull (s : Store) (g : User → User)
    (hg : ∀ u, ∀ x ∈ (g u).favorites, x ∈ u.favorites) :
    ListsFrom s { s with users := s.users.map g } := by
  refine ⟨Nat.le_refl _, fun u hu x hx => ?_, fun f hf => ⟨f, hf, rfl⟩⟩
  obtain ⟨v, hv, rfl⟩ := List.mem_map.mp hu
  exact ⟨v, hv, hg v x hx⟩

theorem user_updateManyPull_lists (fid : ObjectId) : Keeps ListsFrom (User.updateManyPull fid) := by
  constructor
  intro w
  simp only [User.updateManyPull, run_bind, run_logOp, run_getStore, run_setStore]
  refine listsFrom_pull _ _ (fun u x hx => ?_)
  split at hx
  · exact (List.mem_filter.mp hx).1
  · exact hx

theorem user_findByIdAndUpdatePull_lists (uid fid : ObjectId) :
    Keeps ListsFrom (User.findByIdAndUpdatePull uid fid) := by
  constructor
  intro w
  simp only [User.findByIdAndUpdatePull, run_bind, run_logOp, run_getStore, run_setStore]
  refine listsFrom_pull _ _ (fun u x hx => ?_)
  split at hx
  · exact (List.mem_filter.mp hx).1
  · exact hx

theorem favorite_findByIdAndDelete_lists (i : ObjectId) :
    Keeps ListsFrom (Favorite.findByIdAndDelete i) := by
  constructor
  intro w
  simp only [Favorite.findByIdAndDelete, run_bind, run_logOp, run_getStore]
  cases List.find? (fun f => f.id == i) w.store.favorites
  · exact Frame.refl _
  · simp only [run_bind, run_setStore]
    refine Frame.trans _ _ _ (?_ : ListsFrom w.store
      { w.store with favorites := w.store.favorites.filter (fun f => f.id != i) }) ?_
    · exact ⟨Nat.le_refl _, fun u hu x hx => ⟨u, hu, hx⟩,
        fun f hf => ⟨f, (List.mem_filter.mp hf).1, rfl⟩⟩
    · exact (user_updateManyPull_lists _).run
        { store := { w.store with favorites := w.store.favorites.filter (fun f => f.id != i) },
          log := w.log ++ [DbOp.delete Coll.favorites] }

theorem cascadeFavorite_lists (env : Env) (v : JsVal) : Keeps ListsFrom (cascadeFavorite env v) := by
  unfold cascadeFavorite
  refine keeps_bind (castId_keeps _ _) (fun _ => keeps_bind (favorite_findOne_keeps _) (fun fav => ?_))
  cases fav
  · exact keeps_pure _
  · exact keeps_bind (user_updateManyPull_lists _) (fun _ => favorite_findByIdAndDelete_lists _)

theorem artist_findByIdAndDelete_lists (i : ObjectId) :
    Keeps ListsFrom (Artist.findByIdAndDelete i) :=
  ⟨fun w => listsFrom_of_allowed
    ((artist_findByIdAndDelete_keeps (List.mem_singleton.mpr rfl) i).run w)
    (by decide) (by decide) (by decide)⟩

theorem album_findByIdAndDelete_lists (i : ObjectId) :
    Keeps ListsFrom (Album.findByIdAndDelete i) :=
  ⟨fun w => listsFrom_of_allowed
    ((album_findByIdAndDelete_keeps (List.mem_singleton.mpr rfl) i).run w)
    (by decide) (by decide) (by decide)⟩

theorem track_findByIdAndDelete_lists (i : ObjectId) :
    Keeps ListsFrom (Track.findByIdAndDelete i) :=
  ⟨fun w => listsFrom_of_allowed
    ((track_findByIdAndDelete_keeps (List.mem_singleton.mpr rfl) i).run w)
    (by decide) (by decide) (by decide)⟩

/-- The three delete controllers and `removeFavorite` put no new id in a list
and store no new favorite. -/
theorem pull_controllers_lists (env : Env) (req : Req) (w : World) :
    ListsFrom w.store (deleteArtist env req w).2.store ∧
    ListsFrom w.store (deleteAlbum env req w).2.store ∧
    ListsFrom w.store (deleteTrack env req w).2.store ∧
    ListsFrom w.store (removeFavorite env req w).2.store := by
  refine ⟨?_, ?_, ?_, ?_⟩ <;>
  simp only [deleteArtist, deleteAlbum, deleteTrack, removeFavorite] <;>
  refine @keeps_catch500 ListsFrom _ _ ?_ w <;>
  repeat' (first
    | with_reducible exact keeps_pure _
    | with_reducible exact castId_keeps _ _
    | with_reducible exact reqUser_keeps _
    | with_reducible exact artist_findById_keeps _
    | with_reducible exact album_findById_keeps _
    | with_reducible exact track_findById_keeps _
    | with_reducible exact favorite_findById_keeps _
    | with_reducible exact cascadeFavorite_lists _ _
    | with_reducible exact artist_findByIdAndDelete_lists _
    | with_reducible exact album_findByIdAndDelete_lists _
    | with_reducible exact track_findByIdAndDelete_lists _
    | with_reducible exact user_findByIdAndUpdatePull_lists _ _
    | with_reducible apply keeps_bind
    | intro _
    | split)

/-- Writing a stored user back with the same favorites list puts no new id in
a list. -/
theorem listsFrom_save (s : Store) (u v : User) (hu : u ∈ s.users)
    (hv : v.favorites = u.favorites) :
    ListsFrom s { s with users := s.users.map (fun x => if x.id == u.id then v else x) } := by
  refine ⟨Nat.le_refl _, fun y hy x hx => ?_, fun f hf => ⟨f, hf, rfl⟩⟩
  obtain ⟨z, hz, rfl⟩ := List.mem_map.mp hy
  split at hx
  · exact ⟨u, hu, hv ▸ hx⟩
  · exact ⟨z, hz, hx⟩

theorem updatePassword_lists (env : Env) (req : Req) (w : World) :
    ListsFrom w.store (updatePassword env req w).2.store := by
  cases hc : req.user with
  | none =>
    have h : (updatePassword env req w).2.store = w.store := by
      simp [updatePassword, catch500, reqUser, hc]
    rw [h]
    exact Frame.refl _
  | some c =>
    cases hu : w.store.users.find? (fun x => x.id == c.id) with
    | none =>
      have h : (updatePassword env req w).2.store = w.store := by
        by_cases h1 : (!truthy (req.body.get "old_password") ||
            !truthy (req.body.get "new_password")) = true <;>
        by_cases h2 : lengthLe4 (req.body.get "new_password") = true <;>
        simp [updatePassword, catch500, reqUser, hc, User.findById, hu, h1, h2]
      rw [h]
      exact Frame.refl _
    | some u =>
      rcases updatePassword_cases env req w c u hc hu with ⟨o, p, _, _, _, _, _, _, h⟩ | ⟨_, _, h⟩
      · rw [h]
        exact listsFrom_save w.store u _ (List.mem_of_find?_eq_some hu) rfl
      · rw [h]
        exact Frame.refl _

theorem listsFrom_append_user (s : Store) (u : User) (hu : u.favorites = []) :
    ListsFrom s { s with users := s.users ++ [u], nextId := s.nextId + 1 } := by
  refine ⟨Nat.le_succ _, fun y hy x hx => ?_, fun f hf => ⟨f, hf, rfl⟩⟩
  rcases List.mem_append.mp hy with h | h
  · exact ⟨y, h, hx⟩
  · rw [List.mem_singleton.mp h, hu] at hx
    exact absurd hx (List.not_mem_nil _)

theorem addFavorite_idsAllotted (env : Env) (req : Req) (w : World) (hs : IdsAllotted w.store) :
    IdsAllotted (addFavorite env req w).2.store := by
  rcases addFavorite_cases env req w with ⟨_, h⟩ |
    ⟨c, u, it, fav, _, _, _, hu, _, _, _, ⟨hf, _, h⟩ | ⟨_, hid, h⟩⟩
  · rw [h]; exact hs
  · rw [h]
    refine ⟨fun y hy x hx => ?_, hs.2⟩
    obtain ⟨z, hz, rfl⟩ := List.mem_map.mp hy
    split at hx
    · rcases List.mem_append.mp hx with h1 | h1
      · exact hs.1 u (List.mem_of_find?_eq_some hu) x h1
      · rw [List.mem_singleton.mp h1]
        exact hs.2 fav (List.mem_of_find?_eq_some hf)
    · exact hs.1 z hz x hx
  · rw [h]
    refine ⟨fun y hy x hx => ?_, fun f hf => ?_⟩
    · obtain ⟨z, hz, rfl⟩ := List.mem_map.mp hy
      split at hx
      · rcases List.mem_append.mp hx with h1 | h1
        · exact Nat.lt_succ_of_lt (hs.1 u (List.mem_of_find?_eq_some hu) x h1)
        · rw [List.mem_singleton.mp h1, hid]
          exact Nat.lt_succ_self _
      · exact Nat.lt_succ_of_lt (hs.1 z hz x hx)
    · rcases List.mem_append.mp hf with h1 | h1
      · exact Nat.lt_succ_of_lt (hs.2 f h1)
      · rw [List.mem_singleton.mp h1, hid]
        exact Nat.lt_succ_self _

/-- Every controller keeps the ids of the lists and of the favorites below the
id the store allots next. -/
theorem controller_idsAllotted (env : Env) (ep : Endpoint) (req : Req) (w : World)
    (hs : IdsAllotted w.store) : IdsAllotted (controller env ep req w).2.store := by
  cases ep <;>
  first
    | exact addFavorite_idsAllotted env req w hs
    | exact idsAllotted_of_listsFrom (updatePassword_lists env req w) hs
    | exact idsAllotted_of_listsFrom (pull_controllers_lists env req w).1 hs
    | exact idsAllotted_of_listsFrom (pull_controllers_lists env req w).2.1 hs
    | exact idsAllotted_of_listsFrom (pull_controllers_lists env req w).2.2.1 hs
    | exact idsAllotted_of_listsFrom (pull_controllers_lists env req w).2.2.2 hs
    | (rcases signup_cases env req w with ⟨_, h⟩ | ⟨u, _, h, _, _, _, hf, _⟩
       · exact (show (controller env Endpoint.signup req w).2.store = w.store from h) ▸ hs
       · exact (show (controller env Endpoint.signup req w).2.store = _ from h) ▸
           idsAllotted_of_listsFrom (listsFrom_append_user w.store u hf) hs)
    | (rcases addUser_cases env req w with ⟨_, h⟩ | ⟨u, _, h, _, _, _, _, _, hf⟩
       · exact (show (controller env Endpoint.addUser req w).2.store = w.store from h) ▸ hs
       · exact (show (controller env Endpoint.addUser req w).2.store = _ from h) ▸
           idsAllotted_of_listsFrom (listsFrom_append_user w.store u hf) hs)
    | exact idsAllotted_of_listsFrom
        (listsFrom_of_allowed (controller_allowed env _ req w) (by decide) (by decide)
          (by decide)) hs

/-- In every reachable store the ids in the favorites lists and the ids of the
favorites are below the id the store allots next. -/
theorem reachable_idsAllotted (env : Env) (s : Store) (h : Reachable env s) : IdsAllotted s :=
  reachable_induction env IdsAllotted
    ⟨fun _ hu => absurd hu (List.not_mem_nil _), fun _ hf => absurd hf (List.not_mem_nil _)⟩
    (fun _ _ hs => hs) (fun ep req w hs => controller_idsAllotted env ep req w hs) s h

theorem find_map_replace (l : List User) (i : ObjectId) (u v : User) (hv : v.id = i)
    (h : l.find? (fun x => x.id == i) = some u) :
    (l.map (fun x => if x.id == i then v else x)).find? (fun x => x.id == i) = some v := by
  induction l with
  | nil => simp at h
  | cons a l ih =>
    by_cases ha : a.id = i
    · simp [List.find?, ha, hv]
    · have hb : (a.id == i) = false := by simpa using ha
      rw [List.find?_cons, hb] at h
      simp only [List.map_cons, hb, Bool.false_eq_true, if_false, List.find?_cons]
      exact ih h

theorem pull_appended (u : User) (fid : ObjectId) (h : fid ∉ u.favorites) :
    pullFavorite fid { u with favorites := u.favorites ++ [fid] } = u := by
  have h1 : u.favorites.filter (fun x => x != fid) = u.favorites :=
    List.filter_eq_self.mpr (fun x hx => by
      have : x ≠ fid := fun e => h (e ▸ hx)
      simpa using this)
  simp [pullFavorite, List.filter_append, h1]

/-- C23: in a reachable store, when `addFavorite` replies 201 there are the
caller's claims `c`, the stored user U they find and the item's favorite `fav`,
whose id U's list did not hold: `fav` was stored already and the favorites
collection is as it was, or no favorite of the item was stored and `fav` is
appended to the collection; the users are as they were but for U's document,
whose list is the earlier list with the id of `fav` appended at the end. A
`removeFavorite` of `fav` by the same caller on that store replies 200 and
leaves U's document exactly as it was before the add (and the whole users
collection so, when U is the only user with its id), while the favorites
collection stays as the add left it, `fav` included. -/
theorem addFavorite_removeFavorite_round_trip (env : Env) (req : Req) (w : World)
    (hs : Reachable env w.store)
    (h201 : (addFavorite env req w).1.status = 201) :
    ∃ (c : Claims) (u : User) (fav : Favorite),
      req.user = some c ∧
      w.store.users.find? (fun x => x.id == c.id) = some u ∧
      env.castObjectId (req.body.get "item_id") = some fav.item_id ∧
      fav.id ∉ u.favorites ∧
      fav ∈ (addFavorite env req w).2.store.favorites ∧
      ((w.store.favorites.find? (fun x => x.item_id == fav.item_id) = some fav ∧
          (addFavorite env req w).2.store.favorites = w.store.favorites) ∨
        (w.store.favorites.find? (fun x => x.item_id == fav.item_id) = none ∧
          (addFavorite env req w).2.store.favorites = w.store.favorites ++ [fav])) ∧
      (addFavorite env req w).2.store.users =
        w.store.users.map (fun x =>
          if x.id == c.id then { u with favorites := u.favorites ++ [fav.id] } else x) ∧
      (addFavorite env req w).2.store.users.find? (fun x => x.id == c.id) =
        some { u with favorites := u.favorites ++ [fav.id] } ∧
      ∀ (req2 : Req) (c2 : Claims) (w2 : World),
        w2.store = (addFavorite env req w).2.store →
        req2.user = some c2 → c2.id = c.id →
        truthy (req2.params.get "id") = true →
        env.castObjectId (req2.params.get "id") = some fav.id →
        (removeFavorite env req2 w2).1.status = 200 ∧
        (removeFavorite env req2 w2).2.store.users =
          w.store.users.map (fun x => if x.id == c.id then u else x) ∧
        (removeFavorite env req2 w2).2.store.users.find? (fun x => x.id == c.id) = some u ∧
        ((∀ x ∈ w.store.users, x.id = c.id → x = u) →
          (removeFavorite env req2 w2).2.store.users = w.store.users) ∧
        (removeFavorite env req2 w2).2.store.favorites =
          (addFavorite env req w).2.store.favorites ∧
        fav ∈ (removeFavorite env req2 w2).2.store.favorites := by
  have hall := reachable_idsAllotted env w.store hs
  have key : ∃ (c : Claims) (u : User) (fav : Favorite),
      req.user = some c ∧
      w.store.users.find? (fun x => x.id == c.id) = some u ∧
      env.castObjectId (req.body.get "item_id") = some fav.item_id ∧
      fav.id ∉ u.favorites ∧
      fav ∈ (addFavorite env req w).2.store.favorites ∧
      ((w.store.favorites.find? (fun x => x.item_id == fav.item_id) = some fav ∧
          (addFavorite env req w).2.store.favorites = w.store.favorites) ∨
        (w.store.favorites.find? (fun x => x.item_id == fav.item_id) = none ∧
          (addFavorite env req w).2.store.favorites = w.store.favorites ++ [fav])) ∧
      (addFavorite env req w).2.store.users =
        w.store.users.map (fun x =>
          if x.id == c.id then { u with favorites := u.favorites ++ [fav.id] } else x) := by
    rcases addFavorite_cases env req w with ⟨hne, _⟩ |
      ⟨c, u, it, fav, _, _, hc, hu, hit, hfi, _, ⟨hf, hnot, h⟩ | ⟨hf, hid, h⟩⟩
    · exact absurd h201 hne
    · have huid : u.id = c.id := by simpa using List.find?_some hu
      subst hfi
      refine ⟨c, u, fav, hc, hu, hit, hnot, ?_, Or.inl ⟨hf, by rw [h]⟩, ?_⟩
      · rw [h]; exact List.mem_of_find?_eq_some hf
      · rw [h, huid]
    · have huid : u.id = c.id := by simpa using List.find?_some hu
      subst hfi
      refine ⟨c, u, fav, hc, hu, hit, ?_, ?_, Or.inr ⟨hf, by rw [h]⟩, ?_⟩
      · intro hmem
        have := hall.1 u (List.mem_of_find?_eq_some hu) fav.id hmem
        rw [hid] at this
        exact Nat.lt_irrefl _ this
      · rw [h]; exact List.mem_append_right _ (List.mem_singleton.mpr rfl)
      · rw [h, huid]
  obtain ⟨c, u, fav, hc, hu, hit, hnot, hmem, hfavs, husers⟩ := key
  have huid : u.id = c.id := by simpa using List.find?_some hu
  refine ⟨c, u, fav, hc, hu, hit, hnot, hmem, hfavs, husers, ?_, ?_⟩
  · rw [husers]
    exact find_map_replace w.store.users c.id u _ huid hu
  intro req2 c2 w2 hw2 hc2 hcid hparam hid
  obtain ⟨f1, hf1, _⟩ := find_id_of_mem Favorite.id w2.store.favorites
    (show fav ∈ w2.store.favorites by rw [hw2]; exact hmem)
  obtain ⟨hstatus, hstore⟩ := removeFavorite_run env req2 w2 c2 fav.id f1 hparam hid hf1 hc2
  have hus : (removeFavorite env req2 w2).2.store.users =
      w.store.users.map (fun x => if x.id == c.id then u else x) := by
    rw [hstore]
    simp only [hw2, husers, hcid, List.map_map]
    apply List.map_congr_left
    intro x _
    simp only [Function.comp]
    by_cases hx : x.id = c.id
    · have hb : (x.id == c.id) = true := by simpa using hx
      have hb2 : (u.id == c.id) = true := by simpa using huid
      simp only [hb, if_true, hb2]
      exact pull_appended u fav.id hnot
    · have hb : (x.id == c.id) = false := by simpa using hx
      simp only [hb, Bool.false_eq_true, if_false]
  refine ⟨hstatus, hus, ?_, ?_, ?_, ?_⟩
  · rw [hus]
    exact find_map_replace w.store.users c.id u u huid hu
  · intro huniq
    rw [hus]
    refine (List.map_congr_left (fun x hx => ?_)).trans (List.map_id _)
    by_cases hxc : x.id = c.id
    · have hb : (x.id == c.id) = true := by simpa using hxc
      simp only [hb, if_true, id]
      exact (huniq x hx hxc).symm
    · have hb : (x.id == c.id) = false := by simpa using hxc
      simp only [hb, Bool.false_eq_true, if_false, id]
  · rw [hstore, hw2]
  · rw [hstore, hw2]
    exact hmem

theorem addFavorite_removeFavorite_round_trip_witness :
    Reachable sampleEnv setupWorld.store ∧
    (addFavorite sampleEnv addFavoriteReq setupWorld).1.status = 201 ∧
    (addFavorite sampleEnv addFavoriteReq setupWorld).2.store.users.map User.favorites = [[2]] ∧
    (removeFavorite sampleEnv removeAddedReq
      (addFavorite sampleEnv addFavoriteReq setupWorld).2).1.status = 200 ∧
    (removeFavorite sampleEnv removeAddedReq
      (addFavorite sampleEnv addFavoriteReq setupWorld).2).2.store.users =
        setupWorld.store.users ∧
    (removeFavorite sampleEnv removeAddedReq
      (addFavorite sampleEnv addFavoriteReq setupWorld).2).2.store.favorites.map Favorite.id =
        [2] ∧
    ∃ (c : Claims) (u : User) (fav : Favorite),
      addFavoriteReq.user = some c ∧
      setupWorld.store.users.find? (fun x => x.id == c.id) = some u ∧
      fav ∈ (addFavorite sampleEnv addFavoriteReq setupWorld).2.store.favorites :=
  have hr : Reachable sampleEnv setupWorld.store := ⟨setupEvents, rfl⟩
  have h201 : (addFavorite sampleEnv addFavoriteReq setupWorld).1.status = 201 := by decide
  match addFavorite_removeFavorite_round_trip sampleEnv addFavoriteReq setupWorld hr h201 with
  | ⟨c, u, fav, hc, hu, _, _, hmem, _⟩ =>
    ⟨hr, h201, by decide, by decide, by decide, by decide, c, u, fav, hc, hu, hmem⟩

/-! ## `addUser` has no minimum password length -/

/-- C24: for an `addUser` request with a fresh, well-formed email, the role
Editor or Viewer and a non-empty string password of any length (and a hashing
service that returns a hash), the reply is 201 and one user is appended, with
that email, that role and the hash of that password.  When the password has
length 4 or less, `signup` answers the same body with 400, and
`updatePassword` answers such a new password with 400. -/
theorem addUser_no_password_length (env : Env) (req : Req) (w : World) (e r p : String)
    (he : req.body.get "email" = JsVal.str e) (hne : e ≠ "") (hv : env.isEmail e = true)
    (hfresh : ∀ u ∈ w.store.users, u.email ≠ e)
    (hr : req.body.get "role" = JsVal.str r) (hrole : r = "Editor" ∨ r = "Viewer")
    (hp : req.body.get "password" = JsVal.str p) (hpne : p ≠ "")
    (hh : env.hash p req.salt ≠ "") :
    (addUser env req w).1 = reply "state" 201 Json.null "User created successfully." Json.null ∧
    (addUser env req w).2.store =
      { w.store with
        users := w.store.users ++
          [{ id := w.store.nextId, email := e, password := env.hash p req.salt, role := r,
             favorites := [], createdAt := req.nowMs }]
        nextId := w.store.nextId + 1 } ∧
    (jsLength p ≤ 4 →
      (signup env req w).1.status = 400 ∧ (signup env req w).2.store = w.store) ∧
    (jsLength p ≤ 4 → ∀ (req2 : Req) (c : Claims), req2.user = some c →
      req2.body.get "new_password" = JsVal.str p →
      (updatePassword env req2 w).1.status = 400 ∧
      (updatePassword env req2 w).2.store = w.store) := by
  have hfu : w.store.users.find? (fun u => u.email == e) = none := by
    rw [List.find?_eq_none]
    intro u hu
    simpa using hfresh u hu
  have hnex : ¬∃ x ∈ w.store.users, x.email = e := by
    rintro ⟨x, hx, hxe⟩
    exact hfresh x hx hxe
  have hrne : r ≠ "" := by
    rcases hrole with h | h <;> rw [h] <;> decide
  have hadm : r ≠ "Admin" := by
    rcases hrole with h | h <;> rw [h] <;> decide
  have henum : ¬(¬r = "Editor" ∧ ¬r = "Viewer") := by
    rintro ⟨h2, h3⟩
    rcases hrole with h | h
    · exact h2 h
    · exact h3 h
  refine ⟨?_, ?_, fun hlen => signup_short_password env req w e p he hv hfresh hp hlen,
    fun hlen req2 c hc hp2 => updatePassword_short env req2 w c p hc hp2 hlen⟩
  · simp [addUser, catch500, he, hp, hr, truthy, strictEqStr, hne, hpne, hrne, hadm,
      User.findOne, castStr, hfu, isEmail, hv, bcryptHash, User.create, hh, hnex, henum]
  · simp [addUser, catch500, he, hp, hr, truthy, strictEqStr, hne, hpne, hrne, hadm,
      User.findOne, castStr, hfu, isEmail, hv, bcryptHash, User.create, hh, hnex, henum]

theorem addUser_no_password_length_witness :
    (addUser sampleEnv addViewerShortReq setupWorld).1 =
      reply "state" 201 Json.null "User created successfully." Json.null ∧
    (addUser sampleEnv addViewerShortReq setupWorld).2.store.users.map
        (fun u => (u.email, u.password, u.role)) =
      [("a@x.com", "hash:abcd1", "Admin"), ("v@x.com", "hash:a", "Viewer")] ∧
    (signup sampleEnv addViewerShortReq setupWorld).1.status = 400 :=
  have h := addUser_no_password_length sampleEnv addViewerShortReq setupWorld "v@x.com"
    "Viewer" "a" rfl (by decide) (by decide) (by decide) rfl (Or.inr rfl) rfl (by decide)
    (hash_ne_empty "a" 0)
  ⟨h.1, by decide, (h.2.2.1 (by decide)).1⟩

end MusicLib
